import Mathlib

/-!
# cc/trees/layer_tree_host_impl.cc : a shallow embedding

The impl-side compositor pipeline `LayerTreeHostImpl` is embedded as pure
state-passing functions.  Each section embeds one group of member functions
of `src/cc/trees/layer_tree_host_impl.cc`; the member names are kept.
-/

namespace LayerTreeHostImpl

/-! ## Tree lifecycle: `active_tree_`, `pending_tree_`, `recycle_tree_` -/

/-- The three `std::unique_ptr<LayerTreeImpl>` slots.  A tree object is named by
the serial number of the `base::MakeUnique<LayerTreeImpl>` call that made it, so
two slots hold the same object exactly when they hold the same number.
`trees_allocated` counts the `MakeUnique` calls made so far, and
`has_impl_thread` is `task_runner_provider_->HasImplThread()`. -/
structure TreeSlots where
  active_tree_ : Option Nat
  pending_tree_ : Option Nat
  recycle_tree_ : Option Nat
  trees_allocated : Nat
  has_impl_thread : Bool
  deriving DecidableEq, Repr

/-- The constructor: `active_tree_ = base::MakeUnique<LayerTreeImpl>(...)`, the
other two slots start empty ("LTHI always has an active tree"). -/
def construct (has_impl_thread : Bool) : TreeSlots :=
  { active_tree_ := some 0
    pending_tree_ := none
    recycle_tree_ := none
    trees_allocated := 1
    has_impl_thread := has_impl_thread }

/-- `CommitToActiveTree()`: `return !task_runner_provider_->HasImplThread();` -/
def CommitToActiveTree (s : TreeSlots) : Bool :=
  !s.has_impl_thread

/-- `CreatePendingTree()`.  `CHECK(!pending_tree_)` is fatal: the result is
`none`.  Otherwise the recycle tree is swapped into the pending slot when there
is one, and a new tree is allocated when there is none. -/
def CreatePendingTree (s : TreeSlots) : Option TreeSlots :=
  match s.pending_tree_ with
  | some _ => none
  | none =>
    match s.recycle_tree_ with
    | some r =>
      -- recycle_tree_.swap(pending_tree_)
      some { s with pending_tree_ := some r, recycle_tree_ := s.pending_tree_ }
    | none =>
      -- pending_tree_ = base::MakeUnique<LayerTreeImpl>(...)
      some { s with pending_tree_ := some s.trees_allocated
                    trees_allocated := s.trees_allocated + 1 }

/-- `BeginCommit()`: `if (!CommitToActiveTree()) CreatePendingTree();` -/
def BeginCommit (s : TreeSlots) : Option TreeSlots :=
  if !CommitToActiveTree s then CreatePendingTree s else some s

/-- `ActivateSyncTree()`, as far as the three slots go.  With a pending tree the
only statement that touches a slot is `pending_tree_.swap(recycle_tree_)`
("rename the pending tree the recycle tree"); `PushPropertiesTo` and
`PushLayerProperties` copy contents into the object that `active_tree_` already
holds.  Without a pending tree no slot changes. -/
def ActivateSyncTree (s : TreeSlots) : TreeSlots :=
  match s.pending_tree_ with
  | some _ =>
    { s with pending_tree_ := s.recycle_tree_, recycle_tree_ := s.pending_tree_ }
  | none => s

/-- The two calls of the commit / activate handshake. -/
inductive TreeCall where
  | beginCommit
  | activateSyncTree
  deriving DecidableEq, Repr

/-- One call; `none` when the call hits a fatal `CHECK`. -/
def stepTree (s : TreeSlots) : TreeCall → Option TreeSlots
  | .beginCommit => BeginCommit s
  | .activateSyncTree => some (ActivateSyncTree s)

/-- A sequence of calls, left to right; `none` as soon as one call is fatal. -/
def runTree (s : TreeSlots) : List TreeCall → Option TreeSlots
  | [] => some s
  | c :: cs => (stepTree s c).bind fun t => runTree t cs

/-- What every state reached from the constructor satisfies: the active slot
holds the first tree, a second tree (if any) sits in exactly one of the pending
and recycle slots, and at most two trees were ever allocated. -/
def TreeInv (s : TreeSlots) : Prop :=
  s.active_tree_ = some 0 ∧
  (s.pending_tree_ = none ∨ s.pending_tree_ = some 1) ∧
  (s.recycle_tree_ = none ∨ s.recycle_tree_ = some 1) ∧
  (s.pending_tree_ = none ∨ s.recycle_tree_ = none) ∧
  s.trees_allocated ≤ 2 ∧
  ((s.pending_tree_ = some 1 ∨ s.recycle_tree_ = some 1) → s.trees_allocated = 2) ∧
  (s.pending_tree_ = none → s.recycle_tree_ = none → s.trees_allocated = 1)

instance (s : TreeSlots) : Decidable (TreeInv s) := by
  unfold TreeInv
  infer_instance

/-! ## Frame assembly: `RemoveRenderPasses` -/

/-- `DrawQuad::Material`, as far as `RemoveRenderPasses` tells the values apart:
`RENDER_PASS` against every other material. -/
inductive Material where
  | RENDER_PASS
  | OTHER (kind : Nat)
  deriving DecidableEq, Repr

/-- A quad of a pass's `quad_list`.  `render_pass_id` is the field of
`RenderPassDrawQuad`, read only when `material` is `RENDER_PASS`. -/
structure DrawQuad where
  material : Material
  render_pass_id : Nat
  deriving DecidableEq, Repr

/-- A `RenderPass`: its id, its quads in order, and its pending copy requests. -/
structure RenderPass where
  id : Nat
  quad_list : List DrawQuad
  copy_requests : List Nat
  deriving DecidableEq, Repr

/-- `pass_references[id]++` and `pass_references[id]--` on the map from
`RenderPassId` to `int`, whose missing entries read 0. -/
def adjustReference (pass_references : Nat → Int) (id : Nat) (amount : Int) : Nat → Int :=
  fun k => if k = id then pass_references k + amount else pass_references k

/-- The inner loop of the first pass over `frame->render_passes`
("Remove orphan RenderPassDrawQuads"): a `RENDER_PASS` quad whose pass is in
`pass_exists` is kept and counted, one whose pass is not is erased, every other
quad is kept. -/
def removeOrphanQuads (pass_exists : List Nat) :
    (Nat → Int) → List DrawQuad → List DrawQuad × (Nat → Int)
  | pass_references, [] => ([], pass_references)
  | pass_references, quad :: rest =>
    if quad.material ≠ Material.RENDER_PASS then
      let r := removeOrphanQuads pass_exists pass_references rest
      (quad :: r.1, r.2)
    else if quad.render_pass_id ∈ pass_exists then
      let r := removeOrphanQuads pass_exists
        (adjustReference pass_references quad.render_pass_id 1) rest
      (quad :: r.1, r.2)
    else
      removeOrphanQuads pass_exists pass_references rest

/-- The first loop of `RemoveRenderPasses`, in draw order.  Every pass has its
orphan quads removed; the loop breaks at the last pass ("Don't remove the root
RenderPass"); an earlier pass left with no quad and no copy request is erased,
any other earlier pass is entered into `pass_exists`. -/
def removeEmptyPasses :
    List Nat → (Nat → Int) → List RenderPass → List RenderPass × (Nat → Int)
  | _, pass_references, [] => ([], pass_references)
  | pass_exists, pass_references, [root] =>
    let q := removeOrphanQuads pass_exists pass_references root.quad_list
    ([{ root with quad_list := q.1 }], q.2)
  | pass_exists, pass_references, pass :: next :: rest =>
    let q := removeOrphanQuads pass_exists pass_references pass.quad_list
    if q.1.isEmpty && pass.copy_requests.isEmpty then
      removeEmptyPasses pass_exists q.2 (next :: rest)
    else
      let r := removeEmptyPasses (pass.id :: pass_exists) q.2 (next :: rest)
      ({ pass with quad_list := q.1 } :: r.1, r.2)

/-- The body of the second loop for an erased pass: every `RENDER_PASS` quad of
the pass drops one reference to the pass it names. -/
def dropReferences : (Nat → Int) → List DrawQuad → (Nat → Int)
  | pass_references, [] => pass_references
  | pass_references, quad :: rest =>
    if quad.material ≠ Material.RENDER_PASS then dropReferences pass_references rest
    else dropReferences (adjustReference pass_references quad.render_pass_id (-1)) rest

/-- The second loop of `RemoveRenderPasses`, over the non-root passes from the
back of the list to the front (the argument lists them in that order): a pass
with a copy request or with a non-zero reference count stays, any other pass is
erased after its references are dropped. -/
def removeUnreferencedPasses : (Nat → Int) → List RenderPass → List RenderPass
  | _, [] => []
  | pass_references, pass :: earlier =>
    if !pass.copy_requests.isEmpty then
      pass :: removeUnreferencedPasses pass_references earlier
    else if pass_references pass.id ≠ 0 then
      pass :: removeUnreferencedPasses pass_references earlier
    else
      removeUnreferencedPasses (dropReferences pass_references pass.quad_list) earlier

/-- `RemoveRenderPasses(frame)` on `frame->render_passes`.  The function requires
at least a root pass (`DCHECK_GE(frame->render_passes.size(), 1u)`); on an empty
list the result is `none`. -/
def RemoveRenderPasses (render_passes : List RenderPass) : Option (List RenderPass) :=
  match render_passes with
  | [] => none
  | _ :: _ =>
    let first := removeEmptyPasses [] (fun _ => 0) render_passes
    match first.1.reverse with
    | [] => some []
    | root :: non_root_back_to_front =>
      some ((removeUnreferencedPasses first.2 non_root_back_to_front).reverse ++ [root])

/-! ## Raster budget: `UpdateTileManagerMemoryPolicy`, `SetVisible` -/

/-- `gpu::MemoryAllocation::PriorityCutoff`. -/
inductive PriorityCutoff where
  | CUTOFF_ALLOW_NOTHING
  | CUTOFF_ALLOW_REQUIRED_ONLY
  | CUTOFF_ALLOW_NICE_TO_HAVE
  | CUTOFF_ALLOW_EVERYTHING
  deriving DecidableEq, Repr

/-- `ManagedMemoryPolicy`; the two limits are `size_t` values. -/
structure ManagedMemoryPolicy where
  bytes_limit_when_visible : Nat
  priority_cutoff_when_visible : PriorityCutoff
  num_resources_limit : Nat
  deriving DecidableEq, Repr

/-- The fields of `global_tile_state_` that `UpdateTileManagerMemoryPolicy`
writes.  `memory_limit_policy` is recorded as the priority cutoff handed to
`ManagedMemoryPolicy::PriorityCutoffToTileMemoryLimitPolicy`. -/
structure GlobalStateThatImpactsTilePriority where
  hard_memory_limit_in_bytes : Nat
  soft_memory_limit_in_bytes : Nat
  memory_limit_policy : PriorityCutoff
  num_resources_limit : Nat
  deriving DecidableEq, Repr

/-- The members read or written by the memory-policy functions.
`resource_pool_` is `true` when the pointer is non-null,
`rasterize_only_visible_content` is the `debug_state_` flag, and
`max_memory_for_prepaint_percentage` the `settings_` value. -/
structure MemoryState where
  visible_ : Bool
  resource_pool_ : Bool
  global_tile_state_ : GlobalStateThatImpactsTilePriority
  cached_managed_memory_policy_ : ManagedMemoryPolicy
  rasterize_only_visible_content : Bool
  use_gpu_rasterization_ : Bool
  max_memory_for_prepaint_percentage : Nat
  requires_high_res_to_draw_ : Bool
  deriving DecidableEq, Repr

/-- The width of `int64_t`, and of `size_t` on a 64-bit target: arithmetic on
them is modulo `2 ^ 64`. -/
def wordModulus : Nat := 2 ^ 64

/-- The soft limit expression
`(static_cast<int64_t>(hard) * settings_.max_memory_for_prepaint_percentage) / 100`:
a 64-bit product, which wraps, then a division, stored in a `size_t`. -/
def softLimitFor (hard percentage : Nat) : Nat :=
  (((hard % wordModulus) * (percentage % wordModulus)) % wordModulus / 100) % wordModulus

/-- `UpdateTileManagerMemoryPolicy(policy)`.  Without a resource pool the
function returns at once.  Otherwise both byte limits are zeroed and, when
visible with a positive visible byte limit, set from the policy; the cutoff and
the resource-count limit are stored. -/
def UpdateTileManagerMemoryPolicy (s : MemoryState) (policy : ManagedMemoryPolicy) :
    MemoryState :=
  if !s.resource_pool_ then s
  else
    let hard :=
      if s.visible_ && decide (policy.bytes_limit_when_visible > 0) then
        policy.bytes_limit_when_visible % wordModulus
      else 0
    let soft :=
      if s.visible_ && decide (policy.bytes_limit_when_visible > 0) then
        softLimitFor hard s.max_memory_for_prepaint_percentage
      else 0
    { s with
      global_tile_state_ :=
        { hard_memory_limit_in_bytes := hard
          soft_memory_limit_in_bytes := soft
          memory_limit_policy :=
            if s.visible_ then policy.priority_cutoff_when_visible
            else PriorityCutoff.CUTOFF_ALLOW_NOTHING
          num_resources_limit := policy.num_resources_limit } }

/-- `ActualManagedMemoryPolicy()`: the cached policy with its visible cutoff
overridden by the debug flag or by GPU rasterization. -/
def ActualManagedMemoryPolicy (s : MemoryState) : ManagedMemoryPolicy :=
  if s.rasterize_only_visible_content then
    { s.cached_managed_memory_policy_ with
      priority_cutoff_when_visible := PriorityCutoff.CUTOFF_ALLOW_REQUIRED_ONLY }
  else if s.use_gpu_rasterization_ then
    { s.cached_managed_memory_policy_ with
      priority_cutoff_when_visible := PriorityCutoff.CUTOFF_ALLOW_NICE_TO_HAVE }
  else s.cached_managed_memory_policy_

/-- `SetVisible(visible)`: nothing when the visibility is unchanged; otherwise
the flag is stored, the actual policy is applied, and on becoming visible
`SetRequiresHighResToDraw()` sets its flag.  (`EvictAllUIResources` and
`PrepareTiles`, run on becoming invisible, write none of these members.) -/
def SetVisible (s : MemoryState) (visible : Bool) : MemoryState :=
  if s.visible_ = visible then s
  else
    let s1 := { s with visible_ := visible }
    let s2 := UpdateTileManagerMemoryPolicy s1 (ActualManagedMemoryPolicy s1)
    if s2.visible_ then { s2 with requires_high_res_to_draw_ := true } else s2

/-- `CreateTileManagerResources()`, on these members: the resource pool is
created and `UpdateTileManagerMemoryPolicy(ActualManagedMemoryPolicy())` runs. -/
def CreateTileManagerResources (s : MemoryState) : MemoryState :=
  let s1 := { s with resource_pool_ := true }
  UpdateTileManagerMemoryPolicy s1 (ActualManagedMemoryPolicy s1)

/-- `CleanUpTileManagerAndUIResources()`, on these members:
`resource_pool_ = nullptr`. -/
def CleanUpTileManagerAndUIResources (s : MemoryState) : MemoryState :=
  { s with resource_pool_ := false }

/-- A host as the constructor leaves these members: not visible, no resource
pool, the policy cached from the settings, and a `global_tile_state_` that no
function has written yet (shown with zero limits). -/
def memoryStateAtConstruction (gpu_memory_policy : ManagedMemoryPolicy)
    (max_memory_for_prepaint_percentage : Nat) : MemoryState :=
  { visible_ := false
    resource_pool_ := false
    global_tile_state_ :=
      { hard_memory_limit_in_bytes := 0
        soft_memory_limit_in_bytes := 0
        memory_limit_policy := PriorityCutoff.CUTOFF_ALLOW_NOTHING
        num_resources_limit := 0 }
    cached_managed_memory_policy_ := gpu_memory_policy
    rasterize_only_visible_content := false
    use_gpu_rasterization_ := false
    max_memory_for_prepaint_percentage := max_memory_for_prepaint_percentage
    requires_high_res_to_draw_ := false }

/-- A visible host with a resource pool and a pre-paint share of 50%, used to
instantiate the memory-policy theorems. -/
def visibleHostWithPool : MemoryState :=
  { visible_ := true
    resource_pool_ := true
    global_tile_state_ :=
      { hard_memory_limit_in_bytes := 0
        soft_memory_limit_in_bytes := 0
        memory_limit_policy := PriorityCutoff.CUTOFF_ALLOW_NOTHING
        num_resources_limit := 0 }
    cached_managed_memory_policy_ :=
      { bytes_limit_when_visible := 1000
        priority_cutoff_when_visible := PriorityCutoff.CUTOFF_ALLOW_EVERYTHING
        num_resources_limit := 10 }
    rasterize_only_visible_content := false
    use_gpu_rasterization_ := false
    max_memory_for_prepaint_percentage := 50
    requires_high_res_to_draw_ := false }

/-! ## Raster budget: `UpdateGpuRasterizationStatus` -/

/-- `GpuRasterizationStatus`. -/
inductive GpuRasterizationStatus where
  | ON
  | ON_FORCED
  | OFF_DEVICE
  | OFF_VIEWPORT
  | MSAA_CONTENT
  | OFF_CONTENT
  deriving DecidableEq, Repr

/-- The two capabilities of a context that the decision reads. -/
structure ContextCapabilities where
  msaa_is_slow : Bool
  max_samples : Int
  deriving DecidableEq, Repr

/-- A `CompositorFrameSink`, as seen by the decision: `context_provider` is
`none` for a null `context_provider()`, else its capabilities;
`worker_context_provider` is `none` for a null `worker_context_provider()`, else
whether its `GrContext()` is non-null. -/
structure CompositorFrameSink where
  context_provider : Option ContextCapabilities
  worker_context_provider : Option Bool
  deriving DecidableEq, Repr

/-- The members read or written by `UpdateGpuRasterizationStatus`.  The three
`gpu_rasterization_*` fields without a trailing underscore are `settings_`
values; the device scale factors are those of the pending tree (if any) and of
the active tree. -/
structure GpuRasterState where
  compositor_frame_sink_ : Option CompositorFrameSink
  gpu_rasterization_forced : Bool
  gpu_rasterization_enabled : Bool
  gpu_rasterization_msaa_sample_count : Int
  has_gpu_rasterization_trigger_ : Bool
  content_is_suitable_for_gpu_rasterization_ : Bool
  use_gpu_rasterization_ : Bool
  use_msaa_ : Bool
  gpu_rasterization_status_ : GpuRasterizationStatus
  pending_tree_device_scale_factor : Option ℚ
  active_tree_device_scale_factor : ℚ
  deriving DecidableEq

/-- `RequestedMSAASampleCount()`: the setting, or for the setting -1 a count
chosen from the most recent device scale factor. -/
def RequestedMSAASampleCount (s : GpuRasterState) : Int :=
  if s.gpu_rasterization_msaa_sample_count = -1 then
    let device_scale_factor :=
      match s.pending_tree_device_scale_factor with
      | some f => f
      | none => s.active_tree_device_scale_factor
    if device_scale_factor ≥ 2 then 4 else 8
  else s.gpu_rasterization_msaa_sample_count

/-- `CanUseGpuRasterization()`: a frame sink with both context providers, and a
non-null `GrContext()` on the worker context. -/
def CanUseGpuRasterization (s : GpuRasterState) : Bool :=
  match s.compositor_frame_sink_ with
  | none => false
  | some sink =>
    match sink.context_provider, sink.worker_context_provider with
    | some _, some gr_context => gr_context
    | _, _ => false

/-- The local `max_msaa_samples` of `UpdateGpuRasterizationStatus`: 0 unless the
sink has a compositor context that does not report MSAA as slow, in which case
it is the context's `max_samples`. -/
def maxMsaaSamples (sink : CompositorFrameSink) : Int :=
  match sink.context_provider with
  | some caps => if !caps.msaa_is_slow then caps.max_samples else 0
  | none => 0

/-- `UpdateGpuRasterizationStatus()`: the returned flag (did the decision
change) and the new state.  Without a frame sink nothing changes. -/
def UpdateGpuRasterizationStatus (s : GpuRasterState) : Bool × GpuRasterState :=
  match s.compositor_frame_sink_ with
  | none => (false, s)
  | some sink =>
    let requested_msaa_samples := RequestedMSAASampleCount s
    let max_msaa_samples := maxMsaaSamples sink
    let using_msaa_for_complex_content : Bool :=
      decide (requested_msaa_samples > 0) && decide (max_msaa_samples ≥ requested_msaa_samples)
    -- the decision table: (use_gpu, use_msaa, status)
    let decision : Bool × Bool × GpuRasterizationStatus :=
      if s.gpu_rasterization_forced then
        let use_msaa :=
          !s.content_is_suitable_for_gpu_rasterization_ && using_msaa_for_complex_content
        (true, use_msaa,
          if use_msaa then GpuRasterizationStatus.MSAA_CONTENT
          else GpuRasterizationStatus.ON_FORCED)
      else if !s.gpu_rasterization_enabled then
        (false, false, GpuRasterizationStatus.OFF_DEVICE)
      else if !s.has_gpu_rasterization_trigger_ then
        (false, false, GpuRasterizationStatus.OFF_VIEWPORT)
      else if s.content_is_suitable_for_gpu_rasterization_ then
        (true, false, GpuRasterizationStatus.ON)
      else if using_msaa_for_complex_content then
        (true, true, GpuRasterizationStatus.MSAA_CONTENT)
      else
        (false, false, GpuRasterizationStatus.OFF_CONTENT)
    -- "If GPU rasterization is unusable ... force use of software raster."
    let decision : Bool × Bool × GpuRasterizationStatus :=
      if decision.1 && !s.use_gpu_rasterization_ && !CanUseGpuRasterization s then
        (false, false, GpuRasterizationStatus.OFF_DEVICE)
      else decision
    let s1 := { s with gpu_rasterization_status_ := decision.2.2 }
    if decision.1 = s.use_gpu_rasterization_ ∧ decision.2.1 = s.use_msaa_ then
      (false, s1)
    else
      (true, { s1 with use_gpu_rasterization_ := decision.1, use_msaa_ := decision.2.1 })

/-- A host with a GPU frame sink (8 samples, MSAA not slow, worker context
usable), used to instantiate the decision theorems; the arguments set the
forced-on and device-enabled settings. -/
def gpuHost (forced enabled : Bool) : GpuRasterState :=
  { compositor_frame_sink_ :=
      some { context_provider := some { msaa_is_slow := false, max_samples := 8 }
             worker_context_provider := some true }
    gpu_rasterization_forced := forced
    gpu_rasterization_enabled := enabled
    gpu_rasterization_msaa_sample_count := -1
    has_gpu_rasterization_trigger_ := true
    content_is_suitable_for_gpu_rasterization_ := false
    use_gpu_rasterization_ := false
    use_msaa_ := false
    gpu_rasterization_status_ := GpuRasterizationStatus.ON
    pending_tree_device_scale_factor := none
    active_tree_device_scale_factor := 1 }

/-- The GPU host with the forced-on setting, a requested sample count of 8, and a
compositor context that offers 8 samples but reports MSAA as slow. -/
def slowMsaaHost : GpuRasterState :=
  { gpuHost true true with
    compositor_frame_sink_ :=
      some { context_provider := some { msaa_is_slow := true, max_samples := 8 }
             worker_context_provider := some true } }

/-! ## Scroll routing: data -/

/-- A pair of coordinates; stands for `gfx::Vector2dF`, `gfx::PointF` and
`gfx::ScrollOffset`, over exact rational arithmetic. -/
structure Vector2dF where
  x : ℚ
  y : ℚ
  deriving DecidableEq

/-- Component-wise sum. -/
def Vector2dF.add (a b : Vector2dF) : Vector2dF := ⟨a.x + b.x, a.y + b.y⟩

/-- Component-wise difference. -/
def Vector2dF.sub (a b : Vector2dF) : Vector2dF := ⟨a.x - b.x, a.y - b.y⟩

/-- `Scale(factor)`. -/
def Vector2dF.scale (a : Vector2dF) (factor : ℚ) : Vector2dF := ⟨a.x * factor, a.y * factor⟩

/-- `gfx::DotProduct`. -/
def Vector2dF.dot (a b : Vector2dF) : ℚ := a.x * b.x + a.y * b.y

/-- `IsZero()`. -/
def Vector2dF.IsZero (a : Vector2dF) : Bool := decide (a.x = 0) && decide (a.y = 0)

/-- A `gfx::Rect` of a non-fast-scrollable region. -/
structure Rect where
  x : Int
  y : Int
  width : Int
  height : Int
  deriving DecidableEq

/-- Modelled from the spec: `gfx::Rect::Contains(point)` is not part of the
sources; it decides whether a "non-fast-scrollable region contain[s] the point".
Left and top edges are inclusive, right and bottom exclusive. -/
def Rect.Contains (r : Rect) (px py : Int) : Bool :=
  decide (r.x ≤ px) && decide (px < r.x + r.width) &&
    decide (r.y ≤ py) && decide (py < r.y + r.height)

/-- Modelled from the spec: `gfx::ToRoundedPoint` is not part of the sources; it
rounds each coordinate to the nearest integer, halves away from zero. -/
def ToRoundedInt (q : ℚ) : Int :=
  if 0 ≤ q then ⌊q + 1 / 2⌋ else ⌈q - 1 / 2⌉

/-- What the scroll functions use of `scroll_tree.ScreenSpaceTransform(id)`:
`IsInvertible()`, `MathUtil::ProjectPoint` through its inverse, and
`MathUtil::MapPoint` through the transform itself; each point function also
reports `clipped`. -/
structure ScreenSpaceTransform where
  IsInvertible : Bool
  ProjectPoint : Vector2dF → Vector2dF × Bool
  MapPoint : Vector2dF → Vector2dF × Bool

/-- A `ScrollNode` together with what the scroll tree and the owning layer
answer about it: `max_scroll_offset` is `scroll_tree.MaxScrollOffset(id)`,
`current_scroll_offset` is `scroll_tree.current_scroll_offset(owner_id)`,
`non_fast_scrollable_region` is that of `LayerById(owner_id)`, and
`parent_id` is `none` for the root of the scroll tree. -/
structure ScrollNode where
  id : Nat
  owner_id : Nat
  parent_id : Option Nat
  scrollable : Bool
  main_thread_scrolling_reasons : Nat
  contains_non_fast_scrollable_region : Bool
  non_fast_scrollable_region : List Rect
  user_scrollable_horizontal : Bool
  user_scrollable_vertical : Bool
  max_scroll_offset : Vector2dF
  current_scroll_offset : Vector2dF
  deriving DecidableEq

/-- The scroll tree of the active tree. -/
structure ScrollTree where
  nodes : List ScrollNode
  ScreenSpaceTransform : Nat → ScreenSpaceTransform
  currently_scrolling_node_id : Option Nat

/-- Modelled from the spec: `scroll_tree.Node(id)` is not part of the sources;
the node of the tree with that id, null when there is none. -/
def ScrollTree.Node (t : ScrollTree) (id : Nat) : Option ScrollNode :=
  t.nodes.find? fun n => n.id = id

/-- Modelled from the spec: `scroll_tree.parent(node)` is not part of the
sources; "every node's ancestor chain up to the root must be walkable", and the
root has a null parent. -/
def ScrollTree.parent (t : ScrollTree) (n : ScrollNode) : Option ScrollNode :=
  n.parent_id.bind t.Node

/-- Modelled from the spec: `scroll_tree.CurrentlyScrollingNode()` is not part
of the sources; the node that carries the "currently scrolling" marker, if any. -/
def ScrollTree.CurrentlyScrollingNode (t : ScrollTree) : Option ScrollNode :=
  t.currently_scrolling_node_id.bind t.Node

/-- The nodes visited by the loop
`for (; scroll_tree.parent(n); n = scroll_tree.parent(n))` that starts at
`start`: the start node and its ancestors, the parentless root left out.  The
walk takes at most `fuel` steps; a well-formed tree needs no more than its number
of nodes. -/
def ScrollTree.walkToRoot (t : ScrollTree) : Nat → ScrollNode → List ScrollNode
  | 0, _ => []
  | fuel + 1, start =>
    match t.parent start with
    | none => []
    | some p => start :: t.walkToRoot fuel p

/-- A `LayerImpl`, as far as scrolling reads it. -/
structure LayerImpl where
  id : Nat
  scroll_tree_index : Nat
  user_scrollable_horizontal : Bool
  user_scrollable_vertical : Bool
  deriving DecidableEq

/-- `InputHandler::ScrollThread`. -/
inductive ScrollThread where
  | SCROLL_ON_MAIN_THREAD
  | SCROLL_ON_IMPL_THREAD
  | SCROLL_IGNORED
  | SCROLL_UNKNOWN
  deriving DecidableEq, Repr

/-- The `MainThreadScrollingReason` values that the scroll functions assign;
`ofNode bits` is a node's own non-zero `main_thread_scrolling_reasons`. -/
inductive MainThreadScrollingReason where
  | kNotScrollingOnMain
  | kNonFastScrollableRegion
  | kFailedHitTest
  | kNoScrollingLayer
  | kNotScrollable
  | kNonInvertibleTransform
  | ofNode (bits : Nat)
  deriving DecidableEq, Repr

/-- `InputHandler::ScrollStatus`. -/
structure ScrollStatus where
  thread : ScrollThread
  main_thread_scrolling_reasons : MainThreadScrollingReason
  deriving DecidableEq, Repr

/-- `InputHandler::ScrollInputType`. -/
inductive ScrollInputType where
  | TOUCHSCREEN
  | WHEEL
  | NON_BUBBLING_GESTURE
  deriving DecidableEq, Repr

/-- `IsWheelBasedScroll(type)`. -/
def IsWheelBasedScroll (type : ScrollInputType) : Bool :=
  decide (type = ScrollInputType.WHEEL)

/-! ## Scroll routing: host state, `TryScroll`, hit testing -/

/-- `ScrollState`, as the scroll functions read and write it.  The position is
the integral `gfx::Point` built from `position_x()` and `position_y()`;
`current_native_scrolling_node` holds a scroll node id. -/
structure ScrollState where
  delta_x : ℚ
  delta_y : ℚ
  position_x : Int
  position_y : Int
  is_direct_manipulation : Bool
  delta_consumed_for_scroll_sequence : Bool
  caused_scroll_x : Bool
  caused_scroll_y : Bool
  current_native_scrolling_node : Option Nat
  deriving DecidableEq

/-- The members of the host and of its active tree that scrolling reads or
writes.  Layers are named by their ids.  `viewport_main_scroll_layer` is
`viewport()->MainScrollLayer()`; the two `find_*` functions are the hit tests of
the active tree (`FindLayerThatIsHitByPoint` and
`FindFirstScrollingLayerOrScrollbarLayerThatIsHitByPoint`), which are outside
this file and are taken as given. -/
structure ScrollHost where
  scroll_tree : ScrollTree
  layers : List LayerImpl
  inner_viewport_scroll_layer : Option Nat
  outer_viewport_scroll_layer : Option Nat
  viewport_main_scroll_layer : Option Nat
  device_scale_factor : ℚ
  current_page_scale_factor : ℚ
  have_scroll_event_handlers : Bool
  FindLayerThatIsHitByPoint : Vector2dF → Option Nat
  FindFirstScrollingLayerOrScrollbarLayerThatIsHitByPoint : Vector2dF → Option Nat
  did_lock_scrolling_layer_ : Bool
  wheel_scrolling_ : Bool
  scroll_affects_scroll_handler_ : Bool
  accumulated_root_overscroll_ : Vector2dF

/-- Modelled from the spec: `active_tree_->LayerById(id)` is not part of the
sources; the layer of the active tree with that id, null when there is none. -/
def ScrollHost.LayerById (h : ScrollHost) (id : Nat) : Option LayerImpl :=
  h.layers.find? fun l => l.id = id

/-- `CurrentlyScrollingLayer()`, which forwards to the active tree.  Modelled
from the spec, `LayerTreeImpl::CurrentlyScrollingLayer` not being part of the
sources: the layer owning the currently scrolling node. -/
def ScrollHost.CurrentlyScrollingLayer (h : ScrollHost) : Option LayerImpl :=
  h.scroll_tree.CurrentlyScrollingNode.bind fun n => h.LayerById n.owner_id

/-- `TryScroll(screen_space_point, type, scroll_tree, scroll_node)`. -/
def TryScroll (h : ScrollHost) (screen_space_point : Vector2dF) (_type : ScrollInputType)
    (scroll_node : ScrollNode) : ScrollStatus :=
  if scroll_node.main_thread_scrolling_reasons ≠ 0 then
    { thread := ScrollThread.SCROLL_ON_MAIN_THREAD
      main_thread_scrolling_reasons :=
        MainThreadScrollingReason.ofNode scroll_node.main_thread_scrolling_reasons }
  else
    let screen_space_transform := h.scroll_tree.ScreenSpaceTransform scroll_node.id
    if !screen_space_transform.IsInvertible then
      { thread := ScrollThread.SCROLL_IGNORED
        main_thread_scrolling_reasons := MainThreadScrollingReason.kNonInvertibleTransform }
    else
      let hit_test_point_in_layer_space := screen_space_transform.ProjectPoint screen_space_point
      if scroll_node.contains_non_fast_scrollable_region &&
          !hit_test_point_in_layer_space.2 &&
          scroll_node.non_fast_scrollable_region.any (fun r =>
            r.Contains (ToRoundedInt hit_test_point_in_layer_space.1.x)
              (ToRoundedInt hit_test_point_in_layer_space.1.y)) then
        { thread := ScrollThread.SCROLL_ON_MAIN_THREAD
          main_thread_scrolling_reasons := MainThreadScrollingReason.kNonFastScrollableRegion }
      else if !scroll_node.scrollable then
        { thread := ScrollThread.SCROLL_IGNORED
          main_thread_scrolling_reasons := MainThreadScrollingReason.kNotScrollable }
      else if scroll_node.max_scroll_offset.x ≤ 0 ∧ scroll_node.max_scroll_offset.y ≤ 0 then
        { thread := ScrollThread.SCROLL_IGNORED
          main_thread_scrolling_reasons := MainThreadScrollingReason.kNotScrollable }
      else
        { thread := ScrollThread.SCROLL_ON_IMPL_THREAD
          main_thread_scrolling_reasons := MainThreadScrollingReason.kNotScrollingOnMain }

/-- `IsMainThreadScrolling(status, scroll_node)`. -/
def IsMainThreadScrolling (status : ScrollStatus) (_scroll_node : ScrollNode) : Bool :=
  decide (status.thread = ScrollThread.SCROLL_ON_MAIN_THREAD)

/-- The loop of `FindScrollLayerForDeviceViewportPoint` over the nodes from the
hit layer's scroll node towards the root.  The result is `none` when a node
scrolls on the main thread (with that node's status), else the layer found so
far (`potentially_scrolling_layer_impl`). -/
def findScrollLayerLoop (h : ScrollHost) (device_viewport_point : Vector2dF)
    (type : ScrollInputType) :
    List ScrollNode → Option LayerImpl → Except ScrollStatus (Option LayerImpl)
  | [], potentially_scrolling_layer_impl => Except.ok potentially_scrolling_layer_impl
  | scroll_node :: rest, potentially_scrolling_layer_impl =>
    let status := TryScroll h device_viewport_point type scroll_node
    if IsMainThreadScrolling status scroll_node then Except.error status
    else if status.thread = ScrollThread.SCROLL_ON_IMPL_THREAD ∧
        potentially_scrolling_layer_impl = none then
      findScrollLayerLoop h device_viewport_point type rest (h.LayerById scroll_node.owner_id)
    else
      findScrollLayerLoop h device_viewport_point type rest potentially_scrolling_layer_impl

/-- The result of `FindScrollLayerForDeviceViewportPoint`: the returned layer and
the two out-parameters. -/
structure FoundScrollLayer where
  layer : Option LayerImpl
  scroll_on_main_thread : Bool
  main_thread_scrolling_reasons : MainThreadScrollingReason
  deriving DecidableEq

/-- `FindScrollLayerForDeviceViewportPoint(point, type, layer_impl, ...)`.
`scroll_on_main_thread` is passed in as `false` by its callers. -/
def FindScrollLayerForDeviceViewportPoint (h : ScrollHost) (device_viewport_point : Vector2dF)
    (type : ScrollInputType) (layer_impl : Option LayerImpl) : FoundScrollLayer :=
  let walked : Except ScrollStatus (Option LayerImpl) :=
    match layer_impl.bind (fun l => h.scroll_tree.Node l.scroll_tree_index) with
    | some scroll_node =>
      findScrollLayerLoop h device_viewport_point type
        (h.scroll_tree.walkToRoot h.scroll_tree.nodes.length scroll_node) none
    | none => Except.ok none
  match walked with
  | Except.error status =>
    { layer := none, scroll_on_main_thread := true
      main_thread_scrolling_reasons := status.main_thread_scrolling_reasons }
  | Except.ok found =>
    -- "Falling back to the viewport layer ensures generation of root overscroll"
    let potentially_scrolling_layer_impl : Option LayerImpl :=
      match found with
      | none => h.viewport_main_scroll_layer.bind h.LayerById
      | some l =>
        if some l.id = h.outer_viewport_scroll_layer ∨ some l.id = h.inner_viewport_scroll_layer
        then h.viewport_main_scroll_layer.bind h.LayerById
        else some l
    -- "Ensure that final layer scrolls on impl thread"
    match potentially_scrolling_layer_impl.bind
        (fun l => h.scroll_tree.Node l.scroll_tree_index) with
    | some scroll_node =>
      let status := TryScroll h device_viewport_point type scroll_node
      if IsMainThreadScrolling status scroll_node then
        { layer := none, scroll_on_main_thread := true
          main_thread_scrolling_reasons := status.main_thread_scrolling_reasons }
      else
        { layer := potentially_scrolling_layer_impl, scroll_on_main_thread := false
          main_thread_scrolling_reasons := MainThreadScrollingReason.kNotScrollingOnMain }
    | none =>
      { layer := potentially_scrolling_layer_impl, scroll_on_main_thread := false
        main_thread_scrolling_reasons := MainThreadScrollingReason.kNotScrollingOnMain }

/-- `HasScrollAncestor(child, scroll_ancestor)`: the first scrollable node on
the walk from the child's scroll node decides. -/
def HasScrollAncestor (h : ScrollHost) (child : Option LayerImpl) (scroll_ancestor : LayerImpl) :
    Bool :=
  match child.bind (fun l => h.scroll_tree.Node l.scroll_tree_index) with
  | none => false
  | some scroll_node =>
    match (h.scroll_tree.walkToRoot h.scroll_tree.nodes.length scroll_node).find?
        (fun n => n.scrollable) with
    | some n => decide (n.owner_id = scroll_ancestor.id)
    | none => false

/-! ## Scroll routing: moving one node -/

/-- Modelled from the spec: `scroll_tree.current_scroll_offset(owner_id)` is
not part of the sources; the node's "current offset", read from the tree at the
time of the call, and the zero offset when the tree has no such node. -/
def ScrollTree.current_scroll_offset (t : ScrollTree) (scroll_node : ScrollNode) : Vector2dF :=
  match t.Node scroll_node.id with
  | some n => n.current_scroll_offset
  | none => ⟨0, 0⟩

/-- Modelled from the spec: `ScrollTree::ClampScrollOffsetToLimits` is not part
of the sources.  "Offsets are always clamped to [0, max]": each coordinate is
capped at the maximum and then raised to 0. -/
def ClampScrollOffsetToLimits (offset max_scroll_offset : Vector2dF) : Vector2dF :=
  ⟨max (min offset.x max_scroll_offset.x) 0, max (min offset.y max_scroll_offset.y) 0⟩

/-- Modelled from the spec: `ScrollTree::ScrollBy(scroll_node, scroll, tree)` is
not part of the sources.  The node consumes "as much as [its] user-scrollable
axes and remaining range allow": the delta is dropped on an axis that is not
user-scrollable, added to the current offset, and the sum is clamped to
`[0, max]`.  The `ScrollNode*` is followed through the node's id. -/
def ScrollTree.ScrollBy (t : ScrollTree) (scroll_node : ScrollNode) (scroll : Vector2dF) :
    ScrollTree :=
  { t with
    nodes := t.nodes.map fun n =>
      if n.id = scroll_node.id then
        let adjusted_scroll : Vector2dF :=
          ⟨if n.user_scrollable_horizontal then scroll.x else 0,
           if n.user_scrollable_vertical then scroll.y else 0⟩
        { n with
          current_scroll_offset :=
            ClampScrollOffsetToLimits (n.current_scroll_offset.add adjusted_scroll)
              n.max_scroll_offset }
      else n }

/-- `ScrollNodeWithLocalDelta(scroll_node, local_delta, page_scale_factor, tree)`:
the delta is divided by the page scale factor, the node is scrolled, and the
offset change, scaled back, is returned as the consumed scroll. -/
def ScrollNodeWithLocalDelta (t : ScrollTree) (scroll_node : ScrollNode)
    (local_delta : Vector2dF) (page_scale_factor : ℚ) : ScrollTree × Vector2dF :=
  let previous_offset := t.current_scroll_offset scroll_node
  let delta := local_delta.scale (1 / page_scale_factor)
  let t1 := t.ScrollBy scroll_node delta
  let scrolled := (t1.current_scroll_offset scroll_node).sub previous_offset
  (t1, scrolled.scale page_scale_factor)

/-- `ScrollNodeWithViewportSpaceDelta(scroll_node, viewport_point, viewport_delta,
scroll_tree)`: start and end point are projected into layer space, the node is
scrolled by their difference, and the offset change is mapped back to viewport
space.  A clipped point gives the zero vector. -/
def ScrollNodeWithViewportSpaceDelta (t : ScrollTree) (device_scale_factor : ℚ)
    (scroll_node : ScrollNode) (viewport_point viewport_delta : Vector2dF) :
    ScrollTree × Vector2dF :=
  let screen_space_transform := t.ScreenSpaceTransform scroll_node.id
  let scale_from_viewport_to_screen_space := device_scale_factor
  let screen_space_point := viewport_point.scale scale_from_viewport_to_screen_space
  let screen_space_delta := viewport_delta.scale scale_from_viewport_to_screen_space
  let screen_space_end_point := screen_space_point.add screen_space_delta
  let local_start_point := screen_space_transform.ProjectPoint screen_space_point
  let local_end_point := screen_space_transform.ProjectPoint screen_space_end_point
  if local_start_point.2 || local_end_point.2 then (t, ⟨0, 0⟩)
  else
    let previous_offset := t.current_scroll_offset scroll_node
    let t1 := t.ScrollBy scroll_node (local_end_point.1.sub local_start_point.1)
    let scrolled := (t1.current_scroll_offset scroll_node).sub previous_offset
    let actual_local_end_point := local_start_point.1.add scrolled
    let actual_screen_space_end_point := screen_space_transform.MapPoint actual_local_end_point
    if actual_screen_space_end_point.2 then (t1, ⟨0, 0⟩)
    else
      let actual_viewport_end_point :=
        actual_screen_space_end_point.1.scale (1 / scale_from_viewport_to_screen_space)
      (t1, actual_viewport_end_point.sub viewport_point)

/-- `ScrollSingleNode(scroll_node, delta, viewport_point, is_direct_manipulation,
scroll_tree)`: direct manipulation goes through viewport space, anything else is
applied locally under the current page scale factor. -/
def ScrollSingleNode (h : ScrollHost) (scroll_node : ScrollNode) (delta : Vector2dF)
    (viewport_point : Vector2dF) (is_direct_manipulation : Bool) : ScrollHost × Vector2dF :=
  if is_direct_manipulation then
    let r := ScrollNodeWithViewportSpaceDelta h.scroll_tree h.device_scale_factor scroll_node
      viewport_point delta
    ({ h with scroll_tree := r.1 }, r.2)
  else
    let r := ScrollNodeWithLocalDelta h.scroll_tree scroll_node delta h.current_page_scale_factor
    ({ h with scroll_tree := r.1 }, r.2)

/-- `Viewport::ScrollResult`. -/
structure ViewportScrollResult where
  consumed_delta : Vector2dF
  content_scrolled_delta : Vector2dF
  deriving DecidableEq

/-- Modelled from the spec: `Viewport::ScrollBy` is not part of the sources.
"The viewport is special-cased to absorb delta via inner/outer offset
composition": the inner viewport scroll node takes what it can of the delta,
then (when `scroll_outer_viewport`) the outer one takes what it can of the rest;
what both took is the consumed delta, and what remains stays in the scroll state
as root overscroll. -/
def ViewportScrollBy (h : ScrollHost) (delta viewport_point : Vector2dF)
    (is_direct_manipulation _affect_browser_controls scroll_outer_viewport : Bool) :
    ScrollHost × ViewportScrollResult :=
  let nodeOf (layer : Option Nat) : Option ScrollNode :=
    (layer.bind h.LayerById).bind fun l => h.scroll_tree.Node l.scroll_tree_index
  let afterInner : ScrollHost × Vector2dF :=
    match nodeOf h.inner_viewport_scroll_layer with
    | some inner =>
      let r := ScrollSingleNode h inner delta viewport_point is_direct_manipulation
      (r.1, delta.sub r.2)
    | none => (h, delta)
  let afterOuter : ScrollHost × Vector2dF :=
    match (if scroll_outer_viewport then nodeOf h.outer_viewport_scroll_layer else none) with
    | some outer =>
      let r := ScrollSingleNode afterInner.1 outer afterInner.2 viewport_point
        is_direct_manipulation
      (r.1, afterInner.2.sub r.2)
    | none => afterInner
  (afterOuter.1,
    { consumed_delta := delta.sub afterOuter.2
      content_scrolled_delta := delta.sub afterOuter.2 })

/-! ## Scroll routing: `ApplyScroll` and the scroll chain -/

/-- `kEpsilon = 0.1f` of `ApplyScroll`. -/
def kEpsilon : ℚ := 1 / 10

/-- Modelled from the spec: `MathUtil::SmallestAngleBetweenVectors` is not part
of the sources.  The test "deviates by less than a fixed angular threshold (45°)"
is stated exactly: the angle between two vectors is below 45 degrees when their
dot product is positive and its square exceeds half the product of the squared
lengths (`cos² > 1/2`).  A zero vector has no angle below 45 degrees. -/
def angleBelow45 (v1 v2 : Vector2dF) : Bool :=
  decide (0 < v1.dot v2) && decide (v1.dot v1 * v2.dot v2 < 2 * (v1.dot v2) ^ 2)

/-- Modelled from the spec: `MathUtil::ProjectVector(source, destination)` is
not part of the sources.  "Project the requested delta onto the consumed
direction": the orthogonal projection of `source` on the line of `destination`. -/
def ProjectVector (source destination : Vector2dF) : Vector2dF :=
  destination.scale (source.dot destination / destination.dot destination)

/-- Modelled from the spec: `ScrollState::ConsumeDelta(x, y)` is not part of the
sources.  The consumed amount leaves the delta that is "chain[ed] ... to the
parent"; a non-zero amount marks the delta as consumed for the sequence. -/
def ScrollState.ConsumeDelta (st : ScrollState) (x y : ℚ) : ScrollState :=
  { st with
    delta_x := st.delta_x - x
    delta_y := st.delta_y - y
    delta_consumed_for_scroll_sequence :=
      st.delta_consumed_for_scroll_sequence || decide (x ≠ 0) || decide (y ≠ 0) }

/-- Modelled from the spec: `ScrollState::set_caused_scroll(x, y)` is not part
of the sources; the two flags accumulate over the nodes of a chain. -/
def ScrollState.set_caused_scroll (st : ScrollState) (x y : Bool) : ScrollState :=
  { st with caused_scroll_x := st.caused_scroll_x || x
            caused_scroll_y := st.caused_scroll_y || y }

/-- The delta that `ApplyScroll` takes out of the scroll state for a node that
is not a viewport node, once the node has scrolled: the whole requested delta
when the applied delta is within 45 degrees of it, else the projection of the
requested delta on the applied delta. -/
def appliedDeltaAfterTieBreak (applied_delta delta : Vector2dF) : Vector2dF :=
  if angleBelow45 applied_delta delta then delta else ProjectVector delta applied_delta

/-- `ApplyScroll(scroll_node, scroll_state)`.  The result is `none` when there
is no inner viewport scroll layer, whose `id()` the function reads
unconditionally. -/
def ApplyScroll (h : ScrollHost) (scroll_node : ScrollNode) (st : ScrollState) :
    Option (ScrollHost × ScrollState) :=
  match h.inner_viewport_scroll_layer with
  | none => none
  | some inner_id =>
    let viewport_point : Vector2dF := ⟨st.position_x, st.position_y⟩
    let delta : Vector2dF := ⟨st.delta_x, st.delta_y⟩
    let is_viewport_scroll_layer : Bool :=
      decide (h.viewport_main_scroll_layer = some scroll_node.owner_id)
    let is_inner_viewport_scroll_layer : Bool := decide (scroll_node.owner_id = inner_id)
    -- (host, applied_delta, delta_applied_to_content)
    let moved : ScrollHost × Vector2dF × Vector2dF :=
      if is_viewport_scroll_layer || is_inner_viewport_scroll_layer then
        let r := ViewportScrollBy h delta viewport_point st.is_direct_manipulation
          (!h.wheel_scrolling_) is_viewport_scroll_layer
        (r.1, r.2.consumed_delta, r.2.content_scrolled_delta)
      else
        let r := ScrollSingleNode h scroll_node delta viewport_point st.is_direct_manipulation
        (r.1, r.2, ⟨0, 0⟩)
    let applied_delta := moved.2.1
    let scrolled : Bool :=
      decide (|applied_delta.x| > kEpsilon) || decide (|applied_delta.y| > kEpsilon)
    if !scrolled then
      if is_viewport_scroll_layer then
        some (moved.1, st.ConsumeDelta applied_delta.x applied_delta.y)
      else some (moved.1, st)
    else
      let applied_delta : Vector2dF :=
        if !is_viewport_scroll_layer && !is_inner_viewport_scroll_layer then
          appliedDeltaAfterTieBreak applied_delta delta
        else applied_delta
      let delta_applied_to_content : Vector2dF :=
        if !is_viewport_scroll_layer && !is_inner_viewport_scroll_layer then applied_delta
        else moved.2.2
      let st1 := st.set_caused_scroll
        (decide (|delta_applied_to_content.x| > kEpsilon))
        (decide (|delta_applied_to_content.y| > kEpsilon))
      let st2 := st1.ConsumeDelta applied_delta.x applied_delta.y
      some (moved.1, { st2 with current_native_scrolling_node := some scroll_node.id })

/-- The loop of `DistributeScrollDelta` that fills `current_scroll_chain` by
`push_front`: the walk stops at the viewport scroll node, which is entered, and
skips nodes that are not scrollable.  The front of the result is the node
nearest the root. -/
def buildScrollChain (viewport_scroll_node : Option ScrollNode) :
    List ScrollNode → List ScrollNode → List ScrollNode
  | [], current_scroll_chain => current_scroll_chain
  | scroll_node :: rest, current_scroll_chain =>
    if viewport_scroll_node.map (fun n => n.id) = some scroll_node.id then
      scroll_node :: current_scroll_chain
    else if !scroll_node.scrollable then
      buildScrollChain viewport_scroll_node rest current_scroll_chain
    else
      buildScrollChain viewport_scroll_node rest (scroll_node :: current_scroll_chain)

/-- The `current_scroll_chain` that `DistributeScrollDelta` hands to the scroll
state. -/
def currentScrollChain (h : ScrollHost) : List ScrollNode :=
  match h.scroll_tree.CurrentlyScrollingNode with
  | none => []
  | some scroll_node =>
    let viewport_scroll_node : Option ScrollNode :=
      (h.viewport_main_scroll_layer.bind h.LayerById).bind fun l =>
        h.scroll_tree.Node l.scroll_tree_index
    buildScrollChain viewport_scroll_node
      (h.scroll_tree.walkToRoot h.scroll_tree.nodes.length scroll_node) []

/-- Modelled from the spec: `ScrollState::DistributeToScrollChainDescendant` and
`ScrollTree::DistributeScroll` are not part of the sources.  The delta is
distributed "starting at the currently-scrolling node, walking toward the root
..., chaining the remainder to the parent": `ApplyScroll` runs on each node of
the list in turn (the argument lists the chain from the scrolling node to the
root) with the delta the earlier nodes left. -/
def distributeToScrollChain (h : ScrollHost) (st : ScrollState) :
    List ScrollNode → Option (ScrollHost × ScrollState)
  | [] => some (h, st)
  | scroll_node :: ancestors =>
    (ApplyScroll h scroll_node st).bind fun r => distributeToScrollChain r.1 r.2 ancestors

/-- `DistributeScrollDelta(scroll_state)`. -/
def DistributeScrollDelta (h : ScrollHost) (st : ScrollState) :
    Option (ScrollHost × ScrollState) :=
  distributeToScrollChain h st (currentScrollChain h).reverse

/-! ## Scroll routing: `ScrollBegin` and `ScrollBy` -/

/-- Modelled from the spec: `LayerTreeImpl::SetCurrentlyScrollingLayer` is not
part of the sources; it sets the "currently scrolling" marker of the scroll tree
to the scroll node of the given layer, or clears it for a null layer. -/
def ScrollHost.SetCurrentlyScrollingLayer (h : ScrollHost) (layer : Option LayerImpl) :
    ScrollHost :=
  { h with
    scroll_tree :=
      { h.scroll_tree with
        currently_scrolling_node_id := layer.map fun l => l.scroll_tree_index } }

/-- `ClearCurrentlyScrollingLayer()`. -/
def ClearCurrentlyScrollingLayer (h : ScrollHost) : ScrollHost :=
  { h.SetCurrentlyScrollingLayer none with
    did_lock_scrolling_layer_ := false
    scroll_affects_scroll_handler_ := false
    accumulated_root_overscroll_ := ⟨0, 0⟩ }

/-- `ScrollBeginImpl(scroll_state, scrolling_layer_impl, type)`: the status, and
the host and scroll state after the call (`none` when `ApplyScroll` fails).
`ScrollAnimationAbort` and the browser-controls manager write none of these
members. -/
def ScrollBeginImpl (h : ScrollHost) (st : ScrollState) (scrolling_layer_impl : Option LayerImpl)
    (type : ScrollInputType) : Option (ScrollStatus × ScrollHost × ScrollState) :=
  match scrolling_layer_impl with
  | none =>
    some ({ thread := ScrollThread.SCROLL_IGNORED
            main_thread_scrolling_reasons := MainThreadScrollingReason.kNoScrollingLayer },
          h, st)
  | some layer =>
    let h1 := h.SetCurrentlyScrollingLayer (some layer)
    let h2 := { h1 with wheel_scrolling_ := IsWheelBasedScroll type }
    let st1 := { st with is_direct_manipulation := !h2.wheel_scrolling_ }
    (DistributeScrollDelta h2 st1).map fun r =>
      ({ thread := ScrollThread.SCROLL_ON_IMPL_THREAD
         main_thread_scrolling_reasons := MainThreadScrollingReason.kNotScrollingOnMain },
        r.1, r.2)

/-- `ScrollBegin(scroll_state, type)`. -/
def ScrollBegin (h : ScrollHost) (st : ScrollState) (type : ScrollInputType) :
    Option (ScrollStatus × ScrollHost × ScrollState) :=
  let h1 := ClearCurrentlyScrollingLayer h
  let viewport_point : Vector2dF := ⟨st.position_x, st.position_y⟩
  let device_viewport_point := viewport_point.scale h1.device_scale_factor
  let layer_impl := (h1.FindLayerThatIsHitByPoint device_viewport_point).bind h1.LayerById
  let failed_hit_test : Bool :=
    match layer_impl with
    | none => false
    | some _ =>
      match (h1.FindFirstScrollingLayerOrScrollbarLayerThatIsHitByPoint
          device_viewport_point).bind h1.LayerById with
      | some scroll_layer_impl => !HasScrollAncestor h1 layer_impl scroll_layer_impl
      | none => false
  if failed_hit_test then
    some ({ thread := ScrollThread.SCROLL_UNKNOWN
            main_thread_scrolling_reasons := MainThreadScrollingReason.kFailedHitTest },
          h1, st)
  else
    let found := FindScrollLayerForDeviceViewportPoint h1 device_viewport_point type layer_impl
    let h2 :=
      match found.layer with
      | some _ => { h1 with scroll_affects_scroll_handler_ := h1.have_scroll_event_handlers }
      | none => h1
    if found.scroll_on_main_thread then
      some ({ thread := ScrollThread.SCROLL_ON_MAIN_THREAD
              main_thread_scrolling_reasons := found.main_thread_scrolling_reasons },
            h2, st)
    else ScrollBeginImpl h2 st found.layer type

/-- `InputHandlerScrollResult`. -/
structure InputHandlerScrollResult where
  did_scroll : Bool
  did_overscroll_root : Bool
  accumulated_root_overscroll : Vector2dF
  unused_scroll_delta : Vector2dF
  deriving DecidableEq

/-- `ScrollBy(scroll_state)`: the result, and the host and scroll state after
the call (`none` when `ApplyScroll` fails).  The browser-controls offset is not
part of this state, so `did_scroll_top_controls` is taken as `false`. -/
def ScrollBy (h : ScrollHost) (st : ScrollState) :
    Option (InputHandlerScrollResult × ScrollHost × ScrollState) :=
  match h.CurrentlyScrollingLayer with
  | none =>
    some ({ did_scroll := false, did_overscroll_root := false
            accumulated_root_overscroll := ⟨0, 0⟩, unused_scroll_delta := ⟨0, 0⟩ }, h, st)
  | some _ =>
    let st1 : ScrollState :=
      { st with
        delta_consumed_for_scroll_sequence := h.did_lock_scrolling_layer_
        is_direct_manipulation := !h.wheel_scrolling_
        current_native_scrolling_node := h.scroll_tree.currently_scrolling_node_id }
    (DistributeScrollDelta h st1).map fun r =>
      let h1 := r.1
      let st2 := r.2
      let scrolling_layer : Option LayerImpl :=
        (st2.current_native_scrolling_node.bind h1.scroll_tree.Node).bind fun n =>
          h1.LayerById n.owner_id
      let h2 := h1.SetCurrentlyScrollingLayer scrolling_layer
      let did_scroll_x := st2.caused_scroll_x
      let did_scroll_y := st2.caused_scroll_y
      let did_scroll_content := did_scroll_x || did_scroll_y
      let inner := h2.inner_viewport_scroll_layer.bind h2.LayerById
      let unused_root_delta : Vector2dF :=
        match inner with
        | some l =>
          ⟨if !l.user_scrollable_horizontal then 0 else st2.delta_x,
           if !l.user_scrollable_vertical then 0 else st2.delta_y⟩
        | none => ⟨st2.delta_x, st2.delta_y⟩
      let accumulated : Vector2dF :=
        (⟨if did_scroll_x then 0 else h2.accumulated_root_overscroll_.x,
          if did_scroll_y then 0 else h2.accumulated_root_overscroll_.y⟩ : Vector2dF).add
          unused_root_delta
      let h3 :=
        { h2 with
          did_lock_scrolling_layer_ := st2.delta_consumed_for_scroll_sequence
          accumulated_root_overscroll_ := accumulated }
      ({ did_scroll := did_scroll_content
         did_overscroll_root := !unused_root_delta.IsZero
         accumulated_root_overscroll := accumulated
         unused_scroll_delta := unused_root_delta }, h3, st2)

/-! ## Scroll routing: a scene with one scrollable child -/

/-- The identity screen-space transform: invertible, and no point is clipped. -/
def identityTransform : ScreenSpaceTransform :=
  { IsInvertible := true
    ProjectPoint := fun p => (p, false)
    MapPoint := fun p => (p, false) }

/-- A scroll node with no scroll range, scrollable on both axes by the user and
free of main-thread scrolling reasons. -/
def fixedNode (id owner_id : Nat) (parent_id : Option Nat) (scrollable : Bool) : ScrollNode :=
  { id := id, owner_id := owner_id, parent_id := parent_id, scrollable := scrollable
    main_thread_scrolling_reasons := 0
    contains_non_fast_scrollable_region := false, non_fast_scrollable_region := []
    user_scrollable_horizontal := true, user_scrollable_vertical := true
    max_scroll_offset := ⟨0, 0⟩, current_scroll_offset := ⟨0, 0⟩ }

/-- The scene of the scroll scenario.  Scroll nodes: the root (0), the inner (1)
and outer (2) viewport nodes, which have no scroll range, and one child (3) with
max scroll offset (100, 0) at offset (0, 0).  Layers 1 to 4 own nodes 0 to 3;
layer 3 is the viewport's main scroll layer.  The child covers the square
`[0, 50) × [0, 50)`: a point inside it hits layer 4, any other point layer 3.
Page scale and device scale are 1.  The argument says whether the two viewport
nodes are marked scrollable. -/
def childScene (viewport_nodes_scrollable : Bool) : ScrollHost :=
  { scroll_tree :=
      { nodes :=
          [ fixedNode 0 1 none false,
            fixedNode 1 2 (some 0) viewport_nodes_scrollable,
            fixedNode 2 3 (some 1) viewport_nodes_scrollable,
            { fixedNode 3 4 (some 2) true with max_scroll_offset := ⟨100, 0⟩ } ]
        ScreenSpaceTransform := fun _ => identityTransform
        currently_scrolling_node_id := none }
    layers :=
      [ ⟨1, 0, true, true⟩, ⟨2, 1, true, true⟩, ⟨3, 2, true, true⟩, ⟨4, 3, true, true⟩ ]
    inner_viewport_scroll_layer := some 2
    outer_viewport_scroll_layer := some 3
    viewport_main_scroll_layer := some 3
    device_scale_factor := 1
    current_page_scale_factor := 1
    have_scroll_event_handlers := false
    FindLayerThatIsHitByPoint := fun p =>
      if 0 ≤ p.x ∧ p.x < 50 ∧ 0 ≤ p.y ∧ p.y < 50 then some 4 else some 3
    FindFirstScrollingLayerOrScrollbarLayerThatIsHitByPoint := fun p =>
      if 0 ≤ p.x ∧ p.x < 50 ∧ 0 ≤ p.y ∧ p.y < 50 then some 4 else some 3
    did_lock_scrolling_layer_ := false
    wheel_scrolling_ := false
    scroll_affects_scroll_handler_ := false
    accumulated_root_overscroll_ := ⟨0, 0⟩ }

/-- A fresh scroll state at viewport position (10, 10), inside the child, with
the given delta. -/
def scrollStateAt (delta_x delta_y : ℚ) : ScrollState :=
  { delta_x := delta_x, delta_y := delta_y, position_x := 10, position_y := 10
    is_direct_manipulation := false, delta_consumed_for_scroll_sequence := false
    caused_scroll_x := false, caused_scroll_y := false
    current_native_scrolling_node := none }

/-- The scenario: `ScrollBegin` with wheel input inside the child, then
`ScrollBy` with delta (150, 0).  The result carries the status of `ScrollBegin`,
the result of `ScrollBy`, the child's offset afterwards and the delta left in
the scroll state. -/
def wheelScrollScenario (viewport_nodes_scrollable : Bool) :
    Option (ScrollStatus × InputHandlerScrollResult × Vector2dF × Vector2dF) :=
  (ScrollBegin (childScene viewport_nodes_scrollable) (scrollStateAt 0 0)
      ScrollInputType.WHEEL).bind fun b =>
    (ScrollBy b.2.1 (scrollStateAt 150 0)).map fun r =>
      (b.1, r.1,
        r.2.1.scroll_tree.current_scroll_offset (fixedNode 3 4 (some 2) true),
        ⟨r.2.2.delta_x, r.2.2.delta_y⟩)

/-! ## Scroll routing: accounting for the delta -/

/-- The child node of `childScene`. -/
def childNode : ScrollNode :=
  { fixedNode 3 4 (some 2) true with max_scroll_offset := ⟨100, 0⟩ }

/-- The delta left in the scroll state by a call of `ApplyScroll`. -/
def deltaLeft (r : Option (ScrollHost × ScrollState)) : Option Vector2dF :=
  r.map fun p => ⟨p.2.delta_x, p.2.delta_y⟩

/-- `ApplyScroll` on the child of `childScene`, offered the given delta by wheel:
the amount by which the child's offset changed, and the delta left in the scroll
state. -/
def applyScrollOnChild (delta_x delta_y : ℚ) : Option (Vector2dF × Vector2dF) :=
  (ApplyScroll (childScene true) childNode (scrollStateAt delta_x delta_y)).map fun r =>
    ((r.1.scroll_tree.current_scroll_offset childNode).sub
        ((childScene true).scroll_tree.current_scroll_offset childNode),
      ⟨r.2.delta_x, r.2.delta_y⟩)

/-- What `ApplyScroll` takes out of the scroll state for a node that is not a
viewport node, given the node's applied delta (its offset change, expressed in
the coordinate space of the requested delta): nothing when the applied delta
exceeds `kEpsilon` on neither axis, else the delta after the 45-degree tie-break. -/
def deltaTakenByNode (applied_delta delta : Vector2dF) : Vector2dF :=
  if |applied_delta.x| > kEpsilon ∨ |applied_delta.y| > kEpsilon then
    appliedDeltaAfterTieBreak applied_delta delta
  else ⟨0, 0⟩

/-- A node's current offset lies within `[0, max scroll offset]` on both axes. -/
def ScrollNode.offsetInRange (n : ScrollNode) : Prop :=
  0 ≤ n.current_scroll_offset.x ∧ n.current_scroll_offset.x ≤ n.max_scroll_offset.x ∧
  0 ≤ n.current_scroll_offset.y ∧ n.current_scroll_offset.y ≤ n.max_scroll_offset.y

instance (n : ScrollNode) : Decidable n.offsetInRange := by
  unfold ScrollNode.offsetInRange
  infer_instance

/-- Every node of the scroll tree has its current offset within
`[0, max scroll offset]`. -/
def ScrollTree.offsetsInRange (t : ScrollTree) : Prop :=
  ∀ n ∈ t.nodes, n.offsetInRange

instance (t : ScrollTree) : Decidable t.offsetsInRange := by
  unfold ScrollTree.offsetsInRange
  infer_instance

/-- The scene `childScene true` in the middle of a wheel scroll of its child:
node 3 is the currently scrolling node. -/
def scrollingChildScene : ScrollHost :=
  { childScene true with
    scroll_tree := { (childScene true).scroll_tree with currently_scrolling_node_id := some 3 }
    wheel_scrolling_ := true }

/-! ## Frame assembly: the drawing state -/

deriving instance Repr for Rect

/-- A `gfx::Size`; its components are never negative. -/
structure Size where
  width : Nat
  height : Nat
  deriving DecidableEq, Repr

/-- Modelled from the spec: `gfx::Size::IsEmpty()` is not part of the sources;
an "empty viewport" is one with zero width or zero height. -/
def Size.IsEmpty (s : Size) : Bool := decide (s.width = 0) || decide (s.height = 0)

/-- Modelled from the spec: `gfx::Rect::IsEmpty()` is not part of the sources; a
rectangle without area. -/
def Rect.IsEmpty (r : Rect) : Bool := decide (r.width ≤ 0) || decide (r.height ≤ 0)

/-- Modelled from the spec: `gfx::Rect::Intersects(rect)` is not part of the
sources; it decides whether there is "damage intersecting [the surface's] own
bounds": both rectangles have area and they overlap. -/
def Rect.Intersects (a b : Rect) : Bool :=
  !(a.IsEmpty || b.IsEmpty || decide (b.x ≥ a.x + a.width) || decide (b.x + b.width ≤ a.x) ||
    decide (b.y ≥ a.y + a.height) || decide (b.y + b.height ≤ a.y))

/-- Modelled from the spec: `gfx::Rect::Union(rect)` is not part of the sources;
the smallest rectangle holding both, an empty one counting for nothing. -/
def Rect.Union (a b : Rect) : Rect :=
  if a.IsEmpty then b
  else if b.IsEmpty then a
  else
    { x := min a.x b.x
      y := min a.y b.y
      width := max (a.x + a.width) (b.x + b.width) - min a.x b.x
      height := max (a.y + a.height) (b.y + b.height) - min a.y b.y }

/-- The default-constructed `gfx::Rect()`. -/
def Rect.empty : Rect := ⟨0, 0, 0, 0⟩

/-- `DrawResult`, the values this file returns. -/
inductive DrawResult where
  | DRAW_SUCCESS
  | DRAW_ABORTED_CHECKERBOARD_ANIMATIONS
  | DRAW_ABORTED_MISSING_HIGH_RES_CONTENT
  deriving DecidableEq, Repr

/-- A `CompositorFrame` as `DrawLayers` fills it. -/
structure CompositorFrame where
  render_pass_list : List RenderPass
  may_contain_video : Bool
  deriving DecidableEq, Repr

/-- The bound `compositor_frame_sink_` as the draw functions use it: the sink,
its `capabilities().can_force_reclaim_resources`, and the frames handed to
`SubmitCompositorFrame` so far, oldest first. -/
structure BoundFrameSink where
  sink : CompositorFrameSink
  can_force_reclaim_resources : Bool
  submitted_frames : List CompositorFrame
  deriving DecidableEq, Repr

/-- `FrameData`; `will_draw_layers` holds layer ids. -/
structure FrameData where
  render_passes : List RenderPass
  will_draw_layers : List Nat
  has_no_damage : Bool
  may_contain_video : Bool
  deriving DecidableEq, Repr

/-- An entry of the render surface layer list: a layer that owns a render
surface, with what the draw functions read of the surface.
`current_damage_rect` is that of the surface's damage tracker;
`damage_from_changes` is what the surface and its layers report as changed since
change tracking was last reset; `damage_for_next_update` is what
`AddDamageNextUpdate` has collected; `target_layer_id` names the layer whose
surface this one draws into (`none` for the root). -/
structure RenderSurfaceLayer where
  layer_id : Nat
  IsRootLayer : Bool
  target_layer_id : Option Nat
  contributes_to_drawn_surface : Bool
  HasCopyRequest : Bool
  render_pass_id : Nat
  EffectTreeIndex : Nat
  content_rect : Rect
  layer_list_empty : Bool
  current_damage_rect : Rect
  damage_from_changes : Rect
  damage_for_next_update : Rect
  deriving DecidableEq, Repr

/-- What a `LayerIterator` position represents. -/
inductive IteratorKind where
  | represents_target_render_surface
  | represents_contributing_render_surface
  | represents_itself
  deriving DecidableEq, Repr

/-- One position of the `LayerIterator` walk: the layer `*it`, the pass of its
target surface, what the position represents, and what the layer or its surface
answers when asked.  `appended_quads`, `num_missing_tiles` and
`num_incomplete_tiles` are what the layer's `AppendQuads` appends and reports in
`AppendQuadsData`; that function is outside this file and is taken as given. -/
structure IteratorEntry where
  layer_id : Nat
  kind : IteratorKind
  target_render_pass_id : Nat
  surface_HasCopyRequest : Bool
  surface_EffectTreeIndex : Nat
  surface_contributes_to_drawn_surface : Bool
  surface_render_pass_id : Nat
  visible_layer_rect_IsEmpty : Bool
  occluded : Bool
  WillDraw : Bool
  may_contain_video : Bool
  appended_quads : List DrawQuad
  num_missing_tiles : Nat
  num_incomplete_tiles : Nat
  screen_space_transform_is_animating : Bool
  deriving DecidableEq, Repr

/-- The active tree as the draw functions see it, draw properties being up to
date.  `layer_iterator` is the `LayerIterator` walk of the render surface layer
list; `hud_layer` is `none` without a HUD layer, else `IsAnimatingHUDContents()`;
`copy_requests` are the requests held by the effect tree, each with the index of
its effect node; `ever_ready_layers` lists the layers whose
`was_ever_ready_since_last_transform_animation()` is true;
`unoccluded_screen_space_region` lists the rectangles of that region. -/
structure DrawTree where
  LayerListIsEmpty : Bool
  ViewportSizeInvalid : Bool
  render_surface_layer_list : List RenderSurfaceLayer
  layer_iterator : List IteratorEntry
  hud_layer : Option Bool
  copy_requests : List (Nat × Nat)
  ever_ready_layers : List Nat
  needs_update_draw_properties : Bool
  has_transparent_background : Bool
  background_color_alpha : Nat
  unoccluded_screen_space_region : List Rect
  has_ever_been_drawn : Bool
  deriving DecidableEq, Repr

/-- The members of the host that the draw functions read or write.  `memory`
carries `requires_high_res_to_draw_`; `has_impl_thread` is
`task_runner_provider_->HasImplThread()`; `evicted_ui_resources_` holds the ids
of the evicted UI resources. -/
structure DrawHost where
  compositor_frame_sink_ : Option BoundFrameSink
  active_tree_ : DrawTree
  resourceless_software_draw_ : Bool
  device_viewport_size_ : Size
  external_viewport_ : Rect
  evicted_ui_resources_ : List Nat
  viewport_damage_rect_ : Rect
  has_impl_thread : Bool
  memory : MemoryState
  deriving DecidableEq, Repr

/-- `DeviceViewport()`: the external viewport unless that is empty. -/
def DeviceViewport (h : DrawHost) : Rect :=
  if h.external_viewport_.IsEmpty then
    ⟨0, 0, h.device_viewport_size_.width, h.device_viewport_size_.height⟩
  else h.external_viewport_

/-- `DrawViewportSize()`: `DeviceViewport().size()`. -/
def DrawViewportSize (h : DrawHost) : Size :=
  ⟨(DeviceViewport h).width.toNat, (DeviceViewport h).height.toNat⟩

/-- `EvictedUIResourcesExist()`. -/
def EvictedUIResourcesExist (h : DrawHost) : Bool := !h.evicted_ui_resources_.isEmpty

/-- `CanDraw()`. -/
def CanDraw (h : DrawHost) : Bool :=
  if h.compositor_frame_sink_.isNone then false
  else if h.active_tree_.LayerListIsEmpty then false
  else if h.resourceless_software_draw_ then true
  else if (DrawViewportSize h).IsEmpty then false
  else if h.active_tree_.ViewportSizeInvalid then false
  else if EvictedUIResourcesExist h then false
  else true

/-! ## Frame assembly: damage tracking and `CalculateRenderPasses` -/

/-- `active_tree_->RootRenderSurface()`: the surface owned by the root layer. -/
def DrawTree.RootRenderSurface (t : DrawTree) : Option RenderSurfaceLayer :=
  t.render_surface_layer_list.find? fun s => s.IsRootLayer

/-- Modelled from the spec: `effect_tree.HasCopyRequests()` is not part of the
sources; whether some "layer requires a pixel copy". -/
def DrawTree.HasCopyRequests (t : DrawTree) : Bool := !t.copy_requests.isEmpty

/-- Modelled from the spec: `DamageTracker::UpdateDamageTrackingState` is not
part of the sources.  Damage is "the screen/surface region whose pixels changed
since the last drawn frame", and "descendant damage must be known before an
ancestor surface's damage is unioned": the surface's damage grows by what it and
its layers report as changed, by the damage added for this update, and by the
damage of the surfaces that draw into it (`descendants`, already updated). -/
def UpdateDamageTrackingState (descendants : List RenderSurfaceLayer)
    (surface : RenderSurfaceLayer) : RenderSurfaceLayer :=
  let from_descendants : Rect :=
    (descendants.filter fun d => d.target_layer_id = some surface.layer_id).foldl
      (fun acc d => acc.Union d.current_damage_rect) Rect.empty
  { surface with
    current_damage_rect :=
      ((surface.current_damage_rect.Union surface.damage_from_changes).Union
        surface.damage_for_next_update).Union from_descendants
    damage_for_next_update := Rect.empty }

/-- The loop of `TrackDamageForAllSurfaces` from the back of the render surface
layer list to the front; the argument lists the surfaces in that order and
`done` holds the surfaces already updated, in list order. -/
def trackDamageFromBack : List RenderSurfaceLayer → List RenderSurfaceLayer →
    List RenderSurfaceLayer
  | [], done => done
  | surface :: earlier, done =>
    trackDamageFromBack earlier (UpdateDamageTrackingState done surface :: done)

/-- `TrackDamageForAllSurfaces(render_surface_layer_list)`. -/
def TrackDamageForAllSurfaces (t : DrawTree) : DrawTree :=
  { t with
    render_surface_layer_list := trackDamageFromBack t.render_surface_layer_list.reverse [] }

/-- Modelled from the spec: `RenderSurfaceImpl::AppendRenderPasses(frame)` is
not part of the sources; "creating one render pass per surface": a pass with the
surface's pass id and nothing in it is appended to the frame. -/
def AppendRenderPasses (surface : RenderSurfaceLayer) (render_passes : List RenderPass) :
    List RenderPass :=
  render_passes ++ [{ id := surface.render_pass_id, quad_list := [], copy_requests := [] }]

/-- The loop "Create the render passes in dependency order", from the back of
the render surface layer list to the front (the argument lists the surfaces in
that order). -/
def createRenderPasses : List RenderSurfaceLayer → List RenderPass → List RenderPass
  | [], render_passes => render_passes
  | surface :: earlier, render_passes =>
    let should_draw_into_render_pass :=
      surface.IsRootLayer || surface.contributes_to_drawn_surface || surface.HasCopyRequest
    createRenderPasses earlier
      (if should_draw_into_render_pass then AppendRenderPasses surface render_passes
       else render_passes)

/-- A change to the pass that `FindRenderPassById(list, id)` returns: the first
pass with that id.  When there is no such pass the list is left as it is. -/
def updateRenderPassById (id : Nat) (f : RenderPass → RenderPass) :
    List RenderPass → List RenderPass
  | [] => []
  | p :: rest => if p.id = id then f p :: rest else p :: updateRenderPassById id f rest

/-- What the loop over the `LayerIterator` carries from one position to the
next. -/
structure IterationState where
  render_passes : List RenderPass
  copy_requests : List (Nat × Nat)
  ever_ready_layers : List Nat
  will_draw_layers : List Nat
  may_contain_video : Bool
  num_missing_tiles : Nat
  num_incomplete_tiles : Nat
  have_missing_animated_tiles : Bool
  deriving DecidableEq, Repr

/-- One position of the loop over the `LayerIterator`.  A target-surface
position with a copy request moves the requests of its effect node into the
target pass (`TakeCopyRequestsAndTransformToSurface`, modelled from the spec:
"attach pending copy-requests to the matching pass"); a contributing-surface
position appends one `RENDER_PASS` quad naming the contributing pass
(`AppendQuadsForRenderSurfaceLayer`, whose `surface->AppendQuads` is modelled
from the spec: "append a single composed quad representing that surface's
output"); a layer position that is visible, not occluded and will draw appends
the layer's quads.  Then the tile counts are added up and the checkerboard flag
is updated. -/
def iterateLayer (s : IterationState) (it : IteratorEntry) : IterationState :=
  -- (state after the quads, append_quads_data.num_missing_tiles, .num_incomplete_tiles)
  let step : IterationState × Nat × Nat :=
    match it.kind with
    | IteratorKind.represents_target_render_surface =>
      if it.surface_HasCopyRequest then
        let taken := s.copy_requests.filter fun r => r.1 = it.surface_EffectTreeIndex
        ({ s with
           copy_requests := s.copy_requests.filter fun r => r.1 ≠ it.surface_EffectTreeIndex
           render_passes := updateRenderPassById it.target_render_pass_id
             (fun p => { p with copy_requests := p.copy_requests ++ taken.map fun r => r.2 })
             s.render_passes }, 0, 0)
      else (s, 0, 0)
    | IteratorKind.represents_contributing_render_surface =>
      if it.surface_contributes_to_drawn_surface then
        ({ s with
           render_passes := updateRenderPassById it.target_render_pass_id
             (fun p => { p with
               quad_list := p.quad_list ++ [⟨Material.RENDER_PASS, it.surface_render_pass_id⟩] })
             s.render_passes }, 0, 0)
      else (s, 0, 0)
    | IteratorKind.represents_itself =>
      if !it.visible_layer_rect_IsEmpty then
        if !it.occluded && it.WillDraw then
          ({ s with
             will_draw_layers := s.will_draw_layers ++ [it.layer_id]
             may_contain_video := s.may_contain_video || it.may_contain_video
             render_passes := updateRenderPassById it.target_render_pass_id
               (fun p => { p with quad_list := p.quad_list ++ it.appended_quads })
               s.render_passes }, it.num_missing_tiles, it.num_incomplete_tiles)
        else (s, 0, 0)
      else (s, 0, 0)
  let s1 := step.1
  { s1 with
    num_missing_tiles := s1.num_missing_tiles + step.2.1
    num_incomplete_tiles := s1.num_incomplete_tiles + step.2.2
    have_missing_animated_tiles :=
      if step.2.1 > 0 then
        s1.have_missing_animated_tiles ||
          (!decide (it.layer_id ∈ s1.ever_ready_layers) || it.screen_space_transform_is_animating)
      else s1.have_missing_animated_tiles
    ever_ready_layers :=
      if step.2.1 > 0 then s1.ever_ready_layers
      else if it.layer_id ∈ s1.ever_ready_layers then s1.ever_ready_layers
      else it.layer_id :: s1.ever_ready_layers }

/-- A change to `frame->render_passes.back()`; nothing on an empty list. -/
def updateLastRenderPass (f : RenderPass → RenderPass) : List RenderPass → List RenderPass
  | [] => []
  | [root] => [f root]
  | p :: q :: rest => p :: updateLastRenderPass f (q :: rest)

/-- `AppendQuadsToFillScreen(..., target_render_pass, root_render_surface,
screen_background_color, fill_region)`: nothing without a root surface, for a
fully transparent colour or for an empty region; else one solid-colour quad per
rectangle of the region. -/
def AppendQuadsToFillScreen (target_render_pass : RenderPass)
    (root_render_surface : Option RenderSurfaceLayer) (background_color_alpha : Nat)
    (fill_region : List Rect) : RenderPass :=
  if root_render_surface.isNone || decide (background_color_alpha = 0) then target_render_pass
  else if fill_region.isEmpty then target_render_pass
  else
    { target_render_pass with
      quad_list := target_render_pass.quad_list ++
        fill_region.map fun _ => (⟨Material.OTHER 0, 0⟩ : DrawQuad) }

/-- `CommitToActiveTree()` on the drawing state. -/
def DrawHost.CommitToActiveTree (h : DrawHost) : Bool := !h.has_impl_thread

/-- `RequiresHighResToDraw()`. -/
def RequiresHighResToDraw (h : DrawHost) : Bool := h.memory.requires_high_res_to_draw_

/-- The draw result that `CalculateRenderPasses` settles on after the loop over
the layers. -/
def drawResultAfterIteration (h : DrawHost) (s : IterationState) : DrawResult :=
  let r1 :=
    if s.have_missing_animated_tiles && !h.CommitToActiveTree then
      DrawResult.DRAW_ABORTED_CHECKERBOARD_ANIMATIONS
    else DrawResult.DRAW_SUCCESS
  let r2 :=
    if (decide (s.num_incomplete_tiles ≠ 0) || decide (s.num_missing_tiles ≠ 0)) &&
        RequiresHighResToDraw h then
      DrawResult.DRAW_ABORTED_MISSING_HIGH_RES_CONTENT
    else r1
  if h.resourceless_software_draw_ then DrawResult.DRAW_SUCCESS else r2

/-- The loop over the `LayerIterator` of `CalculateRenderPasses`, started on the
passes created for the surfaces. -/
def iterateLayers (tree : DrawTree) (frame : FrameData) : IterationState :=
  tree.layer_iterator.foldl iterateLayer
    { render_passes :=
        createRenderPasses tree.render_surface_layer_list.reverse frame.render_passes
      copy_requests := tree.copy_requests
      ever_ready_layers := tree.ever_ready_layers
      will_draw_layers := frame.will_draw_layers
      may_contain_video := frame.may_contain_video
      num_missing_tiles := 0
      num_incomplete_tiles := 0
      have_missing_animated_tiles := false }

/-- The part of `CalculateRenderPasses` after the no-damage early-out, on the
tree with its damage tracked: the passes are created and filled, the draw result
is settled, the background is filled, the passes are pruned, and copy requests
left in the tree are cleared. -/
def assembleFrame (h : DrawHost) (tree : DrawTree) (frame : FrameData) :
    DrawResult × DrawHost × FrameData :=
  let have_copy_request := tree.HasCopyRequests
  let s := iterateLayers tree frame
  let draw_result := drawResultAfterIteration h s
  let filled :=
    if !tree.has_transparent_background then
      updateLastRenderPass
        (fun p => AppendQuadsToFillScreen p tree.RootRenderSurface
          tree.background_color_alpha tree.unoccluded_screen_space_region)
        s.render_passes
    else s.render_passes
  let pruned :=
    match RemoveRenderPasses filled with
    | some passes => passes
    | none => filled
  let tree1 : DrawTree :=
    { tree with
      ever_ready_layers := s.ever_ready_layers
      -- ClearCopyRequests() and set_needs_update_draw_properties()
      copy_requests := if have_copy_request then [] else s.copy_requests
      needs_update_draw_properties :=
        if have_copy_request then true else tree.needs_update_draw_properties }
  (draw_result, { h with active_tree_ := tree1 },
    { frame with
      render_passes := pruned
      will_draw_layers := s.will_draw_layers
      may_contain_video := s.may_contain_video })

/-- `CalculateRenderPasses(frame)`: the draw result, and the host and the frame
after the call.  The function reads the root render surface and the frame sink
unconditionally; the result is `none` when either is missing.  The damage and
output rectangles of the passes are not part of `RenderPass` here. -/
def CalculateRenderPasses (h : DrawHost) (frame : FrameData) :
    Option (DrawResult × DrawHost × FrameData) :=
  let tree := TrackDamageForAllSurfaces h.active_tree_
  match tree.RootRenderSurface, h.compositor_frame_sink_ with
  | some root_surface, some sink =>
    let root_surface_has_no_visible_damage :=
      !root_surface.current_damage_rect.Intersects root_surface.content_rect
    let root_surface_has_contributing_layers := !root_surface.layer_list_empty
    let hud_wants_to_draw_ :=
      match tree.hud_layer with
      | some is_animating => is_animating
      | none => false
    let resources_must_be_resent := sink.can_force_reclaim_resources
    if root_surface_has_contributing_layers && root_surface_has_no_visible_damage &&
        !tree.HasCopyRequests && !resources_must_be_resent && !hud_wants_to_draw_ then
      some (DrawResult.DRAW_SUCCESS, { h with active_tree_ := tree },
        { frame with has_no_damage := true })
    else some (assembleFrame h tree frame)
  | _, _ => none

/-- Modelled from the spec: `DamageTracker::AddDamageNextUpdate(rect)` is not
part of the sources; the rectangle joins the damage of the root surface at its
next update. -/
def AddDamageNextUpdateToRoot (t : DrawTree) (damage : Rect) : DrawTree :=
  { t with
    render_surface_layer_list := t.render_surface_layer_list.map fun s =>
      if s.IsRootLayer then
        { s with damage_for_next_update := s.damage_for_next_update.Union damage }
      else s }

/-- `PrepareToDraw(frame)`, from the point where the draw properties are up to
date (`UpdateDrawProperties` and `tile_manager_.Flush()` are outside this
state): the frame is reset, the viewport damage moves to the root surface, and
`CalculateRenderPasses` runs. -/
def PrepareToDraw (h : DrawHost) (frame : FrameData) :
    Option (DrawResult × DrawHost × FrameData) :=
  let frame1 : FrameData :=
    { frame with
      render_passes := [], will_draw_layers := [], has_no_damage := false
      may_contain_video := false }
  let h1 : DrawHost :=
    if h.active_tree_.RootRenderSurface.isSome then
      { h with
        viewport_damage_rect_ := Rect.empty
        active_tree_ := AddDamageNextUpdateToRoot h.active_tree_ h.viewport_damage_rect_ }
    else h
  CalculateRenderPasses h1 frame1

/-- `SetViewportDamage(damage_rect)`. -/
def SetViewportDamage (h : DrawHost) (damage_rect : Rect) : DrawHost :=
  { h with viewport_damage_rect_ := h.viewport_damage_rect_.Union damage_rect }

/-- `DrawLayers(frame)`: the returned flag, and the host and the frame after the
call.  `ResetRequiresHighResToDraw()` comes first.  A frame without damage is
not submitted.  Otherwise the function reads the frame sink (the result is
`none` without one), moves the passes of the frame into a compositor frame and
submits it, tells every surface's damage tracker that its damage was drawn
(`DidDrawDamagedArea`, modelled from the spec: damage counts "since the last
drawn frame", so it starts empty again), and resets the change tracking of the
tree. -/
def DrawLayers (h : DrawHost) (frame : FrameData) : Option (Bool × DrawHost × FrameData) :=
  let h1 : DrawHost := { h with memory := { h.memory with requires_high_res_to_draw_ := false } }
  if frame.has_no_damage then some (false, h1, frame)
  else
    match h1.compositor_frame_sink_ with
    | none => none
    | some sink =>
      let compositor_frame : CompositorFrame :=
        { render_pass_list := frame.render_passes, may_contain_video := frame.may_contain_video }
      some (true,
        { h1 with
          compositor_frame_sink_ :=
            some { sink with submitted_frames := sink.submitted_frames ++ [compositor_frame] }
          active_tree_ :=
            { h1.active_tree_ with
              render_surface_layer_list := h1.active_tree_.render_surface_layer_list.map fun s =>
                { s with current_damage_rect := Rect.empty, damage_from_changes := Rect.empty }
              has_ever_been_drawn := true } },
        { frame with render_passes := [] })

/-! ## Frame assembly: a scene with one content layer -/

/-- The root render surface of the example scene: layer 1, pass 1, effect node 1,
a 100 by 100 content rectangle, and no damage of any kind. -/
def rootSurface (has_copy_request layer_list_empty : Bool) : RenderSurfaceLayer :=
  { layer_id := 1, IsRootLayer := true, target_layer_id := none
    contributes_to_drawn_surface := true, HasCopyRequest := has_copy_request
    render_pass_id := 1, EffectTreeIndex := 1
    content_rect := ⟨0, 0, 100, 100⟩, layer_list_empty := layer_list_empty
    current_damage_rect := Rect.empty, damage_from_changes := Rect.empty
    damage_for_next_update := Rect.empty }

/-- The iterator position of the root surface as a target. -/
def rootSurfaceEntry (has_copy_request : Bool) : IteratorEntry :=
  { layer_id := 1, kind := IteratorKind.represents_target_render_surface
    target_render_pass_id := 1, surface_HasCopyRequest := has_copy_request
    surface_EffectTreeIndex := 1, surface_contributes_to_drawn_surface := true
    surface_render_pass_id := 1, visible_layer_rect_IsEmpty := true, occluded := false
    WillDraw := false, may_contain_video := false, appended_quads := []
    num_missing_tiles := 0, num_incomplete_tiles := 0
    screen_space_transform_is_animating := false }

/-- The iterator position of the content layer (layer 2), which draws one quad
into the root pass and reports the given number of missing tiles. -/
def contentLayerEntry (num_missing_tiles : Nat) (is_animating : Bool) : IteratorEntry :=
  { layer_id := 2, kind := IteratorKind.represents_itself
    target_render_pass_id := 1, surface_HasCopyRequest := false
    surface_EffectTreeIndex := 0, surface_contributes_to_drawn_surface := false
    surface_render_pass_id := 0, visible_layer_rect_IsEmpty := false, occluded := false
    WillDraw := true, may_contain_video := false, appended_quads := [⟨Material.OTHER 1, 0⟩]
    num_missing_tiles := num_missing_tiles, num_incomplete_tiles := 0
    screen_space_transform_is_animating := is_animating }

/-- The example scene: a root surface with one content layer, an opaque
background that the content covers, no HUD layer.  The arguments give the copy
requests held by the effect tree (on effect node 1), whether the root surface has
no contributing layer, and the content layer's missing tiles and animation
state. -/
def drawScene (copy_requests : List Nat) (layer_list_empty : Bool) (num_missing_tiles : Nat)
    (is_animating : Bool) : DrawTree :=
  { LayerListIsEmpty := false, ViewportSizeInvalid := false
    render_surface_layer_list := [rootSurface (!copy_requests.isEmpty) layer_list_empty]
    layer_iterator :=
      if layer_list_empty then [rootSurfaceEntry (!copy_requests.isEmpty)]
      else [contentLayerEntry num_missing_tiles is_animating,
            rootSurfaceEntry (!copy_requests.isEmpty)]
    hud_layer := none
    copy_requests := copy_requests.map fun r => (1, r)
    ever_ready_layers := [2]
    needs_update_draw_properties := false
    has_transparent_background := false, background_color_alpha := 255
    unoccluded_screen_space_region := []
    has_ever_been_drawn := false }

/-- A frame sink with a GPU context that has had no frame submitted. -/
def boundFrameSink (can_force_reclaim_resources : Bool) : BoundFrameSink :=
  { sink :=
      { context_provider := some { msaa_is_slow := false, max_samples := 8 }
        worker_context_provider := some true }
    can_force_reclaim_resources := can_force_reclaim_resources
    submitted_frames := [] }

/-- A threaded host showing the given tree in a 100 by 100 viewport, with no
evicted UI resource and no pending viewport damage. -/
def drawHost (tree : DrawTree) (can_force_reclaim_resources : Bool) : DrawHost :=
  { compositor_frame_sink_ := some (boundFrameSink can_force_reclaim_resources)
    active_tree_ := tree
    resourceless_software_draw_ := false
    device_viewport_size_ := ⟨100, 100⟩
    external_viewport_ := Rect.empty
    evicted_ui_resources_ := []
    viewport_damage_rect_ := Rect.empty
    has_impl_thread := true
    memory := visibleHostWithPool }

/-- A frame descriptor before its first use. -/
def freshFrame : FrameData :=
  { render_passes := [], will_draw_layers := [], has_no_damage := false
    may_contain_video := false }

/-- What damage tracking and drawing never change of a surface: whether it is the
root's, and whether it has no contributing layer. -/
def RenderSurfaceLayer.fixedPart (s : RenderSurfaceLayer) : Bool × Bool :=
  (s.IsRootLayer, s.layer_list_empty)

/-- A surface with no damage of any kind: none accumulated, none reported as
changed, none added for the next update. -/
def RenderSurfaceLayer.undamaged (s : RenderSurfaceLayer) : Prop :=
  s.current_damage_rect = Rect.empty ∧ s.damage_from_changes = Rect.empty ∧
    s.damage_for_next_update = Rect.empty

instance (s : RenderSurfaceLayer) : Decidable s.undamaged := by
  unfold RenderSurfaceLayer.undamaged
  infer_instance


/-! ## Scroll routing: the scroll-ancestor chain of a hit layer -/

/-- The scroll-ancestor chain of a node: the node, its parent, and so on up to
and including the root of the scroll tree.  The walk takes at most `fuel` steps
beyond the start node. -/
def ScrollTree.scrollAncestorChain (t : ScrollTree) : Nat → ScrollNode → List ScrollNode
  | 0, start => [start]
  | fuel + 1, start =>
    match t.parent start with
    | none => [start]
    | some p => start :: t.scrollAncestorChain fuel p

/-- The nearest scrollable node on the scroll-ancestor chain of a node. -/
def ScrollTree.nearestScrollableNode (t : ScrollTree) (start : ScrollNode) : Option ScrollNode :=
  (t.scrollAncestorChain t.nodes.length start).find? fun n => n.scrollable

/-- The child scene with a scrollbar of the outer viewport drawn over the child:
every point hits the same layer as in the child scene, and the first scrolling
layer or scrollbar layer hit at every point is layer 3. -/
def scrollbarOverChildScene : ScrollHost :=
  { childScene true with
    FindFirstScrollingLayerOrScrollbarLayerThatIsHitByPoint := fun _ => some 3 }


/-! ## Activation: the calls made by `ActivateSyncTree` -/

/-- `UIResourceRequest::UIResourceRequestType`. -/
inductive UIResourceRequestType where
  | UI_RESOURCE_CREATE
  | UI_RESOURCE_DELETE
  deriving DecidableEq, Repr

/-- A queued UI-resource request: its type and the `UIResourceId` it names.  The
bitmap of a create request is not part of this state. -/
structure UIResourceRequest where
  type : UIResourceRequestType
  id : Nat
  deriving DecidableEq, Repr

/-- A `LayerTreeImpl`, as far as `ActivateSyncTree` reads it: the identity of the
object (as in `TreeSlots`) and its queue of UI-resource requests, then the
members that the function tests.  What the calls recorded by the host write to
members other than the queue is outside this file. -/
structure SyncTree where
  id : Nat
  ui_resource_request_queue : List UIResourceRequest
  needs_full_tree_sync : Bool
  property_trees_changed : Bool
  property_trees_sequence_number : Nat
  LayerListIsEmpty : Bool
  picture_layers_empty : Bool
  deriving DecidableEq, Repr

/-- The calls that `ActivateSyncTree` and the UI-resource functions make on the
trees, on the tree synchronizer, on the client and on the host itself.  Trees
are named by their identities. -/
inductive ActivationCall where
  | ProcessUIResourceRequestQueue (tree : Nat)
  | SynchronizeTrees (source target : Nat)
  | PushChangeTrackingTo (source target : Nat)
  | MoveChangeTrackingToLayers (tree : Nat)
  | PushOpacityIfNeeded (source target : Nat)
  | PushLayerProperties (source target : Nat)
  | PushPropertiesTo (source target : Nat)
  | ResetAllChangeTracking (tree : Nat)
  | swapPendingWithRecycle
  | ActivateAnimations
  | Mutate
  | UpdateViewportContainerSizes
  | DidBecomeActive (tree : Nat)
  | RenewTreePriority
  | DidModifyTilePriorities
  | OnCanDrawStateChanged
  | DidActivateSyncTree
  | RunTreeActivationCallback
  | TakePendingPageScaleAnimation (tree : Nat)
  | UpdateRootLayerStateForSynchronousInputHandler
  deriving DecidableEq, Repr

/-- The calls of the pending-tree branch that synchronise the trees: merging
node identities, moving change tracking, pushing properties from the pending
tree to the active tree, and the swap of the pending and recycle slots. -/
def ActivationCall.isTreeSynchronisation : ActivationCall → Bool
  | .SynchronizeTrees _ _ => true
  | .PushChangeTrackingTo _ _ => true
  | .MoveChangeTrackingToLayers _ => true
  | .PushOpacityIfNeeded _ _ => true
  | .PushLayerProperties _ _ => true
  | .PushPropertiesTo _ _ => true
  | .ResetAllChangeTracking _ => true
  | .swapPendingWithRecycle => true
  | _ => false

/-- The members of the host that hold the UI resources.  `ui_resource_map_`
lists the ids that have a resource (the resource ids handed out by the resource
provider are nonzero and are not part of this state). -/
structure UIResources where
  ui_resource_map_ : List Nat
  evicted_ui_resources_ : List Nat
  has_valid_compositor_frame_sink_ : Bool
  deriving DecidableEq, Repr

/-- `MarkUIResourceNotEvicted(uid)`: the state afterwards and the calls made. -/
def MarkUIResourceNotEvicted (r : UIResources) (uid : Nat) :
    UIResources × List ActivationCall :=
  if uid ∈ r.evicted_ui_resources_ then
    let evicted := r.evicted_ui_resources_.filter fun e => e ≠ uid
    ({ r with evicted_ui_resources_ := evicted },
      if evicted.isEmpty then [ActivationCall.OnCanDrawStateChanged] else [])
  else (r, [])

/-- `DeleteUIResource(uid)`: the state afterwards and the calls made. -/
def DeleteUIResource (r : UIResources) (uid : Nat) : UIResources × List ActivationCall :=
  let r1 :=
    if uid ∈ r.ui_resource_map_ then
      { r with ui_resource_map_ := r.ui_resource_map_.filter fun e => e ≠ uid }
    else r
  MarkUIResourceNotEvicted r1 uid

/-- `CreateUIResource(uid, bitmap)`, without the upload of the bitmap: a
resource that exists under the id is deleted first; without a valid frame sink
the id joins the evicted set; otherwise the id gets a resource and leaves the
evicted set. -/
def CreateUIResource (r : UIResources) (uid : Nat) : UIResources × List ActivationCall :=
  let deleted : UIResources × List ActivationCall :=
    if uid ∈ r.ui_resource_map_ then DeleteUIResource r uid else (r, [])
  let r1 := deleted.1
  if !r1.has_valid_compositor_frame_sink_ then
    ({ r1 with
       evicted_ui_resources_ :=
         if uid ∈ r1.evicted_ui_resources_ then r1.evicted_ui_resources_
         else uid :: r1.evicted_ui_resources_ }, deleted.2)
  else
    let marked := MarkUIResourceNotEvicted
      { r1 with
        ui_resource_map_ :=
          if uid ∈ r1.ui_resource_map_ then r1.ui_resource_map_ else uid :: r1.ui_resource_map_ }
      uid
    (marked.1, deleted.2 ++ marked.2)

/-- Modelled from the spec: `LayerTreeImpl::ProcessUIResourceRequestQueue` is
not part of the sources; it "flush[es] any queued bitmap-resource requests": the
requests go to `CreateUIResource` and `DeleteUIResource` in queue order.  The
result is the state afterwards and the calls made; the caller empties the queue
of the tree. -/
def processUIResourceRequests :
    UIResources → List UIResourceRequest → UIResources × List ActivationCall
  | r, [] => (r, [])
  | r, request :: rest =>
    let first :=
      match request.type with
      | UIResourceRequestType.UI_RESOURCE_CREATE => CreateUIResource r request.id
      | UIResourceRequestType.UI_RESOURCE_DELETE => DeleteUIResource r request.id
    let others := processUIResourceRequests first.1 rest
    (others.1, first.2 ++ others.2)

/-- The members of the host that activation reads or writes.  The three slots
hold the trees themselves; `calls` lists the calls made so far, oldest first. -/
structure ActivationHost where
  active_tree_ : SyncTree
  pending_tree_ : Option SyncTree
  recycle_tree_ : Option SyncTree
  ui_resources : UIResources
  tree_activation_callback_is_null : Bool
  calls : List ActivationCall
  deriving DecidableEq, Repr

/-- `ActivateSyncTree()` with the calls it makes.  With a pending tree: the
pending tree's request queue is processed, the trees are synchronised and the
pending and recycle slots are swapped.  Without one: the active tree's request
queue is processed.  The calls after the branch are made either way.
`StartPageScaleAnimation`, which runs when a pending page-scale animation was
taken, is outside this state. -/
def ActivationHost.ActivateSyncTree (h : ActivationHost) : ActivationHost :=
  let h1 : ActivationHost :=
    match h.pending_tree_ with
    | some pending =>
      -- pending_tree_->ProcessUIResourceRequestQueue()
      let processed := processUIResourceRequests h.ui_resources pending.ui_resource_request_queue
      let active := h.active_tree_
      let synchronisation : List ActivationCall :=
        (if pending.needs_full_tree_sync then
          [ActivationCall.SynchronizeTrees pending.id active.id] else []) ++
        (if active.property_trees_changed then
          if pending.property_trees_sequence_number = active.property_trees_sequence_number then
            [ActivationCall.PushChangeTrackingTo active.id pending.id]
          else [ActivationCall.MoveChangeTrackingToLayers active.id]
         else []) ++
        [ActivationCall.PushOpacityIfNeeded active.id pending.id,
         ActivationCall.PushLayerProperties pending.id active.id,
         ActivationCall.PushPropertiesTo pending.id active.id] ++
        (if !pending.LayerListIsEmpty then
          [ActivationCall.ResetAllChangeTracking pending.id] else []) ++
        [ActivationCall.swapPendingWithRecycle, ActivationCall.ActivateAnimations,
         ActivationCall.Mutate]
      { h with
        -- pending_tree_.swap(recycle_tree_)
        pending_tree_ := h.recycle_tree_
        recycle_tree_ := some { pending with ui_resource_request_queue := [] }
        ui_resources := processed.1
        calls := h.calls ++ [ActivationCall.ProcessUIResourceRequestQueue pending.id] ++
          processed.2 ++ synchronisation }
    | none =>
      -- active_tree_->ProcessUIResourceRequestQueue()
      let processed :=
        processUIResourceRequests h.ui_resources h.active_tree_.ui_resource_request_queue
      { h with
        active_tree_ := { h.active_tree_ with ui_resource_request_queue := [] }
        ui_resources := processed.1
        calls := h.calls ++ [ActivationCall.ProcessUIResourceRequestQueue h.active_tree_.id] ++
          processed.2 }
  let active := h1.active_tree_
  { h1 with
    calls := h1.calls ++
      ([ActivationCall.UpdateViewportContainerSizes, ActivationCall.DidBecomeActive active.id,
        ActivationCall.RenewTreePriority] ++
       (if !active.picture_layers_empty then [ActivationCall.DidModifyTilePriorities] else []) ++
       [ActivationCall.OnCanDrawStateChanged, ActivationCall.DidActivateSyncTree] ++
       (if !h1.tree_activation_callback_is_null then
         [ActivationCall.RunTreeActivationCallback] else []) ++
       [ActivationCall.TakePendingPageScaleAnimation active.id,
        ActivationCall.UpdateRootLayerStateForSynchronousInputHandler]) }

/-- A single-tree host: active tree 0 with two queued requests (create 7, delete
8), resource 8 present, no pending and no recycle tree. -/
def singleTreeHost : ActivationHost :=
  { active_tree_ :=
      { id := 0
        ui_resource_request_queue :=
          [⟨UIResourceRequestType.UI_RESOURCE_CREATE, 7⟩,
           ⟨UIResourceRequestType.UI_RESOURCE_DELETE, 8⟩]
        needs_full_tree_sync := true, property_trees_changed := true
        property_trees_sequence_number := 3, LayerListIsEmpty := false
        picture_layers_empty := false }
    pending_tree_ := none
    recycle_tree_ := none
    ui_resources :=
      { ui_resource_map_ := [8], evicted_ui_resources_ := []
        has_valid_compositor_frame_sink_ := true }
    tree_activation_callback_is_null := true
    calls := [] }


/-! ## The host as a whole: commit, visibility and the GPU rasterization update -/

/-- The calls on `client_` made by `CommitComplete`, `SetVisible` and the
functions they run.  The client calls of the animation functions are not
recorded. -/
inductive ClientCall where
  | SetNeedsPrepareTilesOnImplThread
  | WillPrepareTiles
  | DidPrepareTiles
  | NotifyReadyToActivate
  | NotifyReadyToDraw
  | SetNeedsCommitOnImplThread
  | OnCanDrawStateChanged
  | RenewTreePriority
  deriving DecidableEq, Repr

/-- The host, as the product of the parts above: the drawing state (with the
memory state inside it), the frame descriptor that the caller hands to
`PrepareToDraw` and `DrawLayers`, the GPU rasterization state, the activation
state and the scrolling state.  `tile_manager_did_prepare_tiles` is what
`tile_manager_.PrepareTiles(global_tile_state_)` returns, and
`update_draw_properties_modifies_tile_priorities` says whether
`sync_tree()->UpdateDrawProperties`, run by `CommitComplete`, reports modified
tile priorities through `DidModifyTilePriorities`; both are outside this file
and are taken as given.  `client_calls` lists the recorded calls on the client,
oldest first. -/
structure Host where
  draw : DrawHost
  frame : FrameData
  gpu : GpuRasterState
  need_update_gpu_rasterization_status_ : Bool
  activation : ActivationHost
  scroll : ScrollHost
  tile_priorities_dirty_ : Bool
  tile_manager_did_prepare_tiles : Bool
  update_draw_properties_modifies_tile_priorities : Bool
  is_likely_to_require_a_draw_ : Bool
  client_calls : List ClientCall

/-- One call on the client is recorded. -/
def Host.client (h : Host) (c : ClientCall) : Host :=
  { h with client_calls := h.client_calls ++ [c] }

/-- The UI resources are replaced, in the activation state and in the drawing
state, which both hold `evicted_ui_resources_`. -/
def Host.withUIResources (h : Host) (r : UIResources) : Host :=
  { h with
    activation := { h.activation with ui_resources := r }
    draw := { h.draw with evicted_ui_resources_ := r.evicted_ui_resources_ } }

/-- The memory state is replaced. -/
def Host.withMemory (h : Host) (m : MemoryState) : Host :=
  { h with draw := { h.draw with memory := m } }

/-- `DidModifyTilePriorities()`. -/
def DidModifyTilePriorities (h : Host) : Host :=
  { h with tile_priorities_dirty_ := true }.client ClientCall.SetNeedsPrepareTilesOnImplThread

/-- `UpdateTileManagerMemoryPolicy(policy)` on the host: without a resource pool
nothing happens; otherwise the limits are written as on the memory state and the
function ends with `DidModifyTilePriorities()`. -/
def Host.UpdateTileManagerMemoryPolicy (h : Host) (policy : ManagedMemoryPolicy) : Host :=
  if !h.draw.memory.resource_pool_ then h
  else
    DidModifyTilePriorities
      (h.withMemory (LayerTreeHostImpl.UpdateTileManagerMemoryPolicy h.draw.memory policy))

/-- `CreateTileManagerResources()` on the host: the resource pool is created and
`UpdateTileManagerMemoryPolicy(ActualManagedMemoryPolicy())` runs. -/
def Host.CreateTileManagerResources (h : Host) : Host :=
  let h1 := h.withMemory { h.draw.memory with resource_pool_ := true }
  h1.UpdateTileManagerMemoryPolicy (ActualManagedMemoryPolicy h1.draw.memory)

/-- `PrepareTiles()`: the returned flag and the host afterwards. -/
def PrepareTiles (h : Host) : Bool × Host :=
  if !h.tile_priorities_dirty_ then (false, h)
  else
    let h1 := h.client ClientCall.WillPrepareTiles
    let did_prepare_tiles := h1.tile_manager_did_prepare_tiles
    let h2 := if did_prepare_tiles then { h1 with tile_priorities_dirty_ := false } else h1
    (did_prepare_tiles, h2.client ClientCall.DidPrepareTiles)

/-- `NotifyReadyToActivate()`. -/
def NotifyReadyToActivate (h : Host) : Host :=
  h.client ClientCall.NotifyReadyToActivate

/-- `NotifyReadyToDraw()`. -/
def NotifyReadyToDraw (h : Host) : Host :=
  { h with is_likely_to_require_a_draw_ := false }.client ClientCall.NotifyReadyToDraw

/-- `ClearUIResources()`: every resource is deleted and its id joins the evicted
set. -/
def ClearUIResources (r : UIResources) : UIResources :=
  { r with
    evicted_ui_resources_ :=
      r.ui_resource_map_.foldl (fun evicted uid => if uid ∈ evicted then evicted else uid :: evicted)
        r.evicted_ui_resources_
    ui_resource_map_ := [] }

/-- `EvictAllUIResources()`. -/
def EvictAllUIResources (h : Host) : Host :=
  if h.activation.ui_resources.ui_resource_map_.isEmpty then h
  else
    (((h.withUIResources (ClearUIResources h.activation.ui_resources)).client
      ClientCall.SetNeedsCommitOnImplThread).client
      ClientCall.OnCanDrawStateChanged).client ClientCall.RenewTreePriority

/-- `CleanUpTileManagerAndUIResources()` on the host: `ClearUIResources()`, and
`resource_pool_ = nullptr`. -/
def Host.CleanUpTileManagerAndUIResources (h : Host) : Host :=
  (h.withUIResources (ClearUIResources h.activation.ui_resources)).withMemory
    (LayerTreeHostImpl.CleanUpTileManagerAndUIResources h.draw.memory)

/-- `SetVisible(visible)` on the host: nothing when the visibility is unchanged;
otherwise the flag is stored and
`UpdateTileManagerMemoryPolicy(ActualManagedMemoryPolicy())` runs; on becoming
visible `SetRequiresHighResToDraw()` sets its flag, on becoming invisible
`EvictAllUIResources()` and `PrepareTiles()` run. -/
def Host.SetVisible (h : Host) (visible : Bool) : Host :=
  if h.draw.memory.visible_ = visible then h
  else
    let h1 := h.withMemory { h.draw.memory with visible_ := visible }
    let h2 := h1.UpdateTileManagerMemoryPolicy (ActualManagedMemoryPolicy h1.draw.memory)
    if h2.draw.memory.visible_ then
      h2.withMemory { h2.draw.memory with requires_high_res_to_draw_ := true }
    else (PrepareTiles (EvictAllUIResources h2)).2

/-- `UpdateTreeResourcesForGpuRasterizationIfNeeded()`: nothing unless an update
is needed and `UpdateGpuRasterizationStatus()` reports a changed decision; then
the tile manager resources are replaced when there is a resource pool (which
ends with `DidModifyTilePriorities()`), and `SetRequiresHighResToDraw()` sets
its flag.  `ReleaseTileResources` and `RecreateTileResources` act inside the
trees. -/
def UpdateTreeResourcesForGpuRasterizationIfNeeded (h : Host) : Host :=
  if !h.need_update_gpu_rasterization_status_ then h
  else
    let updated := UpdateGpuRasterizationStatus h.gpu
    -- `use_gpu_rasterization_` is one member, held by both states
    let h1 :=
      { h with gpu := updated.2 }.withMemory
        { h.draw.memory with use_gpu_rasterization_ := updated.2.use_gpu_rasterization_ }
    if !updated.1 then h1
    else
      let h2 :=
        if h1.draw.memory.resource_pool_ then
          -- CleanUpTileManagerAndUIResources(); CreateTileManagerResources();
          h1.CleanUpTileManagerAndUIResources.CreateTileManagerResources
        else h1
      -- SetRequiresHighResToDraw()
      h2.withMemory { h2.draw.memory with requires_high_res_to_draw_ := true }

/-- `CommitComplete()` up to the call of `PrepareTiles()`.  The animation
functions write nothing of this state; then the tree resources are updated for
GPU rasterization and the draw properties of the sync tree are recomputed. -/
def beforePrepareTiles (h : Host) : Host :=
  let h1 := UpdateTreeResourcesForGpuRasterizationIfNeeded h
  if h1.update_draw_properties_modifies_tile_priorities then DidModifyTilePriorities h1 else h1

/-- `CommitComplete()`. -/
def CommitComplete (h : Host) : Host :=
  let prepared := PrepareTiles (beforePrepareTiles h)
  let did_prepare_tiles := prepared.1
  let h1 := prepared.2
  if !did_prepare_tiles then
    let h2 := NotifyReadyToActivate h1
    if h2.draw.CommitToActiveTree then NotifyReadyToDraw h2 else h2
  else h1

/-- The operations on the host that a run is made of. -/
inductive HostCall where
  | PrepareToDraw
  | DrawLayers
  | ScrollBegin (scroll_state : ScrollState) (type : ScrollInputType)
  | ScrollBy (scroll_state : ScrollState)
  | SetVisible (visible : Bool)
  | ActivateSyncTree
  | CommitComplete

/-- Whether the operation is `DrawLayers`. -/
def HostCall.isDrawLayers : HostCall → Bool
  | .DrawLayers => true
  | _ => false

/-- One operation; `none` when the operation reads a null pointer. -/
def stepHost (h : Host) : HostCall → Option Host
  | .PrepareToDraw =>
    (PrepareToDraw h.draw h.frame).map fun r => { h with draw := r.2.1, frame := r.2.2 }
  | .DrawLayers =>
    (DrawLayers h.draw h.frame).map fun r => { h with draw := r.2.1, frame := r.2.2 }
  | .ScrollBegin scroll_state type =>
    (ScrollBegin h.scroll scroll_state type).map fun r => { h with scroll := r.2.1 }
  | .ScrollBy scroll_state =>
    (ScrollBy h.scroll scroll_state).map fun r => { h with scroll := r.2.1 }
  | .SetVisible visible => some (h.SetVisible visible)
  | .ActivateSyncTree =>
    let activation := h.activation.ActivateSyncTree
    let h1 := { h with activation := activation }.withUIResources activation.ui_resources
    -- "If we have any picture layers, then by activating we also modified tile priorities."
    some (if !activation.active_tree_.picture_layers_empty then DidModifyTilePriorities h1
          else h1)
  | .CommitComplete => some (CommitComplete h)

/-- A run of operations, left to right; `none` as soon as one fails. -/
def runHost (h : Host) : List HostCall → Option Host
  | [] => some h
  | c :: cs => (stepHost h c).bind fun t => runHost t cs

/-- The example host: the example scene drawn by a threaded (or, for `false`,
single-threaded) host, the GPU host forced on with an update of the decision
pending, the single-tree activation state with no UI resource created yet, and
the child scroll scene; tile priorities are clean. -/
def exampleHost (has_impl_thread : Bool) : Host :=
  { draw :=
      { SetViewportDamage (drawHost (drawScene [] false 0 false) false) ⟨0, 0, 10, 10⟩ with
        has_impl_thread := has_impl_thread }
    frame := freshFrame
    gpu := gpuHost true true
    need_update_gpu_rasterization_status_ := true
    activation :=
      { singleTreeHost with
        ui_resources := { singleTreeHost.ui_resources with ui_resource_map_ := [] } }
    scroll := childScene true
    tile_priorities_dirty_ := false
    tile_manager_did_prepare_tiles := true
    update_draw_properties_modifies_tile_priorities := false
    is_likely_to_require_a_draw_ := true
    client_calls := [] }



/-! ## Animation: `AnimatePageScale`, `AnimateBrowserControls`, `AnimateLayers` -/

/-- The calls that the animation functions make on the client and on the
viewport. -/
inductive AnimationCall where
  | SetNeedsOneBeginImplFrameOnImplThread
  | SetNeedsCommitOnImplThread
  | RenewTreePriority
  | DidCompletePageScaleAnimationOnImplThread
  | SetPageScaleOnActiveTree
  | ViewportScrollByInnerFirst
  | ViewportScrollBy
  deriving DecidableEq, Repr

/-- Modelled from the spec: `PageScaleAnimation` is not part of the sources; the
animation "completes when the animation's end time is reached".  It is started
at most once, at the time of the first tick. -/
structure PageScaleAnimation where
  start_time : Option Nat
  duration : Nat
  deriving DecidableEq, Repr

/-- `IsAnimationStarted()`. -/
def PageScaleAnimation.IsAnimationStarted (a : PageScaleAnimation) : Bool :=
  a.start_time.isSome

/-- `StartAnimation(time)`. -/
def PageScaleAnimation.StartAnimation (a : PageScaleAnimation) (time : Nat) :
    PageScaleAnimation :=
  { a with start_time := some time }

/-- `IsAnimationCompleteAtTime(time)`. -/
def PageScaleAnimation.IsAnimationCompleteAtTime (a : PageScaleAnimation) (time : Nat) : Bool :=
  match a.start_time with
  | some start => decide (start + a.duration ≤ time)
  | none => false

/-- The browser-controls offset manager, which is outside this file and is taken
as given: whether it has an animation, and for each time the scroll that
`Animate(time)` returns and whether the animation is still running after that
call. -/
structure BrowserControlsOffsetManager where
  has_animation : Bool
  animation_scroll : Nat → Vector2dF
  animation_running_after : Nat → Bool

/-- `browser_controls_offset_manager_->Animate(time)`: the returned scroll and the
manager afterwards. -/
def BrowserControlsOffsetManager.Animate (m : BrowserControlsOffsetManager) (time : Nat) :
    Vector2dF × BrowserControlsOffsetManager :=
  (m.animation_scroll time, { m with has_animation := m.animation_running_after time })

/-- The members that the animation functions read or write.
`mutator_host_AnimateLayers` is what `mutator_host_->AnimateLayers(time)`
returns and `TotalScrollOffset` is `active_tree_->TotalScrollOffset()`; both are
outside this file and are taken as given.  `calls` lists the calls made so far,
oldest first. -/
structure AnimationHost where
  page_scale_animation_ : Option PageScaleAnimation
  browser_controls_offset_manager_ : BrowserControlsOffsetManager
  mutator_host_AnimateLayers : Nat → Bool
  TotalScrollOffset : Vector2dF
  calls : List AnimationCall

/-- One call is recorded. -/
def AnimationHost.call (h : AnimationHost) (c : AnimationCall) : AnimationHost :=
  { h with calls := h.calls ++ [c] }

/-- `SetNeedsOneBeginImplFrame()`: one further begin-impl-frame is requested
from the client. -/
def SetNeedsOneBeginImplFrame (h : AnimationHost) : AnimationHost :=
  h.call AnimationCall.SetNeedsOneBeginImplFrameOnImplThread

/-- The number of begin-impl-frames requested so far. -/
def AnimationHost.beginImplFramesRequested (h : AnimationHost) : Nat :=
  h.calls.count AnimationCall.SetNeedsOneBeginImplFrameOnImplThread

/-- `AnimatePageScale(monotonic_time)`: the returned flag and the host
afterwards. -/
def AnimatePageScale (h : AnimationHost) (monotonic_time : Nat) : Bool × AnimationHost :=
  match h.page_scale_animation_ with
  | none => (false, h)
  | some animation =>
    let animation1 :=
      if !animation.IsAnimationStarted then animation.StartAnimation monotonic_time
      else animation
    let h1 :=
      ({ h with page_scale_animation_ := some animation1 }.call
        AnimationCall.SetPageScaleOnActiveTree).call AnimationCall.ViewportScrollByInnerFirst
    if animation1.IsAnimationCompleteAtTime monotonic_time then
      (true,
        (({ h1 with page_scale_animation_ := none }.call
          AnimationCall.SetNeedsCommitOnImplThread).call AnimationCall.RenewTreePriority).call
          AnimationCall.DidCompletePageScaleAnimationOnImplThread)
    else (true, SetNeedsOneBeginImplFrame h1)

/-- `AnimateBrowserControls(time)`: the returned flag and the host afterwards. -/
def AnimateBrowserControls (h : AnimationHost) (time : Nat) : Bool × AnimationHost :=
  if !h.browser_controls_offset_manager_.has_animation then (false, h)
  else
    let animated := h.browser_controls_offset_manager_.Animate time
    let scroll := animated.1
    let h1 := { h with browser_controls_offset_manager_ := animated.2 }
    let h2 :=
      if h1.browser_controls_offset_manager_.has_animation then SetNeedsOneBeginImplFrame h1
      else h1
    if h2.TotalScrollOffset.y = 0 then (false, h2)
    else if scroll.IsZero then (false, h2)
    else
      (true,
        ((h2.call AnimationCall.ViewportScrollBy).call
          AnimationCall.SetNeedsCommitOnImplThread).call AnimationCall.RenewTreePriority)

/-- `AnimateLayers(monotonic_time)`: the returned flag and the host afterwards. -/
def AnimateLayers (h : AnimationHost) (monotonic_time : Nat) : Bool × AnimationHost :=
  let animated := h.mutator_host_AnimateLayers monotonic_time
  (animated, if animated then SetNeedsOneBeginImplFrame h else h)

/-- A host with a page-scale animation of the given duration that has not been
started, and with a browser-controls animation that ends at the first tick and
returns the scroll (0, 5); the content is scrolled to the top. -/
def animatingHost (duration : Nat) : AnimationHost :=
  { page_scale_animation_ := some { start_time := none, duration := duration }
    browser_controls_offset_manager_ :=
      { has_animation := true
        animation_scroll := fun _ => ⟨0, 5⟩
        animation_running_after := fun time => decide (time < 100) }
    mutator_host_AnimateLayers := fun _ => true
    TotalScrollOffset := ⟨0, 0⟩
    calls := [] }


/-! ## Frame assembly: counting the references to a pass -/

/-- The number of `RENDER_PASS` quads of a quad list that name the pass `id`. -/
def quadRefs (id : Nat) (quads : List DrawQuad) : Nat :=
  quads.countP fun q =>
    decide (q.material = Material.RENDER_PASS) && decide (q.render_pass_id = id)

/-- The number of `RENDER_PASS` quads in the passes of a list that name the pass
`id`. -/
def passRefs (id : Nat) (passes : List RenderPass) : Nat :=
  (passes.map fun p => quadRefs id p.quad_list).sum


/-! ## Frame assembly: the tiles an iterated entry reports -/

/-- Whether the entry gets its quads appended: it stands for a layer itself, its
visible rectangle is not empty, it is not occluded and it will draw. -/
def IteratorEntry.appendsQuads (it : IteratorEntry) : Bool :=
  match it.kind with
  | IteratorKind.represents_itself =>
    !it.visible_layer_rect_IsEmpty && (!it.occluded && it.WillDraw)
  | _ => false

/-- The value of `append_quads_data.num_missing_tiles` after the branch taken for
the entry: the layer's count when its quads are appended, 0 otherwise. -/
def IteratorEntry.reportedMissingTiles (it : IteratorEntry) : Nat :=
  if it.appendsQuads then it.num_missing_tiles else 0

/-- The value of `append_quads_data.num_incomplete_tiles` after the branch taken
for the entry. -/
def IteratorEntry.reportedIncompleteTiles (it : IteratorEntry) : Nat :=
  if it.appendsQuads then it.num_incomplete_tiles else 0

/-- The state in which the loop over the `LayerIterator` starts. -/
def iterationStart (tree : DrawTree) (frame : FrameData) : IterationState :=
  { render_passes :=
      createRenderPasses tree.render_surface_layer_list.reverse frame.render_passes
    copy_requests := tree.copy_requests
    ever_ready_layers := tree.ever_ready_layers
    will_draw_layers := frame.will_draw_layers
    may_contain_video := frame.may_contain_video
    num_missing_tiles := 0
    num_incomplete_tiles := 0
    have_missing_animated_tiles := false }


/-! ## Scroll routing: what blocks a node from scrolling on the impl thread -/

/-- Whether the point falls inside the node's non-fast-scrollable region: the
node has such a region, the point projects into the layer's space without being
clipped, and the region contains the rounded projection. -/
def pointInNonFastScrollableRegion (h : ScrollHost) (screen_space_point : Vector2dF)
    (scroll_node : ScrollNode) : Bool :=
  let projected :=
    (h.scroll_tree.ScreenSpaceTransform scroll_node.id).ProjectPoint screen_space_point
  scroll_node.contains_non_fast_scrollable_region && !projected.2 &&
    scroll_node.non_fast_scrollable_region.any fun r =>
      r.Contains (ToRoundedInt projected.1.x) (ToRoundedInt projected.1.y)


/-! ## Scroll routing: the layer that `FindScrollLayerForDeviceViewportPoint` returns -/

/-- The nodes that `FindScrollLayerForDeviceViewportPoint` tries, in order: the
scroll node of the hit layer and its ancestors, the parentless root left out;
none without a hit layer. -/
def scrollAncestorWalk (h : ScrollHost) (layer_impl : Option LayerImpl) : List ScrollNode :=
  match layer_impl.bind (fun l => h.scroll_tree.Node l.scroll_tree_index) with
  | some scroll_node => h.scroll_tree.walkToRoot h.scroll_tree.nodes.length scroll_node
  | none => []

/-- The owner of the first node of a walk for which `TryScroll` yields
`SCROLL_ON_IMPL_THREAD`; a node whose owner is not a layer of the tree is passed
over. -/
def firstImplThreadOwner (h : ScrollHost) (device_viewport_point : Vector2dF)
    (type : ScrollInputType) (walk : List ScrollNode) : Option LayerImpl :=
  (walk.filterMap fun n =>
    if (TryScroll h device_viewport_point type n).thread = ScrollThread.SCROLL_ON_IMPL_THREAD
    then h.LayerById n.owner_id else none).head?

/-- The layer chosen from the first qualifying owner: the viewport's main scroll
layer when there is no such owner or when it is the outer or the inner viewport
scroll layer, else the owner. -/
def withViewportFallback (h : ScrollHost) (owner : Option LayerImpl) : Option LayerImpl :=
  match owner with
  | none => h.viewport_main_scroll_layer.bind h.LayerById
  | some l =>
    if some l.id = h.outer_viewport_scroll_layer ∨ some l.id = h.inner_viewport_scroll_layer
    then h.viewport_main_scroll_layer.bind h.LayerById
    else some l




/-! ## UI resources: runs of the UI-resource functions -/

/-- No id is at the same time a key of `ui_resource_map_` and a member of
`evicted_ui_resources_`. -/
def UIResources.disjoint (r : UIResources) : Prop :=
  ∀ uid ∈ r.ui_resource_map_, uid ∉ r.evicted_ui_resources_

instance (r : UIResources) : Decidable r.disjoint := by
  unfold UIResources.disjoint
  infer_instance

/-- The host after a UI-resource function: the UI resources are replaced and the
calls that the function made are recorded with the activation state. -/
def Host.applyUIResources (h : Host) (result : UIResources × List ActivationCall) : Host :=
  let h1 := h.withUIResources result.1
  { h1 with activation := { h1.activation with calls := h1.activation.calls ++ result.2 } }

/-- The four functions that write the UI resources. -/
inductive UIResourceCall where
  | CreateUIResource (uid : Nat)
  | DeleteUIResource (uid : Nat)
  | ClearUIResources
  | EvictAllUIResources
  deriving DecidableEq, Repr

/-- One call of a UI-resource function on the host. -/
def stepUIResourceCall (h : Host) : UIResourceCall → Host
  | .CreateUIResource uid => h.applyUIResources (CreateUIResource h.activation.ui_resources uid)
  | .DeleteUIResource uid => h.applyUIResources (DeleteUIResource h.activation.ui_resources uid)
  | .ClearUIResources => h.withUIResources (ClearUIResources h.activation.ui_resources)
  | .EvictAllUIResources => EvictAllUIResources h

/-- A run of UI-resource calls, left to right. -/
def runUIResourceCalls (h : Host) (calls : List UIResourceCall) : Host :=
  calls.foldl stepUIResourceCall h

end LayerTreeHostImpl

/-! # Theorems -/

namespace LayerTreeHostImpl

/-! ## Tree lifecycle -/

theorem treeInv_construct (b : Bool) : TreeInv (construct b) := by
  simp [TreeInv, construct]

theorem treeInv_step (s t : TreeSlots) (c : TreeCall) (h : TreeInv s)
    (hs : stepTree s c = some t) :
    TreeInv t ∧ t.has_impl_thread = s.has_impl_thread := by
  obtain ⟨ha, hp, hr, hx, hn, hn2, hn1⟩ := h
  cases c with
  | beginCommit =>
    simp only [stepTree, BeginCommit, CommitToActiveTree] at hs
    by_cases hb : s.has_impl_thread = true
    · simp only [hb, Bool.not_true, Bool.not_false, if_true] at hs
      rcases hp with hp | hp
      · rcases hr with hr | hr
        · have h1 := hn1 hp hr
          simp only [CreatePendingTree, hp, hr, Option.some.injEq] at hs
          subst hs
          simp [TreeInv, ha, hr, h1]
        · simp only [CreatePendingTree, hp, hr, Option.some.injEq] at hs
          have h2 := hn2 (Or.inr hr)
          subst hs
          simp [TreeInv, ha, h2]
      · simp [CreatePendingTree, hp] at hs
    · simp only [Bool.not_eq_true] at hb
      simp only [hb, Bool.not_false, Bool.not_true] at hs
      simp only [Bool.false_eq_true, if_false, Option.some.injEq] at hs
      subst hs
      exact ⟨⟨ha, hp, hr, hx, hn, hn2, hn1⟩, rfl⟩
  | activateSyncTree =>
    simp only [stepTree, Option.some.injEq] at hs
    subst hs
    rcases hp with hp | hp
    · have hid : ActivateSyncTree s = s := by simp [ActivateSyncTree, hp]
      rw [hid]
      exact ⟨⟨ha, Or.inl hp, hr, hx, hn, hn2, hn1⟩, rfl⟩
    · have hr0 : s.recycle_tree_ = none := by
        rcases hx with hx | hx
        · rw [hp] at hx; cases hx
        · exact hx
      have h2 := hn2 (Or.inl hp)
      simp [ActivateSyncTree, hp, hr0, TreeInv, ha, h2]

theorem treeInv_run (calls : List TreeCall) :
    ∀ s t : TreeSlots, TreeInv s → runTree s calls = some t →
      TreeInv t ∧ t.has_impl_thread = s.has_impl_thread := by
  induction calls with
  | nil =>
    intro s t h hr
    simp only [runTree, Option.some.injEq] at hr
    subst hr
    exact ⟨h, rfl⟩
  | cons c cs ih =>
    intro s t h hr
    simp only [runTree] at hr
    cases hst : stepTree s c with
    | none => simp [hst] at hr
    | some u =>
      simp only [hst, Option.some_bind] at hr
      obtain ⟨hu, hbu⟩ := treeInv_step s u c h hst
      obtain ⟨ht, hbt⟩ := ih u t hu hr
      exact ⟨ht, hbt.trans hbu⟩

theorem runTree_append (a b : List TreeCall) :
    ∀ s : TreeSlots, runTree s (a ++ b) = (runTree s a).bind fun t => runTree t b := by
  induction a with
  | nil => intro s; simp [runTree]
  | cons c cs ih =>
    intro s
    simp only [List.cons_append, runTree]
    cases stepTree s c with
    | none => simp
    | some u => simp [ih u]

/-- The state after a single call on an indirect-mode state satisfying the
invariant: the pending slot is full after `BeginCommit` and empty after
`ActivateSyncTree`. -/
theorem pending_after_step (s t : TreeSlots) (c : TreeCall) (h : TreeInv s)
    (hb : s.has_impl_thread = true) (hs : stepTree s c = some t) :
    (t.pending_tree_.isSome = true ↔ c = TreeCall.beginCommit) := by
  obtain ⟨ha, hp, hr, hx, -⟩ := h
  cases c with
  | beginCommit =>
    simp only [stepTree, BeginCommit, CommitToActiveTree, hb, Bool.not_true,
      Bool.not_false, if_true] at hs
    rcases hp with hp | hp
    · rcases hr with hr | hr
      · simp only [CreatePendingTree, hp, hr, Option.some.injEq] at hs
        subst hs; simp
      · simp only [CreatePendingTree, hp, hr, Option.some.injEq] at hs
        subst hs; simp
    · simp [CreatePendingTree, hp] at hs
  | activateSyncTree =>
    simp only [stepTree, Option.some.injEq] at hs
    subst hs
    rcases hp with hp | hp
    · simp [ActivateSyncTree, hp]
    · have hr0 : s.recycle_tree_ = none := by
        rcases hx with hx | hx
        · rw [hp] at hx; cases hx
        · exact hx
      simp [ActivateSyncTree, hp, hr0]

theorem pending_after_run (calls : List TreeCall) (t : TreeSlots)
    (hr : runTree (construct true) calls = some t) :
    t.active_tree_.isSome = true ∧
      (t.pending_tree_.isSome = true ↔ calls.getLast? = some TreeCall.beginCommit) := by
  have hinv := treeInv_run calls (construct true) t (treeInv_construct true) hr
  refine ⟨by simp [hinv.1.1], ?_⟩
  rcases List.eq_nil_or_concat calls with hnil | ⟨cs, c, hc⟩
  · subst hnil
    simp only [runTree, Option.some.injEq] at hr
    subst hr
    simp [construct]
  · subst hc
    rw [List.concat_eq_append, runTree_append] at hr
    cases hu : runTree (construct true) cs with
    | none => simp [hu] at hr
    | some u =>
      simp only [hu, Option.some_bind, runTree] at hr
      cases hst : stepTree u c with
      | none => simp [hst] at hr
      | some v =>
        simp only [hst, Option.some_bind, Option.some.injEq] at hr
        subst hr
        obtain ⟨hui, hub⟩ := treeInv_run cs (construct true) u (treeInv_construct true) hu
        have := pending_after_step u v c hui (by simpa [construct] using hub) hst
        rw [this, List.concat_eq_append]
        simp

/-- C1. In indirect (impl-thread) commit mode, take any sequence of
`BeginCommit` / `ActivateSyncTree` calls on a freshly constructed host that runs
to completion.  Every prefix of it runs to completion too, and in the state it
reaches the active slot is non-empty and the pending slot is non-empty exactly
when the last call made so far was a `BeginCommit`, that is, after a
`BeginCommit` and before the next `ActivateSyncTree`. -/
theorem tree_slots_along_every_run (calls : List TreeCall) (s : TreeSlots)
    (hrun : runTree (construct true) calls = some s) (n : Nat) :
    ∃ t : TreeSlots, runTree (construct true) (calls.take n) = some t ∧
      t.active_tree_.isSome = true ∧
      (t.pending_tree_.isSome = true ↔
        (calls.take n).getLast? = some TreeCall.beginCommit) := by
  have hsplit : runTree (construct true) (calls.take n ++ calls.drop n) = some s := by
    rw [List.take_append_drop]; exact hrun
  rw [runTree_append] at hsplit
  cases ht : runTree (construct true) (calls.take n) with
  | none => simp [ht] at hsplit
  | some t => exact ⟨t, rfl, pending_after_run (calls.take n) t ht⟩

theorem tree_slots_along_every_run_witness :
    runTree (construct true)
        [TreeCall.beginCommit, TreeCall.activateSyncTree, TreeCall.beginCommit]
      = some { active_tree_ := some 0, pending_tree_ := some 1, recycle_tree_ := none,
               trees_allocated := 2, has_impl_thread := true } ∧
    ∃ t : TreeSlots,
      runTree (construct true)
        ([TreeCall.beginCommit, TreeCall.activateSyncTree, TreeCall.beginCommit].take 2)
        = some t ∧
      t.active_tree_.isSome = true ∧
      (t.pending_tree_.isSome = true ↔
        ([TreeCall.beginCommit, TreeCall.activateSyncTree, TreeCall.beginCommit].take 2).getLast?
          = some TreeCall.beginCommit) :=
  ⟨by decide,
    tree_slots_along_every_run
      [TreeCall.beginCommit, TreeCall.activateSyncTree, TreeCall.beginCommit]
      { active_tree_ := some 0, pending_tree_ := some 1, recycle_tree_ := none,
        trees_allocated := 2, has_impl_thread := true } (by decide) 2⟩

/-- C2, as stated, fails.  After `BeginCommit` on a fresh indirect-mode host the
active slot holds tree 0 and the pending slot tree 1; `ActivateSyncTree` then
leaves tree 0 in the active slot and puts tree 1 (the tree that was pending, not
the tree that was active) into the recycle slot. -/
theorem activate_recycle_is_not_prior_active :
    ∃ s : TreeSlots, runTree (construct true) [TreeCall.beginCommit] = some s ∧
      s.pending_tree_ = some 1 ∧ s.active_tree_ = some 0 ∧
      (ActivateSyncTree s).recycle_tree_ ≠ s.active_tree_ ∧
      (ActivateSyncTree s).active_tree_ ≠ s.pending_tree_ ∧
      (ActivateSyncTree s).recycle_tree_ = some 1 ∧
      (ActivateSyncTree s).active_tree_ = some 0 :=
  ⟨{ active_tree_ := some 0, pending_tree_ := some 1, recycle_tree_ := none,
     trees_allocated := 2, has_impl_thread := true }, by decide⟩

/-- C2, amended.  In every state reached from the constructor (either commit
mode) that has a pending tree `p` and active tree `a`: after `ActivateSyncTree`
the recycle slot holds the very object `p` that was pending, the active slot
still holds the same object `a` as before the call, `a` and `p` are different
objects, the pending slot is empty, and no tree was allocated by the call. -/
theorem activate_renames_pending_to_recycle (b : Bool) (calls : List TreeCall)
    (s : TreeSlots) (a p : Nat)
    (hrun : runTree (construct b) calls = some s)
    (hp : s.pending_tree_ = some p) (ha : s.active_tree_ = some a) :
    (ActivateSyncTree s).recycle_tree_ = some p ∧
      (ActivateSyncTree s).active_tree_ = some a ∧
      a ≠ p ∧
      (ActivateSyncTree s).pending_tree_ = none ∧
      (ActivateSyncTree s).trees_allocated = s.trees_allocated := by
  obtain ⟨⟨ha0, hp1, -, hx, -⟩, -⟩ :=
    treeInv_run calls (construct b) s (treeInv_construct b) hrun
  have hr0 : s.recycle_tree_ = none := by
    rcases hx with hx | hx
    · rw [hp] at hx; cases hx
    · exact hx
  have hp1' : p = 1 := by
    rcases hp1 with h | h
    · rw [hp] at h; cases h
    · rw [hp] at h; exact Option.some.inj h
  have ha' : a = 0 := by
    rw [ha] at ha0; exact Option.some.inj ha0
  subst hp1' ha'
  simp [ActivateSyncTree, hp, hr0, ha]

theorem activate_renames_pending_to_recycle_witness :
    (ActivateSyncTree
        { active_tree_ := some 0, pending_tree_ := some 1, recycle_tree_ := none,
          trees_allocated := 2, has_impl_thread := true }).recycle_tree_ = some 1 ∧
      (ActivateSyncTree
        { active_tree_ := some 0, pending_tree_ := some 1, recycle_tree_ := none,
          trees_allocated := 2, has_impl_thread := true }).active_tree_ = some 0 ∧
      0 ≠ 1 ∧
      (ActivateSyncTree
        { active_tree_ := some 0, pending_tree_ := some 1, recycle_tree_ := none,
          trees_allocated := 2, has_impl_thread := true }).pending_tree_ = none ∧
      (ActivateSyncTree
        { active_tree_ := some 0, pending_tree_ := some 1, recycle_tree_ := none,
          trees_allocated := 2, has_impl_thread := true }).trees_allocated = 2 :=
  activate_renames_pending_to_recycle true
    [TreeCall.beginCommit, TreeCall.activateSyncTree, TreeCall.beginCommit]
    { active_tree_ := some 0, pending_tree_ := some 1, recycle_tree_ := none,
      trees_allocated := 2, has_impl_thread := true } 0 1
    (by decide) rfl rfl

/-! ## Frame assembly: `RemoveRenderPasses` -/

theorem removeOrphanQuads_sublist (pass_exists : List Nat) (quads : List DrawQuad) :
    ∀ refs : Nat → Int, (removeOrphanQuads pass_exists refs quads).1.Sublist quads := by
  induction quads with
  | nil => intro refs; simp [removeOrphanQuads]
  | cons q qs ih =>
    intro refs
    simp only [removeOrphanQuads]
    split_ifs
    · exact (ih _).cons₂ q
    · exact (ih _).cons₂ q
    · exact (ih _).cons q

theorem removeOrphanQuads_keeps_other (pass_exists : List Nat) (quads : List DrawQuad) :
    ∀ (refs : Nat → Int) (q : DrawQuad), q ∈ quads → q.material ≠ Material.RENDER_PASS →
      q ∈ (removeOrphanQuads pass_exists refs quads).1 := by
  induction quads with
  | nil => intro refs q hq; simp at hq
  | cons a qs ih =>
    intro refs q hq hm
    simp only [removeOrphanQuads]
    rcases List.mem_cons.mp hq with rfl | hq
    · simp [hm]
    · split_ifs
      · exact List.mem_cons_of_mem _ (ih _ q hq hm)
      · exact List.mem_cons_of_mem _ (ih _ q hq hm)
      · exact ih _ q hq hm

theorem removeEmptyPasses_getLast (passes : List RenderPass) :
    ∀ (pass_exists : List Nat) (refs : Nat → Int) (h : passes ≠ []),
      ∃ (seen : List Nat) (refs' : Nat → Int),
        (removeEmptyPasses pass_exists refs passes).1.getLast? =
          some { passes.getLast h with
                 quad_list := (removeOrphanQuads seen refs' (passes.getLast h).quad_list).1 } := by
  induction passes with
  | nil => intro _ _ h; exact absurd rfl h
  | cons p rest ih =>
    intro pass_exists refs h
    cases rest with
    | nil => exact ⟨pass_exists, refs, by simp [removeEmptyPasses]⟩
    | cons n rest =>
      have hne : n :: rest ≠ [] := by simp
      simp only [removeEmptyPasses]
      split_ifs
      · obtain ⟨seen, refs', hrec⟩ := ih pass_exists
          (removeOrphanQuads pass_exists refs p.quad_list).2 hne
        exact ⟨seen, refs', by simpa using hrec⟩
      · obtain ⟨seen, refs', hrec⟩ := ih (p.id :: pass_exists)
          (removeOrphanQuads pass_exists refs p.quad_list).2 hne
        refine ⟨seen, refs', ?_⟩
        rw [List.getLast?_cons, hrec]
        simp

/-- C3. For every non-empty render-pass list `RemoveRenderPasses` returns a
non-empty list, and the last element of the result is the last (root) pass of
the input: the same id and copy requests, and its quad list with nothing removed
but `RENDER_PASS` quads (orphans), whatever the root holds and whether or not
anything references it. -/
theorem root_pass_survives_removal (passes : List RenderPass) (h : passes ≠ []) :
    ∃ (out : List RenderPass) (root : RenderPass),
      RemoveRenderPasses passes = some out ∧ out ≠ [] ∧
      out.getLast? = some root ∧
      root.id = (passes.getLast h).id ∧
      root.copy_requests = (passes.getLast h).copy_requests ∧
      root.quad_list.Sublist (passes.getLast h).quad_list ∧
      ∀ q ∈ (passes.getLast h).quad_list, q.material ≠ Material.RENDER_PASS →
        q ∈ root.quad_list := by
  obtain ⟨seen, refs', hlast⟩ := removeEmptyPasses_getLast passes [] (fun _ => 0) h
  cases passes with
  | nil => exact absurd rfl h
  | cons p rest =>
    simp only [RemoveRenderPasses]
    rw [List.getLast?_eq_head?_reverse] at hlast
    cases hrev : (removeEmptyPasses [] (fun _ => 0) (p :: rest)).1.reverse with
    | nil => rw [hrev] at hlast; simp at hlast
    | cons root back =>
      rw [hrev] at hlast
      simp only [List.head?_cons, Option.some.injEq] at hlast
      refine ⟨_, root, rfl, by simp, by simp, ?_, ?_, ?_, ?_⟩
      · rw [hlast]
      · rw [hlast]
      · rw [hlast]; exact removeOrphanQuads_sublist _ _ _
      · intro q hq hm
        rw [hlast]; exact removeOrphanQuads_keeps_other _ _ _ q hq hm

theorem root_pass_survives_removal_witness :
    ∃ (out : List RenderPass) (root : RenderPass),
      RemoveRenderPasses
          [{ id := 7, quad_list := [], copy_requests := [] },
           { id := 1, quad_list := [], copy_requests := [] }] = some out ∧
      out ≠ [] ∧
      out.getLast? = some root ∧
      root.id = ([{ id := 7, quad_list := [], copy_requests := [] },
           ({ id := 1, quad_list := [], copy_requests := [] } : RenderPass)].getLast
             (by simp)).id ∧
      root.copy_requests = ([{ id := 7, quad_list := [], copy_requests := [] },
           ({ id := 1, quad_list := [], copy_requests := [] } : RenderPass)].getLast
             (by simp)).copy_requests ∧
      root.quad_list.Sublist ([{ id := 7, quad_list := [], copy_requests := [] },
           ({ id := 1, quad_list := [], copy_requests := [] } : RenderPass)].getLast
             (by simp)).quad_list ∧
      ∀ q ∈ ([{ id := 7, quad_list := [], copy_requests := [] },
           ({ id := 1, quad_list := [], copy_requests := [] } : RenderPass)].getLast
             (by simp)).quad_list, q.material ≠ Material.RENDER_PASS →
        q ∈ root.quad_list :=
  root_pass_survives_removal
    [{ id := 7, quad_list := [], copy_requests := [] },
     { id := 1, quad_list := [], copy_requests := [] }] (by simp)

/-! ## Raster budget -/

/-- C7, as stated, fails.  A visible host gets its tile-manager resources (limit
1000 bytes, pre-paint share 50%), loses its resource pool in
`CleanUpTileManagerAndUIResources`, and is then made invisible: `SetVisible(false)`
and any further `UpdateTileManagerMemoryPolicy` return early for want of a
resource pool and leave the hard limit at 1000 and the soft limit at 500. -/
theorem invisible_without_pool_keeps_limits :
    (SetVisible (CleanUpTileManagerAndUIResources (CreateTileManagerResources
        (SetVisible (memoryStateAtConstruction
          { bytes_limit_when_visible := 1000
            priority_cutoff_when_visible := PriorityCutoff.CUTOFF_ALLOW_EVERYTHING
            num_resources_limit := 10 } 50) true))) false).visible_ = false ∧
    (SetVisible (CleanUpTileManagerAndUIResources (CreateTileManagerResources
        (SetVisible (memoryStateAtConstruction
          { bytes_limit_when_visible := 1000
            priority_cutoff_when_visible := PriorityCutoff.CUTOFF_ALLOW_EVERYTHING
            num_resources_limit := 10 } 50) true))) false).global_tile_state_
      = { hard_memory_limit_in_bytes := 1000
          soft_memory_limit_in_bytes := 500
          memory_limit_policy := PriorityCutoff.CUTOFF_ALLOW_EVERYTHING
          num_resources_limit := 10 } ∧
    (UpdateTileManagerMemoryPolicy
      (SetVisible (CleanUpTileManagerAndUIResources (CreateTileManagerResources
        (SetVisible (memoryStateAtConstruction
          { bytes_limit_when_visible := 1000
            priority_cutoff_when_visible := PriorityCutoff.CUTOFF_ALLOW_EVERYTHING
            num_resources_limit := 10 } 50) true))) false)
      { bytes_limit_when_visible := 0
        priority_cutoff_when_visible := PriorityCutoff.CUTOFF_ALLOW_NOTHING
        num_resources_limit := 0 }).global_tile_state_.hard_memory_limit_in_bytes
      = 1000 := by
  decide

/-- C7, amended.  With a resource pool present: `UpdateTileManagerMemoryPolicy`
on an invisible host leaves the hard and the soft limit at 0 for every policy and
whatever the limits were before, and `SetVisible(false)` on a visible host makes
it invisible with both limits at 0. -/
theorem invisible_with_pool_zeroes_limits (s : MemoryState) (policy : ManagedMemoryPolicy)
    (hpool : s.resource_pool_ = true) :
    (UpdateTileManagerMemoryPolicy { s with visible_ := false }
        policy).global_tile_state_.hard_memory_limit_in_bytes = 0 ∧
    (UpdateTileManagerMemoryPolicy { s with visible_ := false }
        policy).global_tile_state_.soft_memory_limit_in_bytes = 0 ∧
    (SetVisible { s with visible_ := true } false).visible_ = false ∧
    (SetVisible { s with visible_ := true }
        false).global_tile_state_.hard_memory_limit_in_bytes = 0 ∧
    (SetVisible { s with visible_ := true }
        false).global_tile_state_.soft_memory_limit_in_bytes = 0 := by
  simp [UpdateTileManagerMemoryPolicy, SetVisible, hpool]

theorem invisible_with_pool_zeroes_limits_witness :
    (UpdateTileManagerMemoryPolicy
        { (CreateTileManagerResources (SetVisible (memoryStateAtConstruction
            { bytes_limit_when_visible := 1000
              priority_cutoff_when_visible := PriorityCutoff.CUTOFF_ALLOW_EVERYTHING
              num_resources_limit := 10 } 50) true)) with visible_ := false }
        { bytes_limit_when_visible := 77
          priority_cutoff_when_visible := PriorityCutoff.CUTOFF_ALLOW_EVERYTHING
          num_resources_limit := 3 }).global_tile_state_.hard_memory_limit_in_bytes = 0 :=
  (invisible_with_pool_zeroes_limits
    (CreateTileManagerResources (SetVisible (memoryStateAtConstruction
      { bytes_limit_when_visible := 1000
        priority_cutoff_when_visible := PriorityCutoff.CUTOFF_ALLOW_EVERYTHING
        num_resources_limit := 10 } 50) true))
    { bytes_limit_when_visible := 77
      priority_cutoff_when_visible := PriorityCutoff.CUTOFF_ALLOW_EVERYTHING
      num_resources_limit := 3 }
    (by decide)).1

/-- C8, as stated, fails.  On a visible host with a resource pool and a pre-paint
share of 100%, a visible byte limit of `2 ^ 62` gives hard limit `2 ^ 62` but soft
limit 0: the 64-bit product `2 ^ 62 * 100` wraps to 0, so the soft limit is not
`floor (hard * 100 / 100)`. -/
theorem soft_limit_wraps_at_large_budget :
    (UpdateTileManagerMemoryPolicy
        { visible_ := true, resource_pool_ := true,
          global_tile_state_ :=
            { hard_memory_limit_in_bytes := 0, soft_memory_limit_in_bytes := 0,
              memory_limit_policy := PriorityCutoff.CUTOFF_ALLOW_NOTHING,
              num_resources_limit := 0 },
          cached_managed_memory_policy_ :=
            { bytes_limit_when_visible := 2 ^ 62,
              priority_cutoff_when_visible := PriorityCutoff.CUTOFF_ALLOW_EVERYTHING,
              num_resources_limit := 10 },
          rasterize_only_visible_content := false, use_gpu_rasterization_ := false,
          max_memory_for_prepaint_percentage := 100,
          requires_high_res_to_draw_ := false }
        { bytes_limit_when_visible := 2 ^ 62,
          priority_cutoff_when_visible := PriorityCutoff.CUTOFF_ALLOW_EVERYTHING,
          num_resources_limit := 10 }).global_tile_state_
      = { hard_memory_limit_in_bytes := 2 ^ 62, soft_memory_limit_in_bytes := 0,
          memory_limit_policy := PriorityCutoff.CUTOFF_ALLOW_EVERYTHING,
          num_resources_limit := 10 } ∧
    (0 : Nat) ≠ 2 ^ 62 * 100 / 100 := by
  refine ⟨?_, by norm_num⟩
  simp [UpdateTileManagerMemoryPolicy, softLimitFor, wordModulus]

/-- C8, amended.  On a visible host with a resource pool and a policy whose
visible byte limit is positive (and a `size_t` value),
`UpdateTileManagerMemoryPolicy` sets the hard limit to that byte limit and passes
the resource-count limit through unchanged; the soft limit is
`floor (hard * percentage / 100)` provided the product `hard * percentage` fits
in 64 bits; and the soft limit is at most the hard limit whenever the percentage
is at most 100. -/
theorem visible_limits_from_policy (s : MemoryState) (policy : ManagedMemoryPolicy)
    (hvis : s.visible_ = true) (hpool : s.resource_pool_ = true)
    (hpos : 0 < policy.bytes_limit_when_visible)
    (hfit : policy.bytes_limit_when_visible < 2 ^ 64) :
    (UpdateTileManagerMemoryPolicy s policy).global_tile_state_.hard_memory_limit_in_bytes
        = policy.bytes_limit_when_visible ∧
    (UpdateTileManagerMemoryPolicy s policy).global_tile_state_.num_resources_limit
        = policy.num_resources_limit ∧
    (policy.bytes_limit_when_visible * s.max_memory_for_prepaint_percentage < 2 ^ 64 →
      (UpdateTileManagerMemoryPolicy s policy).global_tile_state_.soft_memory_limit_in_bytes
        = policy.bytes_limit_when_visible * s.max_memory_for_prepaint_percentage / 100) ∧
    (s.max_memory_for_prepaint_percentage ≤ 100 →
      (UpdateTileManagerMemoryPolicy s policy).global_tile_state_.soft_memory_limit_in_bytes
        ≤ (UpdateTileManagerMemoryPolicy s policy).global_tile_state_.hard_memory_limit_in_bytes) := by
  have hmod : policy.bytes_limit_when_visible % wordModulus = policy.bytes_limit_when_visible :=
    Nat.mod_eq_of_lt (by simpa [wordModulus] using hfit)
  simp only [UpdateTileManagerMemoryPolicy, hpool, hvis, hpos, Bool.not_true,
    Bool.false_eq_true, if_false, decide_True, Bool.and_self, if_true, gt_iff_lt, hmod,
    softLimitFor, Nat.mod_mod]
  refine ⟨trivial, trivial, ?_, ?_⟩
  · intro hprod
    have hp : s.max_memory_for_prepaint_percentage < wordModulus := by
      have : s.max_memory_for_prepaint_percentage
          ≤ policy.bytes_limit_when_visible * s.max_memory_for_prepaint_percentage :=
        Nat.le_mul_of_pos_left _ hpos
      simp only [wordModulus]; omega
    have hprod' : policy.bytes_limit_when_visible * s.max_memory_for_prepaint_percentage
        < wordModulus := by simpa [wordModulus] using hprod
    have hdiv : policy.bytes_limit_when_visible * s.max_memory_for_prepaint_percentage / 100
        < wordModulus :=
      lt_of_le_of_lt (Nat.div_le_self _ _) hprod'
    rw [Nat.mod_eq_of_lt hp, Nat.mod_eq_of_lt hprod', Nat.mod_eq_of_lt hdiv]
  · intro hpct
    have hp : s.max_memory_for_prepaint_percentage % wordModulus
        = s.max_memory_for_prepaint_percentage :=
      Nat.mod_eq_of_lt (by simp only [wordModulus]; omega)
    rw [hp]
    have h1 : policy.bytes_limit_when_visible * s.max_memory_for_prepaint_percentage
        % wordModulus ≤ 100 * policy.bytes_limit_when_visible := by
      rw [Nat.mul_comm 100]
      exact (Nat.mod_le _ _).trans (Nat.mul_le_mul_left _ hpct)
    have h2 : policy.bytes_limit_when_visible * s.max_memory_for_prepaint_percentage
        % wordModulus / 100 ≤ policy.bytes_limit_when_visible :=
      Nat.div_le_of_le_mul h1
    exact (Nat.mod_le _ _).trans h2

theorem visible_limits_from_policy_witness :
    (UpdateTileManagerMemoryPolicy visibleHostWithPool
        { bytes_limit_when_visible := 1000
          priority_cutoff_when_visible := PriorityCutoff.CUTOFF_ALLOW_EVERYTHING
          num_resources_limit := 10 }).global_tile_state_.hard_memory_limit_in_bytes = 1000 ∧
    (UpdateTileManagerMemoryPolicy visibleHostWithPool
        { bytes_limit_when_visible := 1000
          priority_cutoff_when_visible := PriorityCutoff.CUTOFF_ALLOW_EVERYTHING
          num_resources_limit := 10 }).global_tile_state_.num_resources_limit = 10 ∧
    (UpdateTileManagerMemoryPolicy visibleHostWithPool
        { bytes_limit_when_visible := 1000
          priority_cutoff_when_visible := PriorityCutoff.CUTOFF_ALLOW_EVERYTHING
          num_resources_limit := 10 }).global_tile_state_.soft_memory_limit_in_bytes
      = 1000 * 50 / 100 :=
  ⟨(visible_limits_from_policy visibleHostWithPool
      { bytes_limit_when_visible := 1000
        priority_cutoff_when_visible := PriorityCutoff.CUTOFF_ALLOW_EVERYTHING
        num_resources_limit := 10 } rfl rfl (by decide) (by norm_num)).1,
   (visible_limits_from_policy visibleHostWithPool
      { bytes_limit_when_visible := 1000
        priority_cutoff_when_visible := PriorityCutoff.CUTOFF_ALLOW_EVERYTHING
        num_resources_limit := 10 } rfl rfl (by decide) (by norm_num)).2.1,
   (visible_limits_from_policy visibleHostWithPool
      { bytes_limit_when_visible := 1000
        priority_cutoff_when_visible := PriorityCutoff.CUTOFF_ALLOW_EVERYTHING
        num_resources_limit := 10 } rfl rfl (by decide) (by norm_num)).2.2.1
      (by norm_num [visibleHostWithPool])⟩

/-! ## GPU rasterization decision -/

/-- C9. With a compositor frame sink present and the forced-on setting not set,
a false `gpu_rasterization_enabled` makes `UpdateGpuRasterizationStatus` leave
the status `OFF_DEVICE` with `use_gpu_rasterization_` and `use_msaa_` both
false, whatever the content suitability, the trigger, the context's MSAA
capability and the flags stored before the call. -/
theorem device_disabled_forces_off_device (s : GpuRasterState) (sink : CompositorFrameSink)
    (hsink : s.compositor_frame_sink_ = some sink)
    (hforced : s.gpu_rasterization_forced = false)
    (henabled : s.gpu_rasterization_enabled = false) :
    (UpdateGpuRasterizationStatus s).2.gpu_rasterization_status_
        = GpuRasterizationStatus.OFF_DEVICE ∧
    (UpdateGpuRasterizationStatus s).2.use_gpu_rasterization_ = false ∧
    (UpdateGpuRasterizationStatus s).2.use_msaa_ = false := by
  simp only [UpdateGpuRasterizationStatus, hsink, hforced, henabled, Bool.false_eq_true,
    if_false, Bool.not_false, if_true, Bool.false_and]
  by_cases hg : s.use_gpu_rasterization_ = true <;> by_cases hm : s.use_msaa_ = true <;>
    simp_all

/-- C10, as stated, fails.  With a usable GPU context, the forced-on setting set,
content not suitable for GPU rasterization and a context whose max MSAA sample
count (8) reaches the positive requested count (8), but which reports MSAA as
slow, `UpdateGpuRasterizationStatus` leaves the status `ON_FORCED` with
`use_gpu_rasterization_` true and `use_msaa_` false. -/
theorem slow_msaa_context_gives_on_forced :
    CanUseGpuRasterization (slowMsaaHost) = true ∧
    slowMsaaHost.gpu_rasterization_forced = true ∧
    slowMsaaHost.content_is_suitable_for_gpu_rasterization_ = false ∧
    slowMsaaHost.compositor_frame_sink_.bind (fun sink => sink.context_provider) =
      some { msaa_is_slow := true, max_samples := 8 } ∧
    RequestedMSAASampleCount slowMsaaHost = 8 ∧
    (UpdateGpuRasterizationStatus slowMsaaHost).2.gpu_rasterization_status_ =
      GpuRasterizationStatus.ON_FORCED ∧
    (UpdateGpuRasterizationStatus slowMsaaHost).2.use_gpu_rasterization_ = true ∧
    (UpdateGpuRasterizationStatus slowMsaaHost).2.use_msaa_ = false := by
  decide!

/-- C10, amended.  With a usable GPU context (`CanUseGpuRasterization`), the
forced-on setting set, content not suitable for GPU rasterization, and a
compositor context that does not report MSAA as slow and whose max MSAA sample
count is at least the requested sample count, which is positive,
`UpdateGpuRasterizationStatus` leaves the status `MSAA_CONTENT` with
`use_gpu_rasterization_` and `use_msaa_` both true, whatever the device-enabled
and trigger settings and the flags stored before the call. -/
theorem forced_unsuitable_with_msaa_is_msaa_content (s : GpuRasterState)
    (sink : CompositorFrameSink) (caps : ContextCapabilities)
    (hsink : s.compositor_frame_sink_ = some sink)
    (hcaps : sink.context_provider = some caps)
    (husable : CanUseGpuRasterization s = true)
    (hforced : s.gpu_rasterization_forced = true)
    (hunsuitable : s.content_is_suitable_for_gpu_rasterization_ = false)
    (hfast : caps.msaa_is_slow = false)
    (hpos : 0 < RequestedMSAASampleCount s)
    (hmax : RequestedMSAASampleCount s ≤ caps.max_samples) :
    (UpdateGpuRasterizationStatus s).2.gpu_rasterization_status_
        = GpuRasterizationStatus.MSAA_CONTENT ∧
    (UpdateGpuRasterizationStatus s).2.use_gpu_rasterization_ = true ∧
    (UpdateGpuRasterizationStatus s).2.use_msaa_ = true := by
  have hmax' : RequestedMSAASampleCount s ≤ maxMsaaSamples sink := by
    simp only [maxMsaaSamples, hcaps, hfast, Bool.not_false, if_true]
    exact hmax
  simp only [UpdateGpuRasterizationStatus, hsink, hforced, hunsuitable, husable, hpos, hmax',
    gt_iff_lt, ge_iff_le, decide_True, Bool.and_self, Bool.not_false, Bool.not_true,
    Bool.and_false, if_true, Bool.false_eq_true, if_false]
  by_cases hg : s.use_gpu_rasterization_ = true <;> by_cases hm : s.use_msaa_ = true <;>
    simp_all

theorem device_disabled_forces_off_device_witness :
    (UpdateGpuRasterizationStatus (gpuHost false false)).2.gpu_rasterization_status_
        = GpuRasterizationStatus.OFF_DEVICE ∧
    (UpdateGpuRasterizationStatus (gpuHost false false)).2.use_gpu_rasterization_ = false ∧
    (UpdateGpuRasterizationStatus (gpuHost false false)).2.use_msaa_ = false :=
  device_disabled_forces_off_device (gpuHost false false)
    { context_provider := some { msaa_is_slow := false, max_samples := 8 }
      worker_context_provider := some true } rfl rfl rfl

theorem forced_unsuitable_with_msaa_is_msaa_content_witness :
    (UpdateGpuRasterizationStatus (gpuHost true false)).2.gpu_rasterization_status_
        = GpuRasterizationStatus.MSAA_CONTENT ∧
    (UpdateGpuRasterizationStatus (gpuHost true false)).2.use_gpu_rasterization_ = true ∧
    (UpdateGpuRasterizationStatus (gpuHost true false)).2.use_msaa_ = true :=
  forced_unsuitable_with_msaa_is_msaa_content (gpuHost true false)
    { context_provider := some { msaa_is_slow := false, max_samples := 8 }
      worker_context_provider := some true }
    { msaa_is_slow := false, max_samples := 8 } rfl rfl rfl rfl rfl rfl (by decide!)
    (by decide!)

/-! ## Scroll routing -/

/-- C4, as stated, fails.  In the scene with one scrollable child (max scroll
offset (100, 0), offset (0, 0), page and device scale 1) `ScrollBegin` with wheel
input inside the child returns `SCROLL_ON_IMPL_THREAD` and `ScrollBy` with delta
(150, 0) leaves the child at (100, 0), but the unused scroll delta it reports is
(0, 0), not (50, 0), and no root overscroll is reported. -/
theorem wheel_scroll_reports_no_unused_delta :
    wheelScrollScenario true =
      some (⟨ScrollThread.SCROLL_ON_IMPL_THREAD, MainThreadScrollingReason.kNotScrollingOnMain⟩,
        { did_scroll := true, did_overscroll_root := false
          accumulated_root_overscroll := ⟨0, 0⟩, unused_scroll_delta := ⟨0, 0⟩ },
        ⟨100, 0⟩, ⟨0, 0⟩) ∧
    (⟨0, 0⟩ : Vector2dF) ≠ ⟨50, 0⟩ := by
  decide!

/-- C4, amended.  In the scene with one scrollable child (max scroll offset
(100, 0), offset (0, 0), page and device scale 1; the viewport nodes have no
scroll range, whether or not they are marked scrollable) `ScrollBegin` with
wheel input inside the child returns `SCROLL_ON_IMPL_THREAD`, and the following
`ScrollBy` with delta (150, 0) moves the child by (100, 0) to offset (100, 0),
takes the whole delta (150, 0) out of the scroll state (the movement is within 45
degrees of the requested delta), and so reports `did_scroll`, an unused scroll
delta of (0, 0) and no root overscroll. -/
theorem wheel_scroll_consumes_whole_delta (viewport_nodes_scrollable : Bool) :
    wheelScrollScenario viewport_nodes_scrollable =
      some (⟨ScrollThread.SCROLL_ON_IMPL_THREAD, MainThreadScrollingReason.kNotScrollingOnMain⟩,
        { did_scroll := true, did_overscroll_root := false
          accumulated_root_overscroll := ⟨0, 0⟩, unused_scroll_delta := ⟨0, 0⟩ },
        ⟨100, 0⟩, ⟨0, 0⟩) := by
  cases viewport_nodes_scrollable <;> decide!

/-- C5, as stated, fails.  In the scene with one scrollable child of range
(100, 0): offered (150, 0), the child moves by (100, 0) and leaves (0, 0), so
movement plus remainder is (100, 0), not (150, 0); offered (1/20, 0), the child
moves by (1/20, 0) and leaves (1/20, 0), which add up to (1/10, 0). -/
theorem child_scroll_loses_or_gains_delta :
    applyScrollOnChild 150 0 = some (⟨100, 0⟩, ⟨0, 0⟩) ∧
    (⟨100, 0⟩ : Vector2dF).add ⟨0, 0⟩ ≠ ⟨150, 0⟩ ∧
    applyScrollOnChild (1 / 20) 0 = some (⟨1 / 20, 0⟩, ⟨1 / 20, 0⟩) ∧
    (⟨1 / 20, 0⟩ : Vector2dF).add ⟨1 / 20, 0⟩ ≠ ⟨1 / 20, 0⟩ := by
  decide!

theorem angleBelow45_self (v : Vector2dF) (hv : v.x ≠ 0 ∨ v.y ≠ 0) : angleBelow45 v v = true := by
  have hpos : 0 < v.dot v := by
    simp only [Vector2dF.dot]
    rcases hv with hx | hy
    · have := mul_self_pos.mpr hx
      nlinarith [mul_self_nonneg v.y]
    · have := mul_self_pos.mpr hy
      nlinarith [mul_self_nonneg v.x]
  simp only [angleBelow45, Bool.and_eq_true, decide_eq_true_eq]
  exact ⟨hpos, by nlinarith⟩

theorem deltaTakenByNode_of_no_movement (delta : Vector2dF) :
    deltaTakenByNode ⟨0, 0⟩ delta = ⟨0, 0⟩ := by
  simp [deltaTakenByNode, kEpsilon]

theorem deltaTakenByNode_of_full_movement (delta : Vector2dF)
    (hbig : |delta.x| > kEpsilon ∨ |delta.y| > kEpsilon) :
    deltaTakenByNode delta delta = delta := by
  have hne : delta.x ≠ 0 ∨ delta.y ≠ 0 := by
    rcases hbig with h | h
    · left; intro h0; rw [h0] at h; norm_num [kEpsilon] at h
    · right; intro h0; rw [h0] at h; norm_num [kEpsilon] at h
  simp [deltaTakenByNode, hbig, appliedDeltaAfterTieBreak, angleBelow45_self delta hne]

/-- C5, amended.  Where an inner viewport scroll layer exists, `ApplyScroll`
returns, and the delta it leaves in the scroll state is the delta offered minus
the delta taken: for the viewport's main scroll node the delta taken is the
consumed delta of `Viewport::ScrollBy`; for a node that is neither that nor the
inner viewport node it is `deltaTakenByNode` of the node's applied delta (its
offset change, in the coordinate space of the offered delta), that is nothing
if the applied delta exceeds 0.1 on neither axis, the whole offered delta if the
applied delta is within 45 degrees of it, and else the projection of the offered
delta on the applied delta.  The delta taken equals the applied delta, so that
movement plus remainder equals the delta offered, when the node does not move and
when it absorbs the whole offered delta and that exceeds 0.1 on some axis. -/
theorem delta_left_is_offered_minus_taken (h : ScrollHost) (n : ScrollNode) (st : ScrollState)
    (inner_id : Nat) (hinner : h.inner_viewport_scroll_layer = some inner_id) :
    (h.viewport_main_scroll_layer = some n.owner_id →
      deltaLeft (ApplyScroll h n st) =
        some ((⟨st.delta_x, st.delta_y⟩ : Vector2dF).sub
          (ViewportScrollBy h ⟨st.delta_x, st.delta_y⟩ ⟨st.position_x, st.position_y⟩
            st.is_direct_manipulation (!h.wheel_scrolling_) true).2.consumed_delta)) ∧
    (h.viewport_main_scroll_layer ≠ some n.owner_id → n.owner_id ≠ inner_id →
      deltaLeft (ApplyScroll h n st) =
        some ((⟨st.delta_x, st.delta_y⟩ : Vector2dF).sub
          (deltaTakenByNode
            (ScrollSingleNode h n ⟨st.delta_x, st.delta_y⟩ ⟨st.position_x, st.position_y⟩
              st.is_direct_manipulation).2
            ⟨st.delta_x, st.delta_y⟩))) ∧
    deltaTakenByNode ⟨0, 0⟩ ⟨st.delta_x, st.delta_y⟩ = ⟨0, 0⟩ ∧
    ((|st.delta_x| > kEpsilon ∨ |st.delta_y| > kEpsilon) →
      deltaTakenByNode ⟨st.delta_x, st.delta_y⟩ ⟨st.delta_x, st.delta_y⟩
        = ⟨st.delta_x, st.delta_y⟩) := by
  refine ⟨?_, ?_, deltaTakenByNode_of_no_movement _, fun hbig =>
    deltaTakenByNode_of_full_movement ⟨st.delta_x, st.delta_y⟩ hbig⟩
  · intro hmain
    simp only [ApplyScroll, hinner, hmain, decide_True, Bool.true_or, if_true, deltaLeft,
      Bool.not_true, Bool.false_and, Bool.false_eq_true, if_false]
    split_ifs <;> simp [ScrollState.ConsumeDelta, ScrollState.set_caused_scroll, Vector2dF.sub]
  · intro hmain hnotinner
    by_cases hs :
        |(ScrollSingleNode h n ⟨st.delta_x, st.delta_y⟩ ⟨st.position_x, st.position_y⟩
            st.is_direct_manipulation).2.x| > kEpsilon ∨
        |(ScrollSingleNode h n ⟨st.delta_x, st.delta_y⟩ ⟨st.position_x, st.position_y⟩
            st.is_direct_manipulation).2.y| > kEpsilon
    · have hb : (decide (|(ScrollSingleNode h n ⟨st.delta_x, st.delta_y⟩
            ⟨st.position_x, st.position_y⟩ st.is_direct_manipulation).2.x| > kEpsilon) ||
          decide (|(ScrollSingleNode h n ⟨st.delta_x, st.delta_y⟩
            ⟨st.position_x, st.position_y⟩ st.is_direct_manipulation).2.y| > kEpsilon)) = true := by
        simpa using hs
      simp [ApplyScroll, hinner, hmain, hnotinner, deltaLeft, deltaTakenByNode, hs, hb,
        ScrollState.ConsumeDelta, ScrollState.set_caused_scroll, Vector2dF.sub]
    · have hb : (decide (|(ScrollSingleNode h n ⟨st.delta_x, st.delta_y⟩
            ⟨st.position_x, st.position_y⟩ st.is_direct_manipulation).2.x| > kEpsilon) ||
          decide (|(ScrollSingleNode h n ⟨st.delta_x, st.delta_y⟩
            ⟨st.position_x, st.position_y⟩ st.is_direct_manipulation).2.y| > kEpsilon)) = false := by
        simpa using hs
      simp [ApplyScroll, hinner, hmain, hnotinner, deltaLeft, deltaTakenByNode, hs, hb,
        Vector2dF.sub]

theorem delta_left_is_offered_minus_taken_witness :
    deltaLeft (ApplyScroll (childScene true) childNode (scrollStateAt 150 0)) =
      some ((⟨(scrollStateAt 150 0).delta_x, (scrollStateAt 150 0).delta_y⟩ : Vector2dF).sub
        (deltaTakenByNode
          (ScrollSingleNode (childScene true) childNode
            ⟨(scrollStateAt 150 0).delta_x, (scrollStateAt 150 0).delta_y⟩
            ⟨(scrollStateAt 150 0).position_x, (scrollStateAt 150 0).position_y⟩
            (scrollStateAt 150 0).is_direct_manipulation).2
          ⟨(scrollStateAt 150 0).delta_x, (scrollStateAt 150 0).delta_y⟩)) :=
  (delta_left_is_offered_minus_taken (childScene true) childNode (scrollStateAt 150 0) 2
    rfl).2.1 (by decide) (by decide)

/-! ## Scroll routing: offsets stay in range -/

theorem clamp_in_range (offset max_scroll_offset : Vector2dF)
    (hx : 0 ≤ max_scroll_offset.x) (hy : 0 ≤ max_scroll_offset.y) :
    0 ≤ (ClampScrollOffsetToLimits offset max_scroll_offset).x ∧
    (ClampScrollOffsetToLimits offset max_scroll_offset).x ≤ max_scroll_offset.x ∧
    0 ≤ (ClampScrollOffsetToLimits offset max_scroll_offset).y ∧
    (ClampScrollOffsetToLimits offset max_scroll_offset).y ≤ max_scroll_offset.y := by
  simp only [ClampScrollOffsetToLimits]
  refine ⟨le_max_right _ _, max_le (min_le_right _ _) hx, le_max_right _ _,
    max_le (min_le_right _ _) hy⟩

theorem scrollTree_ScrollBy_in_range (t : ScrollTree) (scroll_node : ScrollNode)
    (scroll : Vector2dF) (ht : t.offsetsInRange) :
    (t.ScrollBy scroll_node scroll).offsetsInRange := by
  intro m hm
  simp only [ScrollTree.ScrollBy, List.mem_map] at hm
  obtain ⟨n, hn, rfl⟩ := hm
  have hr := ht n hn
  by_cases hid : n.id = scroll_node.id
  · rw [if_pos hid]
    obtain ⟨h0x, hxm, h0y, hym⟩ := hr
    exact clamp_in_range _ _ (h0x.trans hxm) (h0y.trans hym)
  · rw [if_neg hid]
    exact hr

theorem scrollNodeWithLocalDelta_in_range (t : ScrollTree) (scroll_node : ScrollNode)
    (local_delta : Vector2dF) (page_scale_factor : ℚ) (ht : t.offsetsInRange) :
    (ScrollNodeWithLocalDelta t scroll_node local_delta page_scale_factor).1.offsetsInRange := by
  simp only [ScrollNodeWithLocalDelta]
  exact scrollTree_ScrollBy_in_range _ _ _ ht

theorem scrollNodeWithViewportSpaceDelta_in_range (t : ScrollTree) (device_scale_factor : ℚ)
    (scroll_node : ScrollNode) (viewport_point viewport_delta : Vector2dF)
    (ht : t.offsetsInRange) :
    (ScrollNodeWithViewportSpaceDelta t device_scale_factor scroll_node viewport_point
      viewport_delta).1.offsetsInRange := by
  simp only [ScrollNodeWithViewportSpaceDelta]
  split_ifs
  · exact ht
  · exact scrollTree_ScrollBy_in_range _ _ _ ht
  · exact scrollTree_ScrollBy_in_range _ _ _ ht

theorem scrollSingleNode_in_range (h : ScrollHost) (scroll_node : ScrollNode)
    (delta viewport_point : Vector2dF) (is_direct_manipulation : Bool)
    (ht : h.scroll_tree.offsetsInRange) :
    (ScrollSingleNode h scroll_node delta viewport_point
      is_direct_manipulation).1.scroll_tree.offsetsInRange ∧
    (ScrollSingleNode h scroll_node delta viewport_point
      is_direct_manipulation).1.inner_viewport_scroll_layer = h.inner_viewport_scroll_layer := by
  simp only [ScrollSingleNode]
  split_ifs
  · exact ⟨scrollNodeWithViewportSpaceDelta_in_range _ _ _ _ _ ht, rfl⟩
  · exact ⟨scrollNodeWithLocalDelta_in_range _ _ _ _ ht, rfl⟩

theorem viewportScrollBy_in_range (h : ScrollHost) (delta viewport_point : Vector2dF)
    (dm abc sov : Bool) (ht : h.scroll_tree.offsetsInRange) :
    (ViewportScrollBy h delta viewport_point dm abc sov).1.scroll_tree.offsetsInRange ∧
    (ViewportScrollBy h delta viewport_point dm abc sov).1.inner_viewport_scroll_layer
      = h.inner_viewport_scroll_layer := by
  simp only [ViewportScrollBy]
  split
  · rename_i _ outer _
    split
    · rename_i _ inner _
      have r1 := scrollSingleNode_in_range h inner delta viewport_point dm ht
      have r2 := scrollSingleNode_in_range
        (ScrollSingleNode h inner delta viewport_point dm).1 outer
        (delta.sub (ScrollSingleNode h inner delta viewport_point dm).2) viewport_point dm r1.1
      exact ⟨r2.1, r2.2.trans r1.2⟩
    · exact scrollSingleNode_in_range h outer delta viewport_point dm ht
  · split
    · rename_i _ inner _
      exact scrollSingleNode_in_range h inner delta viewport_point dm ht
    · exact ⟨ht, rfl⟩

theorem applyScroll_in_range (h : ScrollHost) (scroll_node : ScrollNode) (st : ScrollState)
    (ht : h.scroll_tree.offsetsInRange) :
    (∀ r, ApplyScroll h scroll_node st = some r →
      r.1.scroll_tree.offsetsInRange ∧
        r.1.inner_viewport_scroll_layer = h.inner_viewport_scroll_layer) ∧
    (h.inner_viewport_scroll_layer ≠ none → ∃ r, ApplyScroll h scroll_node st = some r) := by
  cases hin : h.inner_viewport_scroll_layer with
  | none => simp [ApplyScroll, hin]
  | some inner_id =>
    have hv := viewportScrollBy_in_range h ⟨st.delta_x, st.delta_y⟩
      ⟨st.position_x, st.position_y⟩ st.is_direct_manipulation (!h.wheel_scrolling_)
      (decide (h.viewport_main_scroll_layer = some scroll_node.owner_id)) ht
    have hs := scrollSingleNode_in_range h scroll_node ⟨st.delta_x, st.delta_y⟩
      ⟨st.position_x, st.position_y⟩ st.is_direct_manipulation ht
    rw [hin] at hv hs
    constructor
    · intro r hr
      simp only [ApplyScroll, hin] at hr
      split_ifs at hr <;> simp only [Option.some.injEq] at hr <;> subst hr <;>
        first
          | exact hv
          | exact hs
    · intro _
      simp only [ApplyScroll, hin]
      split_ifs <;> exact ⟨_, rfl⟩

theorem distributeToScrollChain_in_range (chain : List ScrollNode) :
    ∀ (h : ScrollHost) (st : ScrollState), h.scroll_tree.offsetsInRange →
      (∀ r, distributeToScrollChain h st chain = some r →
        r.1.scroll_tree.offsetsInRange ∧
          r.1.inner_viewport_scroll_layer = h.inner_viewport_scroll_layer) ∧
      (h.inner_viewport_scroll_layer ≠ none →
        ∃ r, distributeToScrollChain h st chain = some r) := by
  induction chain with
  | nil =>
    intro h st ht
    simp only [distributeToScrollChain, Option.some.injEq]
    exact ⟨fun r hr => by subst hr; exact ⟨ht, rfl⟩, fun _ => ⟨_, rfl⟩⟩
  | cons n rest ih =>
    intro h st ht
    obtain ⟨hpres, htot⟩ := applyScroll_in_range h n st ht
    constructor
    · intro r hr
      simp only [distributeToScrollChain] at hr
      cases ha : ApplyScroll h n st with
      | none => simp [ha] at hr
      | some a =>
        simp only [ha, Option.some_bind] at hr
        obtain ⟨h1, h2⟩ := hpres a ha
        obtain ⟨h3, h4⟩ := (ih a.1 a.2 h1).1 r hr
        exact ⟨h3, h4.trans h2⟩
    · intro hne
      obtain ⟨a, ha⟩ := htot hne
      obtain ⟨h1, h2⟩ := hpres a ha
      obtain ⟨r, hr⟩ := (ih a.1 a.2 h1).2 (by rw [h2]; exact hne)
      exact ⟨r, by simp only [distributeToScrollChain, ha, Option.some_bind]; exact hr⟩

/-- C6.  If every scroll node's current offset lies within
`[0, max scroll offset]` on both axes before a `ScrollBy`, it does so after it,
for every scroll state (so every requested delta, of any magnitude and for wheel
and direct manipulation alike); and `ScrollBy` does return whenever an inner
viewport scroll layer exists. -/
theorem scrollBy_keeps_offsets_in_range (h : ScrollHost) (st : ScrollState)
    (ht : h.scroll_tree.offsetsInRange) :
    (∀ r, ScrollBy h st = some r → r.2.1.scroll_tree.offsetsInRange) ∧
    (h.inner_viewport_scroll_layer ≠ none →
      ∃ r, ScrollBy h st = some r ∧ r.2.1.scroll_tree.offsetsInRange) := by
  have hall : ∀ r, ScrollBy h st = some r → r.2.1.scroll_tree.offsetsInRange := by
    intro r hr
    simp only [ScrollBy] at hr
    cases hc : h.CurrentlyScrollingLayer with
    | none =>
      simp only [hc, Option.some.injEq] at hr
      subst hr
      exact ht
    | some l =>
      simp only [hc, DistributeScrollDelta, Option.map_eq_some'] at hr
      obtain ⟨a, ha, rfl⟩ := hr
      exact ((distributeToScrollChain_in_range _ h _ ht).1 a ha).1
  refine ⟨hall, fun hne => ?_⟩
  have hex : ∃ r, ScrollBy h st = some r := by
    simp only [ScrollBy]
    cases hc : h.CurrentlyScrollingLayer with
    | none => exact ⟨_, rfl⟩
    | some l =>
      simp only [DistributeScrollDelta]
      obtain ⟨a, ha⟩ := (distributeToScrollChain_in_range (currentScrollChain h).reverse h
        { st with
          delta_consumed_for_scroll_sequence := h.did_lock_scrolling_layer_
          is_direct_manipulation := !h.wheel_scrolling_
          current_native_scrolling_node := h.scroll_tree.currently_scrolling_node_id } ht).2 hne
      rw [ha]
      exact ⟨_, rfl⟩
  obtain ⟨r, hr⟩ := hex
  exact ⟨r, hr, hall r hr⟩

theorem scrollBy_keeps_offsets_in_range_witness :
    ∃ r, ScrollBy scrollingChildScene (scrollStateAt 100000 (-100000)) = some r ∧
      r.2.1.scroll_tree.offsetsInRange :=
  (scrollBy_keeps_offsets_in_range scrollingChildScene (scrollStateAt 100000 (-100000))
    (by
      intro n hn
      simp only [scrollingChildScene, childScene, List.mem_cons, List.mem_singleton,
        List.not_mem_nil, or_false] at hn
      rcases hn with rfl | rfl | rfl | rfl <;>
        norm_num [ScrollNode.offsetInRange, fixedNode])).2 (by decide)

/-! ## Frame assembly: `CanDraw`, `CalculateRenderPasses`, `DrawLayers` -/

/-- C11, as stated, fails.  During a resourceless software draw, with a frame
sink and a non-empty layer list, `CanDraw()` is true although the draw viewport
is empty and an evicted UI resource has not been recreated. -/
theorem canDraw_during_resourceless_draw :
    (DrawViewportSize
      { drawHost (drawScene [] false 0 false) false with
        resourceless_software_draw_ := true, device_viewport_size_ := ⟨0, 0⟩
        evicted_ui_resources_ := [7] }).IsEmpty = true ∧
    EvictedUIResourcesExist
      { drawHost (drawScene [] false 0 false) false with
        resourceless_software_draw_ := true, device_viewport_size_ := ⟨0, 0⟩
        evicted_ui_resources_ := [7] } = true ∧
    CanDraw
      { drawHost (drawScene [] false 0 false) false with
        resourceless_software_draw_ := true, device_viewport_size_ := ⟨0, 0⟩
        evicted_ui_resources_ := [7] } = true := by
  decide

/-- C11, amended.  `CanDraw()` is false in every state without a compositor
frame sink and in every state whose active tree has an empty layer list; and,
unless a resourceless software draw is in progress, in every state in which the
draw viewport size is empty or evicted UI resources exist. -/
theorem canDraw_false_when_blocked (h : DrawHost) :
    (h.compositor_frame_sink_ = none → CanDraw h = false) ∧
    (h.active_tree_.LayerListIsEmpty = true → CanDraw h = false) ∧
    (h.resourceless_software_draw_ = false →
      (DrawViewportSize h).IsEmpty = true → CanDraw h = false) ∧
    (h.resourceless_software_draw_ = false →
      EvictedUIResourcesExist h = true → CanDraw h = false) := by
  refine ⟨?_, ?_, ?_, ?_⟩
  · intro hs
    simp [CanDraw, hs]
  · intro hl
    simp [CanDraw, hl]
  · intro hr hv
    simp [CanDraw, hr, hv]
  · intro hr he
    simp only [CanDraw, hr, he]
    split_ifs <;> first | rfl | contradiction

theorem canDraw_false_when_blocked_witness :
    CanDraw
      { drawHost (drawScene [] false 0 false) false with evicted_ui_resources_ := [7] }
      = false :=
  (canDraw_false_when_blocked
    { drawHost (drawScene [] false 0 false) false with
      evicted_ui_resources_ := [7] }).2.2.2 rfl rfl

/-- C12, as stated, fails.  A root surface without damage, with no copy request,
no forced resource re-send and no HUD layer, but with no contributing layer,
does not take the early-out: `CalculateRenderPasses` builds the root pass and
leaves `has_no_damage` false. -/
theorem empty_root_surface_still_builds_a_pass :
    (CalculateRenderPasses (drawHost (drawScene [] true 0 false) false) freshFrame).map
        (fun r => (r.1, r.2.2)) =
      some (DrawResult.DRAW_SUCCESS,
        { render_passes := [{ id := 1, quad_list := [], copy_requests := [] }]
          will_draw_layers := [], has_no_damage := false, may_contain_video := false }) := by
  decide

/-- C12, amended.  With a frame sink and a root render surface that has at least
one contributing layer: if, after damage tracking, the root surface's current
damage rectangle does not intersect its content rectangle, the effect tree holds
no copy request, the frame sink does not force a resource re-send and no HUD
layer is animating its contents, then `CalculateRenderPasses` returns
`DRAW_SUCCESS`, sets `has_no_damage`, and leaves the rest of the frame (its
render passes included) as it was. -/
theorem no_damage_early_out (h : DrawHost) (frame : FrameData) (root : RenderSurfaceLayer)
    (sink : BoundFrameSink)
    (hroot : (TrackDamageForAllSurfaces h.active_tree_).RootRenderSurface = some root)
    (hsink : h.compositor_frame_sink_ = some sink)
    (hlayers : root.layer_list_empty = false)
    (hdamage : root.current_damage_rect.Intersects root.content_rect = false)
    (hcopy : h.active_tree_.HasCopyRequests = false)
    (hresend : sink.can_force_reclaim_resources = false)
    (hhud : h.active_tree_.hud_layer ≠ some true) :
    CalculateRenderPasses h frame =
      some (DrawResult.DRAW_SUCCESS,
        { h with active_tree_ := TrackDamageForAllSurfaces h.active_tree_ },
        { frame with has_no_damage := true }) := by
  have hcopy' : (TrackDamageForAllSurfaces h.active_tree_).HasCopyRequests = false := by
    simpa [TrackDamageForAllSurfaces, DrawTree.HasCopyRequests] using hcopy
  have hhud' : (match (TrackDamageForAllSurfaces h.active_tree_).hud_layer with
      | some is_animating => is_animating
      | none => false) = false := by
    have : (TrackDamageForAllSurfaces h.active_tree_).hud_layer = h.active_tree_.hud_layer := rfl
    rw [this]
    cases hh : h.active_tree_.hud_layer with
    | none => rfl
    | some b =>
      cases b with
      | false => rfl
      | true => exact absurd hh hhud
  simp only [CalculateRenderPasses, hroot, hsink, hlayers, hdamage, hcopy', hresend, hhud',
    Bool.not_false, Bool.and_self, if_true]

theorem no_damage_early_out_witness :
    CalculateRenderPasses (drawHost (drawScene [] false 0 false) false) freshFrame =
      some (DrawResult.DRAW_SUCCESS,
        { drawHost (drawScene [] false 0 false) false with
          active_tree_ :=
            TrackDamageForAllSurfaces (drawHost (drawScene [] false 0 false) false).active_tree_ },
        { freshFrame with has_no_damage := true }) :=
  no_damage_early_out (drawHost (drawScene [] false 0 false) false) freshFrame
    (rootSurface false false) (boundFrameSink false)
    (by decide) rfl rfl (by decide) (by decide) rfl (by decide)

/-- C14.  `DrawLayers` on a frame with `has_no_damage` set returns false and
leaves the frame sink, and so the frames submitted to it, as they were; on a
frame with damage, with a frame sink bound, it returns true and the frames
submitted to the sink are those submitted before followed by exactly one new
compositor frame, which carries the render passes of the frame descriptor. -/
theorem drawLayers_submits_one_frame_iff_damage (h : DrawHost) (frame : FrameData) :
    (frame.has_no_damage = true →
      ∃ h1 : DrawHost, DrawLayers h frame = some (false, h1, frame) ∧
        h1.compositor_frame_sink_ = h.compositor_frame_sink_) ∧
    (frame.has_no_damage = false → ∀ sink : BoundFrameSink,
      h.compositor_frame_sink_ = some sink →
      ∃ (h1 : DrawHost) (frame1 : FrameData) (sink1 : BoundFrameSink),
        DrawLayers h frame = some (true, h1, frame1) ∧
        h1.compositor_frame_sink_ = some sink1 ∧
        sink1.submitted_frames = sink.submitted_frames ++
          [{ render_pass_list := frame.render_passes
             may_contain_video := frame.may_contain_video }]) := by
  constructor
  · intro hno
    exact ⟨{ h with memory := { h.memory with requires_high_res_to_draw_ := false } },
      by simp [DrawLayers, hno], rfl⟩
  · intro hdamage sink hsink
    simp only [DrawLayers, hdamage, hsink, Bool.false_eq_true, if_false]
    exact ⟨_, _, _, rfl, rfl, rfl⟩

theorem drawLayers_submits_one_frame_iff_damage_witness :
    ∃ (h1 : DrawHost) (frame1 : FrameData) (sink1 : BoundFrameSink),
      DrawLayers (drawHost (drawScene [] false 0 false) false) freshFrame
        = some (true, h1, frame1) ∧
      h1.compositor_frame_sink_ = some sink1 ∧
      sink1.submitted_frames = (boundFrameSink false).submitted_frames ++
        [{ render_pass_list := freshFrame.render_passes
           may_contain_video := freshFrame.may_contain_video }] :=
  (drawLayers_submits_one_frame_iff_damage (drawHost (drawScene [] false 0 false) false)
    freshFrame).2 rfl (boundFrameSink false) rfl

/-- C15.  Whenever `resourceless_software_draw_` is set, every result of
`CalculateRenderPasses` is `DRAW_SUCCESS`, whatever the tiles missing or
incomplete, the animation state of the layers and the high-resolution
requirement; and the function does return when there are a root render surface
and a frame sink. -/
theorem resourceless_draw_always_succeeds (h : DrawHost) (frame : FrameData)
    (hres : h.resourceless_software_draw_ = true) :
    (∀ r, CalculateRenderPasses h frame = some r → r.1 = DrawResult.DRAW_SUCCESS) ∧
    (∀ (root : RenderSurfaceLayer) (sink : BoundFrameSink),
      (TrackDamageForAllSurfaces h.active_tree_).RootRenderSurface = some root →
      h.compositor_frame_sink_ = some sink →
      ∃ r, CalculateRenderPasses h frame = some r ∧ r.1 = DrawResult.DRAW_SUCCESS) := by
  have hall : ∀ r, CalculateRenderPasses h frame = some r → r.1 = DrawResult.DRAW_SUCCESS := by
    intro r hr
    simp only [CalculateRenderPasses] at hr
    split at hr
    · split_ifs at hr
      · simp only [Option.some.injEq] at hr
        subst hr
        rfl
      · simp only [Option.some.injEq] at hr
        subst hr
        simp [assembleFrame, drawResultAfterIteration, hres]
    · exact absurd hr (by simp)
  refine ⟨hall, fun root sink hroot hsink => ?_⟩
  have hex : ∃ r, CalculateRenderPasses h frame = some r := by
    simp only [CalculateRenderPasses, hroot, hsink]
    split_ifs <;> exact ⟨_, rfl⟩
  obtain ⟨r, hr⟩ := hex
  exact ⟨r, hr, hall r hr⟩

theorem resourceless_draw_always_succeeds_witness :
    (∃ r, CalculateRenderPasses
        { drawHost (drawScene [] false 3 true) true with
          resourceless_software_draw_ := true
          memory := { visibleHostWithPool with requires_high_res_to_draw_ := true } }
        freshFrame = some r ∧ r.1 = DrawResult.DRAW_SUCCESS) ∧
    (CalculateRenderPasses
        { drawHost (drawScene [] false 3 true) true with
          resourceless_software_draw_ := true
          memory := { visibleHostWithPool with requires_high_res_to_draw_ := true } }
        freshFrame).map (fun r => (r.2.2.has_no_damage, r.2.2.will_draw_layers)) =
      some (false, [2]) ∧
    (CalculateRenderPasses
        { drawHost (drawScene [] false 3 true) true with
          resourceless_software_draw_ := false
          memory := { visibleHostWithPool with requires_high_res_to_draw_ := true } }
        freshFrame).map (fun r => r.1) =
      some DrawResult.DRAW_ABORTED_MISSING_HIGH_RES_CONTENT :=
  ⟨(resourceless_draw_always_succeeds
      { drawHost (drawScene [] false 3 true) true with
        resourceless_software_draw_ := true
        memory := { visibleHostWithPool with requires_high_res_to_draw_ := true } }
      freshFrame rfl).2 (rootSurface false false) (boundFrameSink true) (by decide) rfl,
    by decide, by decide⟩

/-- C16, at the failing input.  The effect tree holds a copy request (on the
root surface), the host is threaded and not in a resourceless draw, and the
content layer reports a missing tile while its transform is animating.
`CalculateRenderPasses` returns `DRAW_ABORTED_CHECKERBOARD_ANIMATIONS`, so the
assertion `!have_copy_request || draw_result == DRAW_SUCCESS` is false when
reached, and afterwards the effect tree holds no copy request: the request went
into a pass of the frame that is not drawn. -/
theorem copy_request_lost_to_aborted_draw :
    (drawHost (drawScene [9] false 1 true) false).active_tree_.HasCopyRequests = true ∧
    (CalculateRenderPasses (drawHost (drawScene [9] false 1 true) false) freshFrame).map
        (fun r => (r.1, r.2.1.active_tree_.copy_requests, r.2.2.render_passes)) =
      some (DrawResult.DRAW_ABORTED_CHECKERBOARD_ANIMATIONS, [],
        [{ id := 1, quad_list := [⟨Material.OTHER 1, 0⟩], copy_requests := [9] }]) := by
  decide

/-! ## Frame assembly: a second `PrepareToDraw` after a drawn frame -/

theorem updateDamageTrackingState_fixedPart (done : List RenderSurfaceLayer)
    (s : RenderSurfaceLayer) :
    (UpdateDamageTrackingState done s).fixedPart = s.fixedPart ∧
    (UpdateDamageTrackingState done s).damage_for_next_update = Rect.empty := by
  simp [UpdateDamageTrackingState, RenderSurfaceLayer.fixedPart]

theorem trackDamageFromBack_spec (l : List RenderSurfaceLayer) :
    ∀ done : List RenderSurfaceLayer,
      (trackDamageFromBack l done).map RenderSurfaceLayer.fixedPart =
        (l.reverse ++ done).map RenderSurfaceLayer.fixedPart ∧
      ((∀ d ∈ done, d.damage_for_next_update = Rect.empty) →
        ∀ d ∈ trackDamageFromBack l done, d.damage_for_next_update = Rect.empty) := by
  induction l with
  | nil => intro done; simp [trackDamageFromBack]
  | cons s rest ih =>
    intro done
    obtain ⟨h1, h2⟩ := ih (UpdateDamageTrackingState done s :: done)
    obtain ⟨hf, hn⟩ := updateDamageTrackingState_fixedPart done s
    constructor
    · simp only [trackDamageFromBack]
      rw [h1]
      simp [hf]
    · intro hdone d hd
      simp only [trackDamageFromBack] at hd
      refine h2 ?_ d hd
      intro e he
      rcases List.mem_cons.mp he with rfl | he
      · exact hn
      · exact hdone e he

theorem trackDamage_fixedPart (t : DrawTree) :
    (TrackDamageForAllSurfaces t).render_surface_layer_list.map RenderSurfaceLayer.fixedPart =
      t.render_surface_layer_list.map RenderSurfaceLayer.fixedPart ∧
    (∀ d ∈ (TrackDamageForAllSurfaces t).render_surface_layer_list,
      d.damage_for_next_update = Rect.empty) := by
  obtain ⟨h1, h2⟩ := trackDamageFromBack_spec t.render_surface_layer_list.reverse []
  constructor
  · simpa [TrackDamageForAllSurfaces] using h1
  · exact h2 (by simp)

theorem rect_empty_union_empty : Rect.empty.Union Rect.empty = Rect.empty := by
  decide

theorem updateDamageTrackingState_of_undamaged (done : List RenderSurfaceLayer)
    (s : RenderSurfaceLayer) (hs : s.undamaged) (hdone : ∀ d ∈ done, d.undamaged) :
    UpdateDamageTrackingState done s = s := by
  obtain ⟨h1, h2, h3⟩ := hs
  have hfold : ∀ (l : List RenderSurfaceLayer), (∀ d ∈ l, d.undamaged) →
      l.foldl (fun acc d => acc.Union d.current_damage_rect) Rect.empty = Rect.empty := by
    intro l
    induction l with
    | nil => intro _; rfl
    | cons a rest ih =>
      intro hl
      simp only [List.foldl_cons]
      rw [(hl a (List.mem_cons_self _ _)).1, rect_empty_union_empty]
      exact ih fun d hd => hl d (List.mem_cons_of_mem _ hd)
  have hfilter : ∀ d ∈ done.filter (fun d => d.target_layer_id = some s.layer_id),
      d.undamaged := fun d hd => hdone d (List.mem_of_mem_filter hd)
  simp only [UpdateDamageTrackingState, hfold _ hfilter, h1, h2, h3, rect_empty_union_empty]
  cases s
  simp_all

theorem trackDamageFromBack_of_undamaged (l : List RenderSurfaceLayer) :
    ∀ done : List RenderSurfaceLayer, (∀ d ∈ l, d.undamaged) → (∀ d ∈ done, d.undamaged) →
      trackDamageFromBack l done = l.reverse ++ done := by
  induction l with
  | nil => intro done _ _; simp [trackDamageFromBack]
  | cons s rest ih =>
    intro done hl hdone
    simp only [trackDamageFromBack]
    rw [updateDamageTrackingState_of_undamaged done s (hl s (List.mem_cons_self _ _)) hdone]
    rw [ih (s :: done) (fun d hd => hl d (List.mem_cons_of_mem _ hd))]
    · simp
    · intro d hd
      rcases List.mem_cons.mp hd with rfl | hd
      · exact hl d (List.mem_cons_self _ _)
      · exact hdone d hd

theorem trackDamage_of_undamaged (t : DrawTree)
    (ht : ∀ d ∈ t.render_surface_layer_list, d.undamaged) :
    TrackDamageForAllSurfaces t = t := by
  simp only [TrackDamageForAllSurfaces]
  rw [trackDamageFromBack_of_undamaged _ [] (by simpa using ht) (by simp)]
  simp

theorem addDamageNextUpdateToRoot_empty (t : DrawTree)
    (ht : ∀ d ∈ t.render_surface_layer_list, d.damage_for_next_update = Rect.empty) :
    AddDamageNextUpdateToRoot t Rect.empty = t := by
  simp only [AddDamageNextUpdateToRoot]
  have : (t.render_surface_layer_list.map fun s =>
      if s.IsRootLayer then
        { s with damage_for_next_update := s.damage_for_next_update.Union Rect.empty }
      else s) = t.render_surface_layer_list := by
    refine (List.map_congr_left fun s hs => ?_).trans (List.map_id _)
    split_ifs
    · rw [ht s hs, rect_empty_union_empty]
      have := ht s hs
      cases s
      simp_all
    · rfl
  rw [this]

theorem iterateLayers_copy_requests_nil (tree : DrawTree) (frame : FrameData)
    (hc : tree.copy_requests = []) : (iterateLayers tree frame).copy_requests = [] := by
  have key : ∀ (l : List IteratorEntry) (s : IterationState), s.copy_requests = [] →
      (l.foldl iterateLayer s).copy_requests = [] := by
    intro l
    induction l with
    | nil => intro s hs; exact hs
    | cons e rest ih =>
      intro s hs
      simp only [List.foldl_cons]
      apply ih
      simp only [iterateLayer]
      split <;> split_ifs <;> simp [hs]
  exact key _ _ hc

theorem calculateRenderPasses_facts (h : DrawHost) (frame : FrameData)
    (r : DrawResult × DrawHost × FrameData) (hc : CalculateRenderPasses h frame = some r) :
    r.2.1.compositor_frame_sink_ = h.compositor_frame_sink_ ∧
    r.2.1.viewport_damage_rect_ = h.viewport_damage_rect_ ∧
    r.2.1.memory = h.memory ∧
    r.2.1.active_tree_.hud_layer = h.active_tree_.hud_layer ∧
    r.2.1.active_tree_.render_surface_layer_list =
      (TrackDamageForAllSurfaces h.active_tree_).render_surface_layer_list ∧
    r.2.1.active_tree_.copy_requests = [] ∧
    (r.2.2.has_no_damage = true ∨ r.2.2.has_no_damage = frame.has_no_damage) ∧
    (TrackDamageForAllSurfaces h.active_tree_).RootRenderSurface.isSome = true := by
  simp only [CalculateRenderPasses] at hc
  split at hc
  · rename_i root sink hroot hsink
    by_cases hcond : (!root.layer_list_empty &&
        !root.current_damage_rect.Intersects root.content_rect &&
        !(TrackDamageForAllSurfaces h.active_tree_).HasCopyRequests &&
        !sink.can_force_reclaim_resources &&
        !match (TrackDamageForAllSurfaces h.active_tree_).hud_layer with
          | some is_animating => is_animating
          | none => false) = true
    · rw [if_pos hcond] at hc
      simp only [Option.some.injEq] at hc
      subst hc
      have hcopy : (TrackDamageForAllSurfaces h.active_tree_).copy_requests = [] := by
        simp only [Bool.and_eq_true, Bool.not_eq_true', DrawTree.HasCopyRequests,
          Bool.not_eq_false', List.isEmpty_iff] at hcond
        exact hcond.1.1.2
      exact ⟨rfl, rfl, rfl, rfl, rfl, hcopy, Or.inl rfl, by rw [hroot]; rfl⟩
    · rw [if_neg hcond] at hc
      simp only [Option.some.injEq] at hc
      subst hc
      refine ⟨rfl, rfl, rfl, rfl, rfl, ?_, Or.inr rfl, by rw [hroot]; rfl⟩
      simp only [assembleFrame]
      split_ifs with hhave
      · rfl
      · apply iterateLayers_copy_requests_nil
        simpa [DrawTree.HasCopyRequests] using hhave
  · exact absurd hc (by simp)

theorem rootRenderSurface_isSome_congr (a b : DrawTree)
    (hab : a.render_surface_layer_list.map RenderSurfaceLayer.fixedPart =
      b.render_surface_layer_list.map RenderSurfaceLayer.fixedPart) :
    a.RootRenderSurface.isSome = b.RootRenderSurface.isSome := by
  have key : ∀ l : List RenderSurfaceLayer,
      (l.find? fun s => s.IsRootLayer).isSome =
        (l.map RenderSurfaceLayer.fixedPart).any fun p => p.1 := by
    intro l
    induction l with
    | nil => rfl
    | cons s rest ih =>
      simp only [List.find?_cons, List.map_cons, List.any_cons]
      cases hs : s.IsRootLayer <;> simp [RenderSurfaceLayer.fixedPart, hs, ih]
  simp only [DrawTree.RootRenderSurface, key, hab]

theorem root_has_layers_congr (a b : List RenderSurfaceLayer)
    (hab : a.map RenderSurfaceLayer.fixedPart = b.map RenderSurfaceLayer.fixedPart)
    (hb : ∀ s ∈ b, s.IsRootLayer = true → s.layer_list_empty = false) :
    ∀ s ∈ a, s.IsRootLayer = true → s.layer_list_empty = false := by
  intro s hs hroot
  have hmem : s.fixedPart ∈ b.map RenderSurfaceLayer.fixedPart := by
    rw [← hab]
    exact List.mem_map_of_mem _ hs
  obtain ⟨s0, hs0, heq⟩ := List.mem_map.mp hmem
  simp only [RenderSurfaceLayer.fixedPart, Prod.mk.injEq] at heq
  rw [← heq.2]
  exact hb s0 hs0 (by rw [heq.1]; exact hroot)

theorem addDamageNextUpdateToRoot_fixedPart (t : DrawTree) (damage : Rect) :
    (AddDamageNextUpdateToRoot t damage).render_surface_layer_list.map
        RenderSurfaceLayer.fixedPart =
      t.render_surface_layer_list.map RenderSurfaceLayer.fixedPart := by
  simp only [AddDamageNextUpdateToRoot, List.map_map]
  apply List.map_congr_left
  intro s _
  simp only [Function.comp]
  split_ifs <;> rfl

theorem prepareToDraw_facts (h : DrawHost) (frame : FrameData)
    (r : DrawResult × DrawHost × FrameData) (hp : PrepareToDraw h frame = some r) :
    r.2.1.compositor_frame_sink_ = h.compositor_frame_sink_ ∧
    r.2.1.viewport_damage_rect_ = Rect.empty ∧
    r.2.1.memory = h.memory ∧
    r.2.1.active_tree_.hud_layer = h.active_tree_.hud_layer ∧
    r.2.1.active_tree_.render_surface_layer_list.map RenderSurfaceLayer.fixedPart =
      h.active_tree_.render_surface_layer_list.map RenderSurfaceLayer.fixedPart ∧
    (∀ d ∈ r.2.1.active_tree_.render_surface_layer_list,
      d.damage_for_next_update = Rect.empty) ∧
    r.2.1.active_tree_.copy_requests = [] ∧
    r.2.1.active_tree_.RootRenderSurface.isSome = true := by
  simp only [PrepareToDraw] at hp
  obtain ⟨hs, hv, hm, hh, hl, hc, -, hroot⟩ := calculateRenderPasses_facts _ _ r hp
  by_cases hr : h.active_tree_.RootRenderSurface.isSome = true
  · simp only [hr, if_true] at hs hv hm hh hl hroot
    obtain ⟨hk, hn⟩ := trackDamage_fixedPart (AddDamageNextUpdateToRoot h.active_tree_
      h.viewport_damage_rect_)
    have hkeys : r.2.1.active_tree_.render_surface_layer_list.map RenderSurfaceLayer.fixedPart =
        h.active_tree_.render_surface_layer_list.map RenderSurfaceLayer.fixedPart := by
      rw [hl, hk, addDamageNextUpdateToRoot_fixedPart]
    refine ⟨hs, hv, hm, hh, hkeys, ?_, hc, ?_⟩
    · rw [hl]; exact hn
    · rw [rootRenderSurface_isSome_congr r.2.1.active_tree_ h.active_tree_ hkeys]
      exact hr
  · exfalso
    simp only [hr, Bool.false_eq_true, if_false] at hroot
    rw [rootRenderSurface_isSome_congr _ h.active_tree_
      (trackDamage_fixedPart h.active_tree_).1] at hroot
    exact hr hroot

theorem calculateRenderPasses_of_undamaged_root (h : DrawHost) (frame : FrameData)
    (root : RenderSurfaceLayer) (sink : BoundFrameSink)
    (hroot : (TrackDamageForAllSurfaces h.active_tree_).RootRenderSurface = some root)
    (hsink : h.compositor_frame_sink_ = some sink)
    (hlayers : root.layer_list_empty = false)
    (hdamage : root.current_damage_rect.Intersects root.content_rect = false)
    (hcopy : h.active_tree_.copy_requests = [])
    (hresend : sink.can_force_reclaim_resources = false)
    (hhud : h.active_tree_.hud_layer ≠ some true) :
    ∃ h1, CalculateRenderPasses h frame =
      some (DrawResult.DRAW_SUCCESS, h1, { frame with has_no_damage := true }) := by
  have hcopy' : (TrackDamageForAllSurfaces h.active_tree_).HasCopyRequests = false := by
    simp [TrackDamageForAllSurfaces, DrawTree.HasCopyRequests, hcopy]
  have hhud' : (match (TrackDamageForAllSurfaces h.active_tree_).hud_layer with
      | some is_animating => is_animating
      | none => false) = false := by
    have : (TrackDamageForAllSurfaces h.active_tree_).hud_layer = h.active_tree_.hud_layer := rfl
    rw [this]
    cases hh : h.active_tree_.hud_layer with
    | none => rfl
    | some b =>
      cases b with
      | false => rfl
      | true => exact absurd hh hhud
  refine ⟨{ h with active_tree_ := TrackDamageForAllSurfaces h.active_tree_ }, ?_⟩
  simp only [CalculateRenderPasses, hroot, hsink, hlayers, hdamage, hcopy', hresend, hhud',
    Bool.not_false, Bool.and_self, if_true]

/-- C13, as stated, fails.  On a frame sink whose capabilities force resources
to be re-sent (`can_force_reclaim_resources`), a `PrepareToDraw` that succeeds
and whose frame `DrawLayers` draws is followed, with nothing happening in
between, by a `PrepareToDraw` that again builds a frame: `has_no_damage` stays
false. -/
theorem second_frame_built_when_resources_resent :
    ((PrepareToDraw
        (SetViewportDamage (drawHost (drawScene [] false 0 false) true) ⟨0, 0, 10, 10⟩)
        freshFrame).bind fun first =>
      (DrawLayers first.2.1 first.2.2).bind fun drawn =>
        (PrepareToDraw drawn.2.1 drawn.2.2).map fun second =>
          (first.1, first.2.2.has_no_damage, drawn.1, second.1, second.2.2.has_no_damage)) =
      some (DrawResult.DRAW_SUCCESS, false, true, DrawResult.DRAW_SUCCESS, false) := by
  decide

/-- C13, amended.  If a `PrepareToDraw` succeeded and `DrawLayers` drew its
frame, then a second `PrepareToDraw` with nothing in between (no change reported
by the tree, no viewport damage) returns `DRAW_SUCCESS` with `has_no_damage`
set, provided the root surface has a contributing layer, the frame sink does
not force resources to be re-sent, and no HUD layer is animating its contents. -/
theorem second_prepareToDraw_has_no_damage (h0 h1 h2 : DrawHost) (f0 f1 f2 : FrameData)
    (hp : PrepareToDraw h0 f0 = some (DrawResult.DRAW_SUCCESS, h1, f1))
    (hd : DrawLayers h1 f1 = some (true, h2, f2))
    (hlayers : ∀ s ∈ h0.active_tree_.render_surface_layer_list,
      s.IsRootLayer = true → s.layer_list_empty = false)
    (hresend : ∀ sink, h0.compositor_frame_sink_ = some sink →
      sink.can_force_reclaim_resources = false)
    (hhud : h0.active_tree_.hud_layer ≠ some true) :
    ∃ (h3 : DrawHost) (f3 : FrameData),
      PrepareToDraw h2 f2 = some (DrawResult.DRAW_SUCCESS, h3, f3) ∧
      f3.has_no_damage = true := by
  obtain ⟨hs1, hv1, -, hh1, hk1, hn1, hc1, hr1⟩ := prepareToDraw_facts h0 f0 _ hp
  simp only at hs1 hv1 hh1 hk1 hn1 hc1 hr1
  -- the frame was drawn, so it had damage and a sink was bound
  simp only [DrawLayers] at hd
  by_cases hnd : f1.has_no_damage = true
  · simp [hnd] at hd
  · simp only [hnd, Bool.false_eq_true, if_false] at hd
    cases hsink : h1.compositor_frame_sink_ with
    | none => simp [hsink] at hd
    | some sink =>
      simp only [hsink, Option.some.injEq, Prod.mk.injEq, true_and] at hd
      obtain ⟨hh2, -⟩ := hd
      -- the state after the draw
      have hlist : h2.active_tree_.render_surface_layer_list =
          h1.active_tree_.render_surface_layer_list.map fun s =>
            { s with current_damage_rect := Rect.empty, damage_from_changes := Rect.empty } := by
        rw [← hh2]
      have hund : ∀ d ∈ h2.active_tree_.render_surface_layer_list, d.undamaged := by
        intro d hdm
        rw [hlist] at hdm
        obtain ⟨s, hsm, rfl⟩ := List.mem_map.mp hdm
        exact ⟨rfl, rfl, hn1 s hsm⟩
      have hkeys : h2.active_tree_.render_surface_layer_list.map RenderSurfaceLayer.fixedPart =
          h0.active_tree_.render_surface_layer_list.map RenderSurfaceLayer.fixedPart := by
        rw [hlist, ← hk1, List.map_map]
        rfl
      have hv2 : h2.viewport_damage_rect_ = Rect.empty := by rw [← hh2]; exact hv1
      have hc2 : h2.active_tree_.copy_requests = [] := by rw [← hh2]; exact hc1
      have hh2' : h2.active_tree_.hud_layer = h0.active_tree_.hud_layer := by
        rw [← hh2]; exact hh1
      have hroot2 : h2.active_tree_.RootRenderSurface.isSome = true := by
        rw [rootRenderSurface_isSome_congr h2.active_tree_ h1.active_tree_
          (hkeys.trans hk1.symm)]
        exact hr1
      have hsink2 : h2.compositor_frame_sink_ = some
          { sink with submitted_frames := sink.submitted_frames ++
              [{ render_pass_list := f1.render_passes
                 may_contain_video := f1.may_contain_video }] } := by
        rw [← hh2]
      obtain ⟨root, hroot⟩ := Option.isSome_iff_exists.mp hroot2
      have hroot_mem : root ∈ h2.active_tree_.render_surface_layer_list :=
        List.mem_of_find?_eq_some hroot
      have hroot_is : root.IsRootLayer = true := by
        have := List.find?_some hroot
        simpa using this
      have hadd : AddDamageNextUpdateToRoot h2.active_tree_ h2.viewport_damage_rect_ =
          h2.active_tree_ := by
        rw [hv2]
        exact addDamageNextUpdateToRoot_empty _ fun d hdm => (hund d hdm).2.2
      have htrack : TrackDamageForAllSurfaces h2.active_tree_ = h2.active_tree_ :=
        trackDamage_of_undamaged _ hund
      obtain ⟨h3, hearly⟩ := calculateRenderPasses_of_undamaged_root
        { h2 with viewport_damage_rect_ := Rect.empty, active_tree_ := h2.active_tree_ }
        { f2 with
          render_passes := [], will_draw_layers := [], has_no_damage := false
          may_contain_video := false }
        root _
        (by rw [htrack]; exact hroot) hsink2
        (root_has_layers_congr _ _ hkeys hlayers root hroot_mem hroot_is)
        (by rw [(hund root hroot_mem).1]; rfl)
        hc2
        (hresend sink (by rw [← hs1]; exact hsink))
        (by rw [hh2']; exact hhud)
      refine ⟨h3, { f2 with
        render_passes := [], will_draw_layers := [], has_no_damage := true
        may_contain_video := false }, ?_, rfl⟩
      simp only [PrepareToDraw, hroot2, if_true, hadd]
      exact hearly

theorem second_prepareToDraw_has_no_damage_witness :
    ∃ (h3 : DrawHost) (f3 : FrameData),
      PrepareToDraw
        { drawHost (drawScene [] false 0 false) false with
          compositor_frame_sink_ := some
            { boundFrameSink false with
              submitted_frames :=
                [{ render_pass_list :=
                     [{ id := 1, quad_list := [⟨Material.OTHER 1, 0⟩], copy_requests := [] }]
                   may_contain_video := false }] }
          active_tree_ :=
            { drawScene [] false 0 false with
              ever_ready_layers := [1, 2], has_ever_been_drawn := true }
          memory := { visibleHostWithPool with requires_high_res_to_draw_ := false } }
        { freshFrame with will_draw_layers := [2] }
        = some (DrawResult.DRAW_SUCCESS, h3, f3) ∧
      f3.has_no_damage = true :=
  second_prepareToDraw_has_no_damage
    (SetViewportDamage (drawHost (drawScene [] false 0 false) false) ⟨0, 0, 10, 10⟩)
    { drawHost (drawScene [] false 0 false) false with
      active_tree_ :=
        { drawScene [] false 0 false with
          ever_ready_layers := [1, 2]
          render_surface_layer_list :=
            [{ rootSurface false false with current_damage_rect := ⟨0, 0, 10, 10⟩ }] } }
    _ freshFrame
    { freshFrame with
      render_passes :=
        [{ id := 1, quad_list := [⟨Material.OTHER 1, 0⟩], copy_requests := [] }]
      will_draw_layers := [2] }
    _ (by decide) (by decide) (by decide) (by decide) (by decide)


/-! ## Scroll routing: the failed hit test of `ScrollBegin` -/

theorem walkToRoot_clear (h : ScrollHost) (fuel : Nat) (start : ScrollNode) :
    (ClearCurrentlyScrollingLayer h).scroll_tree.walkToRoot fuel start =
      h.scroll_tree.walkToRoot fuel start := by
  induction fuel generalizing start with
  | zero => rfl
  | succ fuel ih =>
    have hp : (ClearCurrentlyScrollingLayer h).scroll_tree.parent start =
        h.scroll_tree.parent start := rfl
    simp only [ScrollTree.walkToRoot, hp]
    cases h.scroll_tree.parent start with
    | none => rfl
    | some p => simp only [ih]

theorem find_walkToRoot_of_chain (t : ScrollTree) (fuel : Nat) (start n : ScrollNode)
    (hfind : (t.walkToRoot fuel start).find? (fun m => m.scrollable) = some n) :
    (t.scrollAncestorChain fuel start).find? (fun m => m.scrollable) = some n := by
  induction fuel generalizing start with
  | zero => simp [ScrollTree.walkToRoot] at hfind
  | succ fuel ih =>
    simp only [ScrollTree.walkToRoot] at hfind
    simp only [ScrollTree.scrollAncestorChain]
    cases hp : t.parent start with
    | none => simp [hp] at hfind
    | some p =>
      simp only [hp] at hfind ⊢
      by_cases hs : start.scrollable = true
      · simp only [List.find?_cons, hs] at hfind ⊢
        exact hfind
      · simp only [List.find?_cons, hs] at hfind ⊢
        exact ih p hfind

theorem hasScrollAncestor_clear (h : ScrollHost) (child : Option LayerImpl)
    (scroll_ancestor : LayerImpl) :
    HasScrollAncestor (ClearCurrentlyScrollingLayer h) child scroll_ancestor =
      HasScrollAncestor h child scroll_ancestor := by
  have hn : ∀ i, (ClearCurrentlyScrollingLayer h).scroll_tree.Node i = h.scroll_tree.Node i :=
    fun _ => rfl
  have hl : (ClearCurrentlyScrollingLayer h).scroll_tree.nodes.length =
      h.scroll_tree.nodes.length := rfl
  simp only [HasScrollAncestor, hn, hl, walkToRoot_clear]

/-- C17.  When the point of the scroll state hits a layer (whose scroll node is
`node`), a first scrolling layer or scrollbar layer is hit at that point, and
that layer does not own the nearest scrollable node on the scroll-ancestor chain
of the hit layer, `ScrollBegin` returns `SCROLL_UNKNOWN` with reason
`kFailedHitTest`, leaves the scroll state as it was, and leaves no currently
scrolling layer and no currently scrolling node set. -/
theorem scrollBegin_failed_hit_test (h : ScrollHost) (st : ScrollState) (type : ScrollInputType)
    (layer scroll_layer : LayerImpl) (node : ScrollNode)
    (hhit : (h.FindLayerThatIsHitByPoint
        ((⟨st.position_x, st.position_y⟩ : Vector2dF).scale h.device_scale_factor)).bind
          h.LayerById = some layer)
    (hnode : h.scroll_tree.Node layer.scroll_tree_index = some node)
    (hscroll : (h.FindFirstScrollingLayerOrScrollbarLayerThatIsHitByPoint
        ((⟨st.position_x, st.position_y⟩ : Vector2dF).scale h.device_scale_factor)).bind
          h.LayerById = some scroll_layer)
    (hnot : ∀ n, h.scroll_tree.nearestScrollableNode node = some n →
      n.owner_id ≠ scroll_layer.id) :
    ∃ h1 : ScrollHost,
      ScrollBegin h st type =
        some ({ thread := ScrollThread.SCROLL_UNKNOWN
                main_thread_scrolling_reasons := MainThreadScrollingReason.kFailedHitTest },
              h1, st) ∧
      h1.CurrentlyScrollingLayer = none ∧
      h1.scroll_tree.currently_scrolling_node_id = none := by
  have hanc : HasScrollAncestor h (some layer) scroll_layer = false := by
    simp only [HasScrollAncestor, Option.bind, hnode]
    cases hf : (h.scroll_tree.walkToRoot h.scroll_tree.nodes.length node).find?
        (fun n => n.scrollable) with
    | none => rfl
    | some n =>
      have := hnot n (find_walkToRoot_of_chain _ _ _ _ hf)
      simp [this]
  refine ⟨ClearCurrentlyScrollingLayer h, ?_, rfl, rfl⟩
  have hhit' : ((ClearCurrentlyScrollingLayer h).FindLayerThatIsHitByPoint
      ((⟨st.position_x, st.position_y⟩ : Vector2dF).scale
        (ClearCurrentlyScrollingLayer h).device_scale_factor)).bind
      (ClearCurrentlyScrollingLayer h).LayerById = some layer := hhit
  have hscroll' : ((ClearCurrentlyScrollingLayer h).FindFirstScrollingLayerOrScrollbarLayerThatIsHitByPoint
      ((⟨st.position_x, st.position_y⟩ : Vector2dF).scale
        (ClearCurrentlyScrollingLayer h).device_scale_factor)).bind
      (ClearCurrentlyScrollingLayer h).LayerById = some scroll_layer := hscroll
  simp only [ScrollBegin, hhit', hscroll', hasScrollAncestor_clear, hanc, Bool.not_false, if_true]

theorem scrollBegin_failed_hit_test_witness :
    ∃ h1 : ScrollHost,
      ScrollBegin scrollbarOverChildScene (scrollStateAt 0 0) ScrollInputType.WHEEL =
        some ({ thread := ScrollThread.SCROLL_UNKNOWN
                main_thread_scrolling_reasons := MainThreadScrollingReason.kFailedHitTest },
              h1, scrollStateAt 0 0) ∧
      h1.CurrentlyScrollingLayer = none ∧
      h1.scroll_tree.currently_scrolling_node_id = none :=
  scrollBegin_failed_hit_test scrollbarOverChildScene (scrollStateAt 0 0) ScrollInputType.WHEEL
    ⟨4, 3, true, true⟩ ⟨3, 2, true, true⟩
    { fixedNode 3 4 (some 2) true with max_scroll_offset := ⟨100, 0⟩ }
    (by decide!) (by decide!) (by decide!) (by decide!)


/-! ## Activation without a pending tree -/

theorem markUIResourceNotEvicted_calls (r : UIResources) (uid : Nat) :
    ∀ c ∈ (MarkUIResourceNotEvicted r uid).2, c = ActivationCall.OnCanDrawStateChanged := by
  unfold MarkUIResourceNotEvicted
  intro c hc
  split_ifs at hc <;> simp_all

theorem deleteUIResource_calls (r : UIResources) (uid : Nat) :
    ∀ c ∈ (DeleteUIResource r uid).2, c = ActivationCall.OnCanDrawStateChanged := by
  unfold DeleteUIResource
  exact markUIResourceNotEvicted_calls _ uid

theorem createUIResource_calls (r : UIResources) (uid : Nat) :
    ∀ c ∈ (CreateUIResource r uid).2, c = ActivationCall.OnCanDrawStateChanged := by
  have hdeleted : ∀ c ∈ (if uid ∈ r.ui_resource_map_ then DeleteUIResource r uid
      else (r, [])).2, c = ActivationCall.OnCanDrawStateChanged := by
    intro c hc
    split_ifs at hc
    · exact deleteUIResource_calls r uid c hc
    · simp at hc
  unfold CreateUIResource
  generalize (if uid ∈ r.ui_resource_map_ then DeleteUIResource r uid else (r, [])) = deleted
    at hdeleted
  intro c hc
  by_cases hs : deleted.1.has_valid_compositor_frame_sink_ = true
  · simp only [hs, Bool.not_true, Bool.false_eq_true, if_false] at hc
    rcases List.mem_append.mp hc with hc | hc
    · exact hdeleted c hc
    · exact markUIResourceNotEvicted_calls _ uid c hc
  · have hs' : deleted.1.has_valid_compositor_frame_sink_ = false := by simpa using hs
    simp only [hs', Bool.not_false, if_true] at hc
    exact hdeleted c hc

theorem processUIResourceRequests_calls (queue : List UIResourceRequest) :
    ∀ r : UIResources, ∀ c ∈ (processUIResourceRequests r queue).2,
      c = ActivationCall.OnCanDrawStateChanged := by
  induction queue with
  | nil => intro r c hc; simp [processUIResourceRequests] at hc
  | cons request rest ih =>
    intro r c hc
    simp only [processUIResourceRequests] at hc
    rcases List.mem_append.mp hc with hc | hc
    · cases hty : request.type with
      | UI_RESOURCE_CREATE =>
        rw [hty] at hc
        exact createUIResource_calls r request.id c hc
      | UI_RESOURCE_DELETE =>
        rw [hty] at hc
        exact deleteUIResource_calls r request.id c hc
    · exact ih _ c hc

/-- C18.  `ActivateSyncTree` on a host without a pending tree: the active slot
holds the same tree as before with its UI-resource request queue emptied, the
requests of that queue having gone through `CreateUIResource` and
`DeleteUIResource` in order; there is still no pending tree and the recycle slot
is as before; the calls made include `ProcessUIResourceRequestQueue` on the
active tree and none of the tree-synchronisation calls (no `SynchronizeTrees`,
no change-tracking or property push, no swap of the slots). -/
theorem activate_without_pending_tree (h : ActivationHost) (hp : h.pending_tree_ = none) :
    h.ActivateSyncTree.active_tree_ = { h.active_tree_ with ui_resource_request_queue := [] } ∧
    h.ActivateSyncTree.pending_tree_ = none ∧
    h.ActivateSyncTree.recycle_tree_ = h.recycle_tree_ ∧
    h.ActivateSyncTree.ui_resources =
      (processUIResourceRequests h.ui_resources h.active_tree_.ui_resource_request_queue).1 ∧
    ∃ made, h.ActivateSyncTree.calls = h.calls ++ made ∧
      ActivationCall.ProcessUIResourceRequestQueue h.active_tree_.id ∈ made ∧
      ∀ c ∈ made, c.isTreeSynchronisation = false := by
  have hcalls := processUIResourceRequests_calls h.active_tree_.ui_resource_request_queue
    h.ui_resources
  simp only [ActivationHost.ActivateSyncTree, hp, List.append_assoc, true_and]
  refine ⟨_, rfl, by simp, ?_⟩
  intro c hc
  simp only [List.mem_append, List.mem_cons, List.mem_singleton, List.not_mem_nil,
    or_false] at hc
  rcases hc with rfl | hc | hc
  · rfl
  · rw [hcalls c hc]; rfl
  · rcases hc with (rfl | rfl | rfl) | hc | (rfl | rfl) | hc | rfl | rfl
    · rfl
    · rfl
    · rfl
    · split_ifs at hc <;> simp_all [ActivationCall.isTreeSynchronisation]
    · rfl
    · rfl
    · split_ifs at hc <;> simp_all [ActivationCall.isTreeSynchronisation]
    · rfl
    · rfl

theorem activate_without_pending_tree_witness :
    singleTreeHost.ActivateSyncTree.active_tree_ =
      { singleTreeHost.active_tree_ with ui_resource_request_queue := [] } ∧
    singleTreeHost.ActivateSyncTree.pending_tree_ = none ∧
    singleTreeHost.ActivateSyncTree.recycle_tree_ = singleTreeHost.recycle_tree_ ∧
    singleTreeHost.ActivateSyncTree.ui_resources =
      (processUIResourceRequests singleTreeHost.ui_resources
        singleTreeHost.active_tree_.ui_resource_request_queue).1 ∧
    ∃ made, singleTreeHost.ActivateSyncTree.calls = singleTreeHost.calls ++ made ∧
      ActivationCall.ProcessUIResourceRequestQueue singleTreeHost.active_tree_.id ∈ made ∧
      ∀ c ∈ made, c.isTreeSynchronisation = false :=
  activate_without_pending_tree singleTreeHost rfl


/-! ## Commit: the notifications of `CommitComplete` -/

theorem updateTileManagerMemoryPolicy_requires_high_res (s : MemoryState)
    (policy : ManagedMemoryPolicy) :
    (UpdateTileManagerMemoryPolicy s policy).requires_high_res_to_draw_ =
      s.requires_high_res_to_draw_ := by
  unfold UpdateTileManagerMemoryPolicy
  split_ifs <;> rfl

theorem host_updateTileManagerMemoryPolicy_facts (h : Host) (policy : ManagedMemoryPolicy) :
    (h.UpdateTileManagerMemoryPolicy policy).draw.has_impl_thread = h.draw.has_impl_thread ∧
    (h.UpdateTileManagerMemoryPolicy policy).update_draw_properties_modifies_tile_priorities =
      h.update_draw_properties_modifies_tile_priorities ∧
    (h.UpdateTileManagerMemoryPolicy policy).draw.memory.requires_high_res_to_draw_ =
      h.draw.memory.requires_high_res_to_draw_ ∧
    ∃ made, (h.UpdateTileManagerMemoryPolicy policy).client_calls = h.client_calls ++ made ∧
      ClientCall.NotifyReadyToActivate ∉ made ∧ ClientCall.NotifyReadyToDraw ∉ made := by
  unfold Host.UpdateTileManagerMemoryPolicy
  by_cases hp : h.draw.memory.resource_pool_ = true
  · rw [if_neg (by simp [hp])]
    exact ⟨rfl, rfl, updateTileManagerMemoryPolicy_requires_high_res _ _,
      [ClientCall.SetNeedsPrepareTilesOnImplThread], rfl, by decide, by decide⟩
  · rw [if_pos (by simpa using hp)]
    exact ⟨rfl, rfl, rfl, [], by simp, by simp, by simp⟩

theorem host_createTileManagerResources_facts (h : Host) :
    h.CreateTileManagerResources.draw.has_impl_thread = h.draw.has_impl_thread ∧
    h.CreateTileManagerResources.update_draw_properties_modifies_tile_priorities =
      h.update_draw_properties_modifies_tile_priorities ∧
    h.CreateTileManagerResources.draw.memory.requires_high_res_to_draw_ =
      h.draw.memory.requires_high_res_to_draw_ ∧
    ∃ made, h.CreateTileManagerResources.client_calls = h.client_calls ++ made ∧
      ClientCall.NotifyReadyToActivate ∉ made ∧ ClientCall.NotifyReadyToDraw ∉ made :=
  host_updateTileManagerMemoryPolicy_facts
    (h.withMemory { h.draw.memory with resource_pool_ := true }) _

/-- C19, as stated, fails.  On a threaded host (commits go to a pending tree),
`PrepareTiles` inside `CommitComplete` returns false and the last notification
sent is ready-to-activate, with no ready-to-draw: both when nothing made the
tile priorities dirty (no GPU rasterization update is pending), and when the
update replaced the tile manager resources, which marks the priorities dirty,
and the tile manager then prepares no tiles. -/
theorem commitComplete_threaded_sends_no_ready_to_draw :
    (exampleHost true).draw.CommitToActiveTree = false ∧
    (PrepareTiles (beforePrepareTiles
      { exampleHost true with need_update_gpu_rasterization_status_ := false })).1 = false ∧
    (CommitComplete
      { exampleHost true with need_update_gpu_rasterization_status_ := false }).client_calls =
      [ClientCall.NotifyReadyToActivate] ∧
    (beforePrepareTiles
      { exampleHost true with tile_manager_did_prepare_tiles := false }).tile_priorities_dirty_ =
      true ∧
    (PrepareTiles (beforePrepareTiles
      { exampleHost true with tile_manager_did_prepare_tiles := false })).1 = false ∧
    (CommitComplete
      { exampleHost true with tile_manager_did_prepare_tiles := false }).client_calls =
      [ClientCall.SetNeedsPrepareTilesOnImplThread, ClientCall.WillPrepareTiles,
        ClientCall.DidPrepareTiles, ClientCall.NotifyReadyToActivate] := by
  decide!

theorem prepareTiles_false_calls (h : Host) (hp : (PrepareTiles h).1 = false) :
    (PrepareTiles h).2.draw = h.draw ∧
    ∃ made, (PrepareTiles h).2.client_calls = h.client_calls ++ made ∧
      ClientCall.NotifyReadyToActivate ∉ made ∧ ClientCall.NotifyReadyToDraw ∉ made := by
  unfold PrepareTiles at hp ⊢
  by_cases hd : h.tile_priorities_dirty_ = true
  · simp only [hd, Bool.not_true, Bool.false_eq_true, if_false, Host.client] at hp ⊢
    simp only [hp, Bool.false_eq_true, if_false]
    exact ⟨trivial, [ClientCall.WillPrepareTiles, ClientCall.DidPrepareTiles], by simp,
      by decide, by decide⟩
  · have hd' : h.tile_priorities_dirty_ = false := by simpa using hd
    simp only [hd', Bool.not_false, if_true]
    exact ⟨trivial, [], by simp, by simp, by simp⟩

theorem updateTreeResources_client_calls (h : Host) :
    (UpdateTreeResourcesForGpuRasterizationIfNeeded h).draw.has_impl_thread =
      h.draw.has_impl_thread ∧
    (UpdateTreeResourcesForGpuRasterizationIfNeeded h).update_draw_properties_modifies_tile_priorities
      = h.update_draw_properties_modifies_tile_priorities ∧
    ∃ made,
      (UpdateTreeResourcesForGpuRasterizationIfNeeded h).client_calls = h.client_calls ++ made ∧
      ClientCall.NotifyReadyToActivate ∉ made ∧ ClientCall.NotifyReadyToDraw ∉ made := by
  have hreplaced : ∀ h1 : Host,
      (if h1.draw.memory.resource_pool_ = true then
          h1.CleanUpTileManagerAndUIResources.CreateTileManagerResources
        else h1).draw.has_impl_thread = h1.draw.has_impl_thread ∧
      (if h1.draw.memory.resource_pool_ = true then
          h1.CleanUpTileManagerAndUIResources.CreateTileManagerResources
        else h1).update_draw_properties_modifies_tile_priorities =
        h1.update_draw_properties_modifies_tile_priorities ∧
      ∃ made,
        (if h1.draw.memory.resource_pool_ = true then
            h1.CleanUpTileManagerAndUIResources.CreateTileManagerResources
          else h1).client_calls = h1.client_calls ++ made ∧
        ClientCall.NotifyReadyToActivate ∉ made ∧ ClientCall.NotifyReadyToDraw ∉ made := by
    intro h1
    by_cases hp : h1.draw.memory.resource_pool_ = true
    · simp only [hp, if_true]
      obtain ⟨hi, hu, -, made, hc, ha, hd⟩ :=
        host_createTileManagerResources_facts h1.CleanUpTileManagerAndUIResources
      exact ⟨hi, hu, made, hc, ha, hd⟩
    · simp only [hp, if_false, Bool.false_eq_true]
      exact ⟨trivial, trivial, [], by simp, by simp, by simp⟩
  unfold UpdateTreeResourcesForGpuRasterizationIfNeeded
  by_cases hn : h.need_update_gpu_rasterization_status_ = true
  · rw [if_neg (by simp [hn])]
    by_cases hc : (UpdateGpuRasterizationStatus h.gpu).1 = true
    · simp only
      rw [if_neg (by simp [hc])]
      exact hreplaced _
    · simp only
      rw [if_pos (by simpa using hc)]
      exact ⟨rfl, rfl, [], by simp [Host.withMemory], by simp, by simp⟩
  · rw [if_pos (by simpa using hn)]
    exact ⟨rfl, rfl, [], by simp, by simp, by simp⟩

theorem beforePrepareTiles_calls (h : Host) :
    (beforePrepareTiles h).draw.has_impl_thread = h.draw.has_impl_thread ∧
    ∃ made, (beforePrepareTiles h).client_calls = h.client_calls ++ made ∧
      ClientCall.NotifyReadyToActivate ∉ made ∧ ClientCall.NotifyReadyToDraw ∉ made := by
  obtain ⟨hi, -, made, hc, ha, hd⟩ := updateTreeResources_client_calls h
  unfold beforePrepareTiles
  simp only
  split_ifs
  · simp only [DidModifyTilePriorities, Host.client, hc, hi, List.append_assoc]
    refine ⟨trivial, made ++ [ClientCall.SetNeedsPrepareTilesOnImplThread], rfl, ?_, ?_⟩
    · simp [ha]
    · simp [hd]
  · exact ⟨hi, made, hc, ha, hd⟩

/-- C19, amended.  In `CommitComplete`, whenever `PrepareTiles` returns false,
the ready-to-activate notification is sent to the client before `CommitComplete`
returns, as the last notification but one in direct-commit mode, where the
ready-to-draw notification follows it, and as the last one in indirect
(pending-tree) mode, where no ready-to-draw notification is sent. -/
theorem commitComplete_notifications (h : Host)
    (hp : (PrepareTiles (beforePrepareTiles h)).1 = false) :
    ∃ made, ClientCall.NotifyReadyToActivate ∉ made ∧ ClientCall.NotifyReadyToDraw ∉ made ∧
      (CommitComplete h).client_calls = h.client_calls ++ made ++
        (if h.draw.CommitToActiveTree then
          [ClientCall.NotifyReadyToActivate, ClientCall.NotifyReadyToDraw]
         else [ClientCall.NotifyReadyToActivate]) := by
  obtain ⟨hi, m1, hc1, ha1, hd1⟩ := beforePrepareTiles_calls h
  obtain ⟨hdraw, m2, hc2, ha2, hd2⟩ := prepareTiles_false_calls _ hp
  refine ⟨m1 ++ m2, ?_, ?_, ?_⟩
  · simp [ha1, ha2]
  · simp [hd1, hd2]
  · have hmode : (NotifyReadyToActivate (PrepareTiles (beforePrepareTiles h)).2).draw.CommitToActiveTree
        = h.draw.CommitToActiveTree := by
      simp only [NotifyReadyToActivate, Host.client, DrawHost.CommitToActiveTree, hdraw, hi]
    simp only [CommitComplete, hp, Bool.not_false, if_true, hmode]
    by_cases hm : h.draw.CommitToActiveTree = true
    · simp only [hm, if_true, NotifyReadyToDraw, NotifyReadyToActivate, Host.client, hc2, hc1,
        List.append_assoc, List.singleton_append]
    · simp only [hm, if_false, NotifyReadyToActivate, Host.client, hc2, hc1,
        List.append_assoc, Bool.false_eq_true]

theorem commitComplete_notifications_witness :
    (PrepareTiles (beforePrepareTiles
      { exampleHost false with tile_manager_did_prepare_tiles := false })).1 = false ∧
    ∃ made, ClientCall.NotifyReadyToActivate ∉ made ∧ ClientCall.NotifyReadyToDraw ∉ made ∧
      (CommitComplete
        { exampleHost false with tile_manager_did_prepare_tiles := false }).client_calls =
        ({ exampleHost false with tile_manager_did_prepare_tiles := false } : Host).client_calls
          ++ made ++
          (if ({ exampleHost false with tile_manager_did_prepare_tiles := false } :
              Host).draw.CommitToActiveTree then
            [ClientCall.NotifyReadyToActivate, ClientCall.NotifyReadyToDraw]
           else [ClientCall.NotifyReadyToActivate]) :=
  ⟨by decide!,
    commitComplete_notifications
      { exampleHost false with tile_manager_did_prepare_tiles := false } (by decide!)⟩


/-! ## The flag `requires_high_res_to_draw_` along a run -/

theorem prepareTiles_draw (h : Host) : (PrepareTiles h).2.draw = h.draw := by
  unfold PrepareTiles
  simp only [Host.client]
  split_ifs <;> rfl

theorem evictAllUIResources_memory (h : Host) :
    (EvictAllUIResources h).draw.memory = h.draw.memory := by
  unfold EvictAllUIResources
  simp only [Host.client, Host.withUIResources]
  split_ifs <;> rfl

theorem host_setVisible_requires_high_res (h : Host) (visible : Bool)
    (hs : h.draw.memory.requires_high_res_to_draw_ = true) :
    (h.SetVisible visible).draw.memory.requires_high_res_to_draw_ = true := by
  unfold Host.SetVisible
  by_cases hv : h.draw.memory.visible_ = visible
  · simp only [hv, if_true]
    exact hs
  · rw [if_neg hv]
    simp only
    split_ifs
    · rfl
    · rw [prepareTiles_draw, evictAllUIResources_memory]
      exact (host_updateTileManagerMemoryPolicy_facts _ _).2.2.1.trans hs

theorem updateTreeResources_requires_high_res (h : Host)
    (hs : h.draw.memory.requires_high_res_to_draw_ = true) :
    (UpdateTreeResourcesForGpuRasterizationIfNeeded h).draw.memory.requires_high_res_to_draw_ =
      true := by
  unfold UpdateTreeResourcesForGpuRasterizationIfNeeded
  simp only [Host.withMemory, Host.withUIResources]
  split_ifs <;> first | exact hs | rfl

theorem updateTreeResources_sets_requires_high_res (h : Host)
    (hneed : h.need_update_gpu_rasterization_status_ = true)
    (hchanged : (UpdateGpuRasterizationStatus h.gpu).1 = true) :
    (UpdateTreeResourcesForGpuRasterizationIfNeeded h).draw.memory.requires_high_res_to_draw_ =
      true := by
  unfold UpdateTreeResourcesForGpuRasterizationIfNeeded
  simp only [hneed, hchanged, Bool.not_true, Bool.false_eq_true, if_false, Host.withMemory,
    Host.withUIResources]

theorem commitComplete_requires_high_res (h : Host)
    (hs : h.draw.memory.requires_high_res_to_draw_ = true) :
    (CommitComplete h).draw.memory.requires_high_res_to_draw_ = true := by
  have hbefore : (beforePrepareTiles h).draw.memory.requires_high_res_to_draw_ = true := by
    unfold beforePrepareTiles
    simp only
    split_ifs
    · exact updateTreeResources_requires_high_res h hs
    · exact updateTreeResources_requires_high_res h hs
  have hprepared : (PrepareTiles (beforePrepareTiles h)).2.draw.memory.requires_high_res_to_draw_
      = true := by
    rw [prepareTiles_draw]
    exact hbefore
  unfold CommitComplete
  simp only [NotifyReadyToActivate, NotifyReadyToDraw, Host.client]
  split_ifs <;> exact hprepared

theorem stepHost_requires_high_res (h t : Host) (c : HostCall)
    (hc : c.isDrawLayers = false) (hstep : stepHost h c = some t)
    (hs : h.draw.memory.requires_high_res_to_draw_ = true) :
    t.draw.memory.requires_high_res_to_draw_ = true := by
  cases c with
  | PrepareToDraw =>
    simp only [stepHost, Option.map_eq_some'] at hstep
    obtain ⟨r, hr, rfl⟩ := hstep
    have hm := (prepareToDraw_facts h.draw h.frame r hr).2.2.1
    simp only [hm]
    exact hs
  | DrawLayers => simp [HostCall.isDrawLayers] at hc
  | ScrollBegin scroll_state type =>
    simp only [stepHost, Option.map_eq_some'] at hstep
    obtain ⟨r, -, rfl⟩ := hstep
    exact hs
  | ScrollBy scroll_state =>
    simp only [stepHost, Option.map_eq_some'] at hstep
    obtain ⟨r, -, rfl⟩ := hstep
    exact hs
  | SetVisible visible =>
    simp only [stepHost, Option.some.injEq] at hstep
    subst hstep
    exact host_setVisible_requires_high_res h visible hs
  | ActivateSyncTree =>
    simp only [stepHost, Option.some.injEq] at hstep
    subst hstep
    split_ifs <;> exact hs
  | CommitComplete =>
    simp only [stepHost, Option.some.injEq] at hstep
    subst hstep
    exact commitComplete_requires_high_res h hs

theorem runHost_requires_high_res (calls : List HostCall) :
    ∀ h t : Host, (∀ c ∈ calls, c.isDrawLayers = false) → runHost h calls = some t →
      h.draw.memory.requires_high_res_to_draw_ = true →
      t.draw.memory.requires_high_res_to_draw_ = true := by
  induction calls with
  | nil =>
    intro h t _ hrun hs
    simp only [runHost, Option.some.injEq] at hrun
    subst hrun
    exact hs
  | cons c cs ih =>
    intro h t hcalls hrun hs
    simp only [runHost] at hrun
    cases hstep : stepHost h c with
    | none => simp [hstep] at hrun
    | some m =>
      simp only [hstep, Option.some_bind] at hrun
      exact ih m t (fun d hd => hcalls d (List.mem_cons_of_mem _ hd)) hrun
        (stepHost_requires_high_res h m c (hcalls c (List.mem_cons_self _ _)) hstep hs)

/-- C20, as stated, fails.  On the example host the GPU rasterization update
observes a changed decision and sets the flag; `PrepareToDraw` then succeeds and
`DrawLayers`, which starts with `ResetRequiresHighResToDraw()`, leaves
`RequiresHighResToDraw()` false although no `ActivateSyncTree` has run.  The
host can draw throughout. -/
theorem drawLayers_resets_requires_high_res :
    (exampleHost true).need_update_gpu_rasterization_status_ = true ∧
    (UpdateGpuRasterizationStatus (exampleHost true).gpu).1 = true ∧
    RequiresHighResToDraw
      (UpdateTreeResourcesForGpuRasterizationIfNeeded (exampleHost true)).draw = true ∧
    CanDraw (UpdateTreeResourcesForGpuRasterizationIfNeeded (exampleHost true)).draw = true ∧
    (runHost (UpdateTreeResourcesForGpuRasterizationIfNeeded (exampleHost true))
        [HostCall.PrepareToDraw, HostCall.DrawLayers]).map
      (fun t => RequiresHighResToDraw t.draw) = some false := by
  decide!

/-- C20, amended.  When `UpdateTreeResourcesForGpuRasterizationIfNeeded`
observes a changed GPU-rasterization decision it sets the
requires-high-res-to-draw flag, and `RequiresHighResToDraw()` is true in every
state reached from there by operations other than `DrawLayers`: `PrepareToDraw`,
scrolling, visibility changes, `CommitComplete` and `ActivateSyncTree` all leave
it set; the next `DrawLayers` resets it. -/
theorem requires_high_res_held_until_drawLayers (h : Host) (calls : List HostCall)
    (hneed : h.need_update_gpu_rasterization_status_ = true)
    (hchanged : (UpdateGpuRasterizationStatus h.gpu).1 = true)
    (hcalls : ∀ c ∈ calls, c.isDrawLayers = false) :
    RequiresHighResToDraw (UpdateTreeResourcesForGpuRasterizationIfNeeded h).draw = true ∧
    ∀ t, runHost (UpdateTreeResourcesForGpuRasterizationIfNeeded h) calls = some t →
      RequiresHighResToDraw t.draw = true ∧
      ∀ u, stepHost t HostCall.DrawLayers = some u → RequiresHighResToDraw u.draw = false := by
  have hset := updateTreeResources_sets_requires_high_res h hneed hchanged
  refine ⟨hset, fun t hrun => ⟨runHost_requires_high_res calls _ t hcalls hrun hset, ?_⟩⟩
  intro u hu
  simp only [stepHost, Option.map_eq_some'] at hu
  obtain ⟨r, hr, rfl⟩ := hu
  simp only [DrawLayers] at hr
  simp only [RequiresHighResToDraw]
  split_ifs at hr
  · simp only [Option.some.injEq] at hr
    rw [← hr]
  · cases hsink : t.draw.compositor_frame_sink_ with
    | none => simp [hsink] at hr
    | some sink =>
      simp only [hsink, Option.some.injEq] at hr
      rw [← hr]

theorem requires_high_res_held_until_drawLayers_witness :
    (runHost (UpdateTreeResourcesForGpuRasterizationIfNeeded (exampleHost true))
      [HostCall.PrepareToDraw, HostCall.ScrollBegin (scrollStateAt 0 0) ScrollInputType.WHEEL,
       HostCall.ScrollBy (scrollStateAt 150 0), HostCall.SetVisible false,
       HostCall.SetVisible true, HostCall.ActivateSyncTree,
       HostCall.CommitComplete]).isSome = true ∧
    RequiresHighResToDraw
      (UpdateTreeResourcesForGpuRasterizationIfNeeded (exampleHost true)).draw = true ∧
    ∀ t,
      runHost (UpdateTreeResourcesForGpuRasterizationIfNeeded (exampleHost true))
        [HostCall.PrepareToDraw, HostCall.ScrollBegin (scrollStateAt 0 0) ScrollInputType.WHEEL,
         HostCall.ScrollBy (scrollStateAt 150 0), HostCall.SetVisible false,
         HostCall.SetVisible true, HostCall.ActivateSyncTree,
         HostCall.CommitComplete] = some t →
      RequiresHighResToDraw t.draw = true ∧
      ∀ u, stepHost t HostCall.DrawLayers = some u → RequiresHighResToDraw u.draw = false :=
  ⟨by decide!,
    requires_high_res_held_until_drawLayers (exampleHost true)
      [HostCall.PrepareToDraw, HostCall.ScrollBegin (scrollStateAt 0 0) ScrollInputType.WHEEL,
       HostCall.ScrollBy (scrollStateAt 150 0), HostCall.SetVisible false,
       HostCall.SetVisible true, HostCall.ActivateSyncTree, HostCall.CommitComplete]
      (by decide) (by decide!) (by simp [HostCall.isDrawLayers])⟩


/-! ## Animation: the begin-impl-frames requested by one step -/

/-- C21, as stated, fails.  A page-scale animation that completes at the tick
makes `AnimatePageScale` return true without requesting a begin-impl-frame; and
a browser-controls animation that is still running, on content scrolled to the
top, makes `AnimateBrowserControls` return false after requesting one. -/
theorem animate_result_does_not_count_ticks :
    (AnimatePageScale (animatingHost 0) 10).1 = true ∧
    (AnimatePageScale (animatingHost 0) 10).2.beginImplFramesRequested = 0 ∧
    (AnimateBrowserControls (animatingHost 0) 10).1 = false ∧
    (AnimateBrowserControls (animatingHost 0) 10).2.beginImplFramesRequested = 1 := by
  decide!

theorem beginImplFramesRequested_call (h : AnimationHost) (c : AnimationCall) :
    (h.call c).beginImplFramesRequested =
      h.beginImplFramesRequested +
        (if c = AnimationCall.SetNeedsOneBeginImplFrameOnImplThread then 1 else 0) := by
  simp only [AnimationHost.beginImplFramesRequested, AnimationHost.call, List.count_append,
    List.count_singleton]
  by_cases hc : c = AnimationCall.SetNeedsOneBeginImplFrameOnImplThread
  · simp [hc]
  · have hc' : (c == AnimationCall.SetNeedsOneBeginImplFrameOnImplThread) = false := by
      simpa using hc
    simp [hc, hc']

/-- C21, amended.  Each of the three functions requests at most one further
begin-impl-frame.  `AnimateLayers` requests exactly one when it returns true and
none when it returns false.  `AnimatePageScale` returns true exactly when there
is a page-scale animation, and requests one begin-impl-frame when the animation
is not complete at that time and so remains, none when it returns false or the
animation completes.
`AnimateBrowserControls` requests one begin-impl-frame when the browser-controls
animation is still running after the step, none otherwise, whatever it
returns. -/
theorem animate_ticks_requested (h : AnimationHost) (time : Nat) :
    (AnimateLayers h time).2.beginImplFramesRequested =
      h.beginImplFramesRequested + (if (AnimateLayers h time).1 then 1 else 0) ∧
    (AnimatePageScale h time).1 = h.page_scale_animation_.isSome ∧
    (AnimatePageScale h time).2.beginImplFramesRequested =
      h.beginImplFramesRequested +
        (if (AnimatePageScale h time).2.page_scale_animation_.isSome then 1 else 0) ∧
    (AnimateBrowserControls h time).2.beginImplFramesRequested =
      h.beginImplFramesRequested +
        (if h.browser_controls_offset_manager_.has_animation ∧
            h.browser_controls_offset_manager_.animation_running_after time then 1 else 0) := by
  refine ⟨?_, ?_, ?_, ?_⟩
  · simp only [AnimateLayers, SetNeedsOneBeginImplFrame]
    by_cases ha : h.mutator_host_AnimateLayers time = true
    · simp [ha, beginImplFramesRequested_call]
    · simp [ha]
  · cases hps : h.page_scale_animation_ with
    | none => simp only [AnimatePageScale, hps, Option.isSome_none]
    | some a =>
      simp only [AnimatePageScale, hps, Option.isSome_some]
      split_ifs <;> rfl
  · cases hps : h.page_scale_animation_ with
    | none => simp [AnimatePageScale, hps]
    | some a =>
      simp only [AnimatePageScale, hps]
      generalize (if (!a.IsAnimationStarted) = true then a.StartAnimation time else a) = a1
      by_cases hc : a1.IsAnimationCompleteAtTime time = true
      · simp [hc, AnimationHost.call, AnimationHost.beginImplFramesRequested]
      · simp [hc, SetNeedsOneBeginImplFrame, AnimationHost.call,
          AnimationHost.beginImplFramesRequested]
  · simp only [AnimateBrowserControls, BrowserControlsOffsetManager.Animate,
      SetNeedsOneBeginImplFrame]
    by_cases ha : h.browser_controls_offset_manager_.has_animation = true
    · by_cases hr : h.browser_controls_offset_manager_.animation_running_after time = true
      · simp only [ha, hr, Bool.not_true, Bool.false_eq_true, if_false, if_true, and_self]
        split_ifs <;>
          simp [AnimationHost.call, AnimationHost.beginImplFramesRequested]
      · simp only [ha, hr, Bool.not_true, Bool.false_eq_true, if_false, and_false]
        split_ifs <;>
          simp [AnimationHost.call, AnimationHost.beginImplFramesRequested]
    · simp [ha]


/-! ## Frame assembly: `RemoveRenderPasses` reaches a fixed point -/

theorem quadRefs_cons (k : Nat) (q : DrawQuad) (quads : List DrawQuad) :
    quadRefs k (q :: quads) =
      quadRefs k quads +
        (if q.material = Material.RENDER_PASS ∧ q.render_pass_id = k then 1 else 0) := by
  simp only [quadRefs, List.countP_cons, Bool.and_eq_true, decide_eq_true_eq]

theorem quadRefs_pos (k : Nat) (quads : List DrawQuad) (q : DrawQuad) (hq : q ∈ quads)
    (hm : q.material = Material.RENDER_PASS) (hk : q.render_pass_id = k) :
    0 < quadRefs k quads := by
  unfold quadRefs
  exact List.countP_pos_iff.mpr ⟨q, hq, by simp [hm, hk]⟩

theorem quadRefs_eq_zero (k : Nat) (quads : List DrawQuad)
    (h : ∀ q ∈ quads, q.material = Material.RENDER_PASS → q.render_pass_id ≠ k) :
    quadRefs k quads = 0 := by
  unfold quadRefs
  rw [List.countP_eq_zero]
  intro q hq
  simp only [Bool.and_eq_true, decide_eq_true_eq, not_and]
  exact h q hq

theorem quadRefs_exists (k : Nat) (quads : List DrawQuad) (h : 0 < quadRefs k quads) :
    ∃ q ∈ quads, q.material = Material.RENDER_PASS ∧ q.render_pass_id = k := by
  unfold quadRefs at h
  obtain ⟨q, hq, hp⟩ := List.countP_pos_iff.mp h
  simp only [Bool.and_eq_true, decide_eq_true_eq] at hp
  exact ⟨q, hq, hp⟩

theorem passRefs_cons (k : Nat) (p : RenderPass) (passes : List RenderPass) :
    passRefs k (p :: passes) = quadRefs k p.quad_list + passRefs k passes := by
  simp [passRefs]

theorem passRefs_append (k : Nat) (a b : List RenderPass) :
    passRefs k (a ++ b) = passRefs k a + passRefs k b := by
  simp [passRefs]

theorem passRefs_reverse (k : Nat) (a : List RenderPass) :
    passRefs k a.reverse = passRefs k a := by
  induction a with
  | nil => rfl
  | cons p rest ih =>
    rw [List.reverse_cons, passRefs_append, passRefs_cons, ih, passRefs_cons]
    simp [passRefs, Nat.add_comm]

theorem passRefs_sublist (k : Nat) (a b : List RenderPass) (h : a.Sublist b) :
    passRefs k a ≤ passRefs k b := by
  induction h with
  | slnil => exact Nat.le_refl _
  | cons p _ ih => rw [passRefs_cons]; exact Nat.le_trans ih (Nat.le_add_left _ _)
  | cons₂ p _ ih => rw [passRefs_cons, passRefs_cons]; exact Nat.add_le_add_left ih _

theorem passRefs_exists (k : Nat) (passes : List RenderPass) (h : 0 < passRefs k passes) :
    ∃ p ∈ passes, ∃ q ∈ p.quad_list,
      q.material = Material.RENDER_PASS ∧ q.render_pass_id = k := by
  induction passes with
  | nil => simp [passRefs] at h
  | cons p rest ih =>
    rw [passRefs_cons] at h
    by_cases hp : 0 < quadRefs k p.quad_list
    · obtain ⟨q, hq, hm⟩ := quadRefs_exists k _ hp
      exact ⟨p, List.mem_cons_self _ _, q, hq, hm⟩
    · obtain ⟨p', hp', hq'⟩ := ih (by omega)
      exact ⟨p', List.mem_cons_of_mem _ hp', hq'⟩

theorem passRefs_eq_zero (k : Nat) (passes : List RenderPass)
    (h : ∀ p ∈ passes, ∀ q ∈ p.quad_list,
      q.material = Material.RENDER_PASS → q.render_pass_id ≠ k) :
    passRefs k passes = 0 := by
  induction passes with
  | nil => rfl
  | cons p rest ih =>
    rw [passRefs_cons, quadRefs_eq_zero k _ (h p (List.mem_cons_self _ _)),
      ih fun p' hp' => h p' (List.mem_cons_of_mem _ hp')]

theorem quadRefs_le_passRefs (k : Nat) (passes : List RenderPass) (p : RenderPass)
    (hp : p ∈ passes) : quadRefs k p.quad_list ≤ passRefs k passes := by
  induction passes with
  | nil => simp at hp
  | cons a rest ih =>
    rw [passRefs_cons]
    rcases List.mem_cons.mp hp with rfl | hp
    · exact Nat.le_add_right _ _
    · exact Nat.le_trans (ih hp) (Nat.le_add_left _ _)

theorem removeOrphanQuads_refs (pass_exists : List Nat) (quads : List DrawQuad) :
    ∀ (refs : Nat → Int) (k : Nat),
      (removeOrphanQuads pass_exists refs quads).2 k =
        refs k + (quadRefs k (removeOrphanQuads pass_exists refs quads).1 : Int) := by
  induction quads with
  | nil => intro refs k; simp [removeOrphanQuads, quadRefs]
  | cons q qs ih =>
    intro refs k
    simp only [removeOrphanQuads]
    by_cases hm : q.material = Material.RENDER_PASS
    · by_cases he : q.render_pass_id ∈ pass_exists
      · simp only [hm, ne_eq, not_true_eq_false, if_false, he, if_true]
        rw [ih, quadRefs_cons]
        simp only [hm, true_and, adjustReference]
        by_cases hk : q.render_pass_id = k
        · simp only [hk, if_true]
          push_cast
          omega
        · have hk' : ¬ k = q.render_pass_id := fun e => hk e.symm
          simp only [hk, hk', if_false]
          push_cast
          omega
      · simp only [hm, ne_eq, not_true_eq_false, if_false, he]
        exact ih refs k
    · simp only [ne_eq, hm, not_false_eq_true, if_true]
      rw [ih, quadRefs_cons]
      simp [hm]

theorem removeOrphanQuads_exists (pass_exists : List Nat) (quads : List DrawQuad) :
    ∀ (refs : Nat → Int), ∀ q ∈ (removeOrphanQuads pass_exists refs quads).1,
      q.material = Material.RENDER_PASS → q.render_pass_id ∈ pass_exists := by
  induction quads with
  | nil => intro refs q hq; simp [removeOrphanQuads] at hq
  | cons a qs ih =>
    intro refs q hq hm
    simp only [removeOrphanQuads] at hq
    by_cases ha : a.material = Material.RENDER_PASS
    · by_cases he : a.render_pass_id ∈ pass_exists
      · simp only [ha, ne_eq, not_true_eq_false, if_false, he, if_true] at hq
        rcases List.mem_cons.mp hq with rfl | hq
        · exact he
        · exact ih _ q hq hm
      · simp only [ha, ne_eq, not_true_eq_false, if_false, he] at hq
        exact ih _ q hq hm
    · simp only [ne_eq, ha, not_false_eq_true, if_true] at hq
      rcases List.mem_cons.mp hq with rfl | hq
      · exact absurd hm ha
      · exact ih _ q hq hm

theorem dropReferences_refs (quads : List DrawQuad) :
    ∀ (refs : Nat → Int) (k : Nat),
      dropReferences refs quads k = refs k - (quadRefs k quads : Int) := by
  induction quads with
  | nil => intro refs k; simp [dropReferences, quadRefs]
  | cons q qs ih =>
    intro refs k
    simp only [dropReferences]
    by_cases hm : q.material = Material.RENDER_PASS
    · simp only [hm, ne_eq, not_true_eq_false, if_false]
      rw [ih, quadRefs_cons]
      simp only [hm, true_and, adjustReference]
      by_cases hk : q.render_pass_id = k
      · simp only [hk, if_true]
        push_cast
        omega
      · have hk' : ¬ k = q.render_pass_id := fun e => hk e.symm
        simp only [hk, hk', if_false]
        push_cast
        omega
    · simp only [ne_eq, hm, not_false_eq_true, if_true]
      rw [ih, quadRefs_cons]
      simp [hm]

theorem removeEmptyPasses_refs (passes : List RenderPass) :
    ∀ (pass_exists : List Nat) (refs : Nat → Int) (k : Nat),
      (removeEmptyPasses pass_exists refs passes).2 k =
        refs k + (passRefs k (removeEmptyPasses pass_exists refs passes).1 : Int) := by
  induction passes with
  | nil => intro pe refs k; simp [removeEmptyPasses, passRefs]
  | cons p rest ih =>
    intro pe refs k
    cases rest with
    | nil =>
      simp only [removeEmptyPasses, passRefs_cons]
      rw [removeOrphanQuads_refs]
      simp [passRefs]
    | cons n rest =>
      simp only [removeEmptyPasses]
      by_cases he : ((removeOrphanQuads pe refs p.quad_list).1.isEmpty &&
          p.copy_requests.isEmpty) = true
      · simp only [he, if_true]
        rw [ih, removeOrphanQuads_refs]
        have hq : (removeOrphanQuads pe refs p.quad_list).1 = [] := by
          simp only [Bool.and_eq_true, List.isEmpty_iff] at he
          exact he.1
        rw [hq]
        simp [quadRefs]
      · simp only [he, Bool.false_eq_true, if_false]
        rw [ih, removeOrphanQuads_refs, passRefs_cons]
        push_cast
        omega

theorem removeEmptyPasses_back_references (passes : List RenderPass) :
    ∀ (pass_exists : List Nat) (refs : Nat → Int) (pre : List RenderPass) (p : RenderPass)
      (post : List RenderPass),
      (removeEmptyPasses pass_exists refs passes).1 = pre ++ p :: post →
      ∀ q ∈ p.quad_list, q.material = Material.RENDER_PASS →
        q.render_pass_id ∈ pass_exists ∨ q.render_pass_id ∈ pre.map fun x => x.id := by
  induction passes with
  | nil => intro pe refs pre p post h; simp [removeEmptyPasses] at h
  | cons a rest ih =>
    intro pe refs pre p post h q hq hm
    cases rest with
    | nil =>
      simp only [removeEmptyPasses] at h
      cases pre with
      | nil =>
        simp only [List.nil_append, List.cons.injEq] at h
        obtain ⟨hp, -⟩ := h
        subst hp
        exact Or.inl (removeOrphanQuads_exists pe _ refs q hq hm)
      | cons x pre => simp at h
    | cons n rest =>
      simp only [removeEmptyPasses] at h
      by_cases he : ((removeOrphanQuads pe refs a.quad_list).1.isEmpty &&
          a.copy_requests.isEmpty) = true
      · simp only [he, if_true] at h
        exact ih pe _ pre p post h q hq hm
      · simp only [he, Bool.false_eq_true, if_false] at h
        cases pre with
        | nil =>
          simp only [List.nil_append, List.cons.injEq] at h
          obtain ⟨hp, -⟩ := h
          subst hp
          exact Or.inl (removeOrphanQuads_exists pe _ refs q hq hm)
        | cons x pre =>
          simp only [List.cons_append, List.cons.injEq] at h
          obtain ⟨hx, h⟩ := h
          subst hx
          rcases ih _ _ pre p post h q hq hm with hin | hin
          · rcases List.mem_cons.mp hin with hid | hin
            · exact Or.inr (by simp [hid])
            · exact Or.inl hin
          · exact Or.inr (by simp only [List.map_cons]; exact List.mem_cons_of_mem _ hin)

theorem removeEmptyPasses_not_empty (passes : List RenderPass) :
    ∀ (pass_exists : List Nat) (refs : Nat → Int) (pre : List RenderPass) (p : RenderPass)
      (post : List RenderPass),
      (removeEmptyPasses pass_exists refs passes).1 = pre ++ p :: post → post ≠ [] →
      p.quad_list ≠ [] ∨ p.copy_requests ≠ [] := by
  induction passes with
  | nil => intro pe refs pre p post h; simp [removeEmptyPasses] at h
  | cons a rest ih =>
    intro pe refs pre p post h hpost
    cases rest with
    | nil =>
      simp only [removeEmptyPasses] at h
      cases pre with
      | nil =>
        simp only [List.nil_append, List.cons.injEq] at h
        exact absurd h.2.symm hpost
      | cons x pre => simp at h
    | cons n rest =>
      simp only [removeEmptyPasses] at h
      by_cases he : ((removeOrphanQuads pe refs a.quad_list).1.isEmpty &&
          a.copy_requests.isEmpty) = true
      · simp only [he, if_true] at h
        exact ih pe _ pre p post h hpost
      · simp only [he, Bool.false_eq_true, if_false] at h
        cases pre with
        | nil =>
          simp only [List.nil_append, List.cons.injEq] at h
          obtain ⟨hp, -⟩ := h
          subst hp
          simp only [Bool.and_eq_true, List.isEmpty_iff, not_and] at he
          by_cases hq : (removeOrphanQuads pe refs a.quad_list).1 = []
          · exact Or.inr (he hq)
          · exact Or.inl hq
        | cons x pre =>
          simp only [List.cons_append, List.cons.injEq] at h
          exact ih _ _ pre p post h.2 hpost

theorem removeEmptyPasses_ids (passes : List RenderPass) :
    ∀ (pass_exists : List Nat) (refs : Nat → Int),
      ((removeEmptyPasses pass_exists refs passes).1.map fun x => x.id).Sublist
        (passes.map fun x => x.id) := by
  induction passes with
  | nil => intro pe refs; simp [removeEmptyPasses]
  | cons a rest ih =>
    intro pe refs
    cases rest with
    | nil => simp [removeEmptyPasses]
    | cons n rest =>
      simp only [removeEmptyPasses]
      split_ifs
      · exact (ih _ _).cons _
      · simp only [List.map_cons]
        exact (ih _ _).cons₂ _

theorem removeUnreferencedPasses_spec (back : List RenderPass) :
    ∀ (refs : Nat → Int) (later : List RenderPass),
      (∀ k, refs k = (passRefs k (back.reverse ++ later) : Int)) →
      (∀ (b1 : List RenderPass) (p : RenderPass) (b2 : List RenderPass),
        back = b1 ++ p :: b2 →
        ∀ q ∈ p.quad_list, q.material = Material.RENDER_PASS →
          q.render_pass_id ∈ b2.map fun x => x.id) →
      (back.map fun x => x.id).Nodup →
      (removeUnreferencedPasses refs back).Sublist back ∧
      (∀ k ∈ back.map fun x => x.id,
        0 < passRefs k ((removeUnreferencedPasses refs back).reverse ++ later) →
        k ∈ (removeUnreferencedPasses refs back).map fun x => x.id) ∧
      (∀ (b1 : List RenderPass) (p : RenderPass) (b2 : List RenderPass),
        removeUnreferencedPasses refs back = b1 ++ p :: b2 →
        ∀ q ∈ p.quad_list, q.material = Material.RENDER_PASS →
          q.render_pass_id ∈ b2.map fun x => x.id) ∧
      (∀ p ∈ removeUnreferencedPasses refs back, p.copy_requests = [] →
        0 < passRefs p.id ((removeUnreferencedPasses refs back).reverse ++ later)) := by
  induction back with
  | nil =>
    intro refs later _ _ _
    simp [removeUnreferencedPasses]
  | cons P earlier ih =>
    intro refs later hrefs hback hnodup
    have hback' : ∀ (b1 : List RenderPass) (p : RenderPass) (b2 : List RenderPass),
        earlier = b1 ++ p :: b2 →
        ∀ q ∈ p.quad_list, q.material = Material.RENDER_PASS →
          q.render_pass_id ∈ b2.map fun x => x.id := by
      intro b1 p b2 h
      exact hback (P :: b1) p b2 (by rw [h]; rfl)
    have hnodup' : (earlier.map fun x => x.id).Nodup := by
      simp only [List.map_cons, List.nodup_cons] at hnodup
      exact hnodup.2
    have hPid : P.id ∉ earlier.map fun x => x.id := by
      simp only [List.map_cons, List.nodup_cons] at hnodup
      exact hnodup.1
    -- the passes at or before `P` do not name `P`
    have hzero : passRefs P.id (earlier.reverse ++ [P]) = 0 := by
      apply passRefs_eq_zero
      intro p hp q hq hm hk
      have hp' : p ∈ P :: earlier := by
        rcases List.mem_append.mp hp with hp | hp
        · exact List.mem_cons_of_mem _ (List.mem_reverse.mp hp)
        · simp only [List.mem_singleton] at hp
          rw [hp]; exact List.mem_cons_self _ _
      obtain ⟨b1, b2, hsplit⟩ := List.append_of_mem hp'
      have hin := hback b1 p b2 hsplit q hq hm
      rw [hk] at hin
      -- `b2` is a part of `earlier`
      have hsub : ∀ x ∈ b2, x ∈ earlier := by
        intro x hx
        cases b1 with
        | nil =>
          simp only [List.nil_append, List.cons.injEq] at hsplit
          rw [hsplit.2]; exact hx
        | cons y b1 =>
          simp only [List.cons_append, List.cons.injEq] at hsplit
          rw [hsplit.2]
          exact List.mem_append_right _ (List.mem_cons_of_mem _ hx)
      apply hPid
      obtain ⟨x, hx, hxid⟩ := List.mem_map.mp hin
      exact List.mem_map.mpr ⟨x, hsub x hx, hxid⟩
    have hlist : (P :: earlier).reverse ++ later = earlier.reverse ++ P :: later := by
      simp
    by_cases hkeep : (!P.copy_requests.isEmpty) = true ∨ refs P.id ≠ 0
    · -- the pass stays
      have hunfold : removeUnreferencedPasses refs (P :: earlier) =
          P :: removeUnreferencedPasses refs earlier := by
        simp only [removeUnreferencedPasses]
        rcases hkeep with hc | hr
        · simp [hc]
        · by_cases hc : (!P.copy_requests.isEmpty) = true
          · simp [hc]
          · simp [hc, hr]
      obtain ⟨isub, ikeep, iback, iref⟩ := ih refs (P :: later)
        (fun k => by rw [hrefs k, hlist]) hback' hnodup'
      rw [hunfold]
      have hfinal : (P :: removeUnreferencedPasses refs earlier).reverse ++ later =
          (removeUnreferencedPasses refs earlier).reverse ++ P :: later := by
        simp
      refine ⟨isub.cons₂ P, ?_, ?_, ?_⟩
      · intro k hk hpos
        rw [hfinal] at hpos
        simp only [List.map_cons, List.mem_cons] at hk ⊢
        rcases hk with hk | hk
        · exact Or.inl hk
        · exact Or.inr (ikeep k hk hpos)
      · intro b1 p b2 hsplit q hq hm
        cases b1 with
        | nil =>
          simp only [List.nil_append, List.cons.injEq] at hsplit
          obtain ⟨hp, hb2⟩ := hsplit
          subst hp
          rw [← hb2]
          apply ikeep _ (hback [] P earlier rfl q hq hm)
          rw [passRefs_append, passRefs_cons]
          have := quadRefs_pos q.render_pass_id _ q hq hm rfl
          omega
        | cons y b1 =>
          simp only [List.cons_append, List.cons.injEq] at hsplit
          exact iback b1 p b2 hsplit.2 q hq hm
      · intro p hp hcopy
        rw [hfinal]
        rcases List.mem_cons.mp hp with hp | hp
        · subst hp
          have hr : refs p.id ≠ 0 := by
            rcases hkeep with hc | hr
            · simp [hcopy] at hc
            · exact hr
          rw [hrefs, hlist] at hr
          have hsplit : passRefs p.id (earlier.reverse ++ p :: later) =
              passRefs p.id (earlier.reverse ++ [p]) + passRefs p.id later := by
            rw [passRefs_append, passRefs_append, passRefs_cons, passRefs_cons]
            simp [passRefs]
            omega
          rw [hsplit, hzero] at hr
          have hpos : 0 < passRefs p.id later := by
            rcases Nat.eq_zero_or_pos (passRefs p.id later) with h0 | h0
            · rw [h0] at hr; simp at hr
            · exact h0
          rw [passRefs_append, passRefs_cons]
          omega
        · exact iref p hp hcopy
    · -- the pass is erased
      have hc : (!P.copy_requests.isEmpty) = false := by
        by_contra hc
        exact hkeep (Or.inl (by simpa using hc))
      have hr : refs P.id = 0 := by
        by_contra hr
        exact hkeep (Or.inr hr)
      have hunfold : removeUnreferencedPasses refs (P :: earlier) =
          removeUnreferencedPasses (dropReferences refs P.quad_list) earlier := by
        simp only [removeUnreferencedPasses]
        simp [hc, hr]
      obtain ⟨isub, ikeep, iback, iref⟩ := ih (dropReferences refs P.quad_list) later
        (fun k => by
          rw [dropReferences_refs, hrefs k, hlist, passRefs_append, passRefs_append,
            passRefs_cons]
          push_cast
          omega) hback' hnodup'
      rw [hunfold]
      refine ⟨isub.cons P, ?_, iback, iref⟩
      intro k hk hpos
      simp only [List.map_cons, List.mem_cons] at hk
      rcases hk with hk | hk
      · exfalso
        subst hk
        rw [hrefs, hlist] at hr
        have h0 : passRefs P.id (earlier.reverse ++ P :: later) = 0 := by exact_mod_cast hr
        have hle : passRefs P.id
            ((removeUnreferencedPasses (dropReferences refs P.quad_list) earlier).reverse ++
              later) ≤ passRefs P.id (earlier.reverse ++ P :: later) := by
          apply passRefs_sublist
          exact List.Sublist.append (List.reverse_sublist.mpr isub) (List.sublist_cons_self _ _)
        omega
      · exact ikeep k hk hpos

theorem removeRenderPasses_facts (passes : List RenderPass) (hne : passes ≠ [])
    (hdistinct : (passes.map fun x => x.id).Nodup) :
    ∃ (root : RenderPass) (back kept : List RenderPass),
      RemoveRenderPasses passes = some (kept.reverse ++ [root]) ∧
      kept.Sublist back ∧
      (∀ p ∈ back, p.quad_list ≠ [] ∨ p.copy_requests ≠ []) ∧
      (∀ (b1 : List RenderPass) (p : RenderPass) (b2 : List RenderPass),
        kept = b1 ++ p :: b2 →
        ∀ q ∈ p.quad_list, q.material = Material.RENDER_PASS →
          q.render_pass_id ∈ b2.map fun x => x.id) ∧
      (∀ q ∈ root.quad_list, q.material = Material.RENDER_PASS →
        q.render_pass_id ∈ kept.map fun x => x.id) ∧
      (∀ p ∈ kept, p.copy_requests = [] → 0 < passRefs p.id (kept.reverse ++ [root])) := by
  obtain ⟨seen, refs', hlast⟩ := removeEmptyPasses_getLast passes [] (fun _ => 0) hne
  cases hpasses : passes with
  | nil => exact absurd hpasses hne
  | cons a rest =>
    rw [← hpasses]
    rw [List.getLast?_eq_head?_reverse] at hlast
    cases hrev : (removeEmptyPasses [] (fun _ => 0) passes).1.reverse with
    | nil => rw [hrev] at hlast; simp at hlast
    | cons root back =>
      have hfirst : (removeEmptyPasses [] (fun _ => 0) passes).1 = back.reverse ++ [root] := by
        have := congrArg List.reverse hrev
        simpa using this
      have hrefs : ∀ k, (removeEmptyPasses [] (fun _ => 0) passes).2 k =
          (passRefs k (back.reverse ++ [root]) : Int) := by
        intro k
        rw [removeEmptyPasses_refs, hfirst]
        simp
      have hback : ∀ (b1 : List RenderPass) (p : RenderPass) (b2 : List RenderPass),
          back = b1 ++ p :: b2 →
          ∀ q ∈ p.quad_list, q.material = Material.RENDER_PASS →
            q.render_pass_id ∈ b2.map fun x => x.id := by
        intro b1 p b2 hsplit q hq hm
        have hdecomp : (removeEmptyPasses [] (fun _ => 0) passes).1 =
            b2.reverse ++ p :: (b1.reverse ++ [root]) := by
          rw [hfirst, hsplit]
          simp
        rcases removeEmptyPasses_back_references passes [] _ _ p _ hdecomp q hq hm with h | h
        · simp at h
        · simpa using h
      have hnodup : (back.map fun x => x.id).Nodup := by
        have hsub := removeEmptyPasses_ids passes [] (fun _ => 0)
        have hn := hdistinct.sublist hsub
        rw [hfirst] at hn
        simp only [List.map_append, List.map_reverse] at hn
        exact List.nodup_reverse.mp (List.Nodup.of_append_left hn)
      obtain ⟨csub, ckeep, cback, cref⟩ := removeUnreferencedPasses_spec back
        (removeEmptyPasses [] (fun _ => 0) passes).2 [root] hrefs hback hnodup
      refine ⟨root, back,
        removeUnreferencedPasses (removeEmptyPasses [] (fun _ => 0) passes).2 back,
        ?_, csub, ?_, cback, ?_, cref⟩
      · rw [hpasses]
        simp only [RemoveRenderPasses]
        rw [← hpasses, hrev]
      · intro p hp
        obtain ⟨b1, b2, hsplit⟩ := List.append_of_mem hp
        have hdecomp : (removeEmptyPasses [] (fun _ => 0) passes).1 =
            b2.reverse ++ p :: (b1.reverse ++ [root]) := by
          rw [hfirst, hsplit]
          simp
        exact removeEmptyPasses_not_empty passes [] _ _ p _ hdecomp (by simp)
      · intro q hq hm
        have hdecomp : (removeEmptyPasses [] (fun _ => 0) passes).1 =
            back.reverse ++ root :: [] := hfirst
        have hin : q.render_pass_id ∈ back.map fun x => x.id := by
          rcases removeEmptyPasses_back_references passes [] _ _ root _ hdecomp q hq hm with
            h | h
          · simp at h
          · simpa using h
        apply ckeep _ hin
        rw [passRefs_append, passRefs_cons]
        have := quadRefs_pos q.render_pass_id _ q hq hm rfl
        omega

theorem split_before_root (kept pre post : List RenderPass) (root p : RenderPass)
    (h : kept.reverse ++ [root] = pre ++ p :: post) :
    (post = [] ∧ p = root ∧ pre = kept.reverse) ∨
    (post ≠ [] ∧ kept = post.dropLast.reverse ++ p :: pre.reverse) := by
  by_cases hpost : post = []
  · left
    subst hpost
    have h' : kept.reverse ++ [root] = pre ++ [p] := h
    obtain ⟨h1, h2⟩ := List.append_inj' h' rfl
    simp only [List.cons.injEq, and_true] at h2
    exact ⟨rfl, h2.symm, h1.symm⟩
  · right
    refine ⟨hpost, ?_⟩
    have hd := congrArg List.dropLast h
    rw [List.dropLast_concat] at hd
    have hd2 : (pre ++ p :: post).dropLast = pre ++ p :: post.dropLast := by
      rw [List.dropLast_append_of_ne_nil _ (by simp), List.dropLast_cons_of_ne_nil hpost]
    rw [hd2] at hd
    have := congrArg List.reverse hd
    simpa using this

/-- C22.  For every non-empty render-pass list with pairwise distinct pass ids,
`RemoveRenderPasses` returns a list in which every non-root pass (every pass but
the last) has a quad or a copy request, and every non-root pass without copy
requests is named by a `RENDER_PASS` quad of a pass of the returned list. -/
theorem removeRenderPasses_is_fixed_point (passes : List RenderPass) (hne : passes ≠ [])
    (hdistinct : (passes.map fun x => x.id).Nodup) :
    ∃ out, RemoveRenderPasses passes = some out ∧
      ∀ (pre : List RenderPass) (p : RenderPass) (post : List RenderPass),
        out = pre ++ p :: post → post ≠ [] →
        (p.quad_list ≠ [] ∨ p.copy_requests ≠ []) ∧
        (p.copy_requests = [] →
          ∃ p' ∈ out, ∃ q ∈ p'.quad_list,
            q.material = Material.RENDER_PASS ∧ q.render_pass_id = p.id) := by
  obtain ⟨root, back, kept, hout, hsub, hfull, -, -, href⟩ :=
    removeRenderPasses_facts passes hne hdistinct
  refine ⟨_, hout, ?_⟩
  intro pre p post hsplit hpost
  rcases split_before_root kept pre post root p hsplit with ⟨h, -⟩ | ⟨-, hkept⟩
  · exact absurd h hpost
  · have hp : p ∈ kept := by rw [hkept]; simp
    exact ⟨hfull p (hsub.subset hp), fun hcopy => passRefs_exists _ _ (href p hp hcopy)⟩

theorem removeRenderPasses_is_fixed_point_witness :
    ∃ out,
      RemoveRenderPasses
        [{ id := 1, quad_list := [⟨Material.OTHER 0, 0⟩], copy_requests := [] },
         { id := 2, quad_list := [⟨Material.RENDER_PASS, 1⟩], copy_requests := [] },
         { id := 3, quad_list := [⟨Material.RENDER_PASS, 9⟩], copy_requests := [] },
         { id := 4, quad_list := [⟨Material.OTHER 0, 0⟩], copy_requests := [] }] = some out ∧
      ∀ (pre : List RenderPass) (p : RenderPass) (post : List RenderPass),
        out = pre ++ p :: post → post ≠ [] →
        (p.quad_list ≠ [] ∨ p.copy_requests ≠ []) ∧
        (p.copy_requests = [] →
          ∃ p' ∈ out, ∃ q ∈ p'.quad_list,
            q.material = Material.RENDER_PASS ∧ q.render_pass_id = p.id) :=
  removeRenderPasses_is_fixed_point _ (by simp) (by decide)

/-- C28.  For every non-empty render-pass list with pairwise distinct pass ids,
`RemoveRenderPasses` returns a list in which every `RENDER_PASS` quad names a
pass that stands strictly earlier in the list than the pass holding the quad. -/
theorem removeRenderPasses_references_earlier_passes (passes : List RenderPass)
    (hne : passes ≠ []) (hdistinct : (passes.map fun x => x.id).Nodup) :
    ∃ out, RemoveRenderPasses passes = some out ∧
      ∀ (pre : List RenderPass) (p : RenderPass) (post : List RenderPass),
        out = pre ++ p :: post →
        ∀ q ∈ p.quad_list, q.material = Material.RENDER_PASS →
          ∃ earlier ∈ pre, earlier.id = q.render_pass_id := by
  obtain ⟨root, back, kept, hout, -, -, hback, hroot, -⟩ :=
    removeRenderPasses_facts passes hne hdistinct
  refine ⟨_, hout, ?_⟩
  intro pre p post hsplit q hq hm
  rcases split_before_root kept pre post root p hsplit with ⟨-, hp, hpre⟩ | ⟨-, hkept⟩
  · subst hp
    obtain ⟨x, hx, hxid⟩ := List.mem_map.mp (hroot q hq hm)
    exact ⟨x, by rw [hpre]; exact List.mem_reverse.mpr hx, hxid⟩
  · obtain ⟨x, hx, hxid⟩ := List.mem_map.mp (hback _ p _ hkept q hq hm)
    exact ⟨x, List.mem_reverse.mp hx, hxid⟩

theorem removeRenderPasses_references_earlier_passes_witness :
    ∃ out,
      RemoveRenderPasses
        [{ id := 1, quad_list := [⟨Material.OTHER 0, 0⟩], copy_requests := [] },
         { id := 2, quad_list := [⟨Material.RENDER_PASS, 1⟩, ⟨Material.RENDER_PASS, 2⟩,
             ⟨Material.RENDER_PASS, 3⟩], copy_requests := [] },
         { id := 3, quad_list := [⟨Material.RENDER_PASS, 2⟩], copy_requests := [] }] =
        some out ∧
      ∀ (pre : List RenderPass) (p : RenderPass) (post : List RenderPass),
        out = pre ++ p :: post →
        ∀ q ∈ p.quad_list, q.material = Material.RENDER_PASS →
          ∃ earlier ∈ pre, earlier.id = q.render_pass_id :=
  removeRenderPasses_references_earlier_passes _ (by simp) (by decide)


/-! ## Frame assembly: the draw result after the loop over the layers -/

theorem iterateLayers_eq_foldl (tree : DrawTree) (frame : FrameData) :
    iterateLayers tree frame = tree.layer_iterator.foldl iterateLayer (iterationStart tree frame) :=
  rfl

theorem iterateLayer_reports (s : IterationState) (it : IteratorEntry) :
    (iterateLayer s it).have_missing_animated_tiles =
      (s.have_missing_animated_tiles ||
        (decide (0 < it.reportedMissingTiles) &&
          (!decide (it.layer_id ∈ s.ever_ready_layers) ||
            it.screen_space_transform_is_animating))) ∧
    (iterateLayer s it).num_missing_tiles = s.num_missing_tiles + it.reportedMissingTiles ∧
    (iterateLayer s it).num_incomplete_tiles =
      s.num_incomplete_tiles + it.reportedIncompleteTiles := by
  cases hk : it.kind <;>
    cases hv : it.visible_layer_rect_IsEmpty <;>
    cases ho : it.occluded <;>
    cases hw : it.WillDraw <;>
    cases hc : it.surface_HasCopyRequest <;>
    cases hs : it.surface_contributes_to_drawn_surface <;>
    simp [iterateLayer, IteratorEntry.reportedMissingTiles,
      IteratorEntry.reportedIncompleteTiles, IteratorEntry.appendsQuads, hk, hv, ho, hw, hc,
      hs] <;>
    (by_cases hm : 0 < it.num_missing_tiles <;> simp [hm])

theorem foldl_iterateLayer_missing (l : List IteratorEntry) :
    ∀ s : IterationState,
      (l.foldl iterateLayer s).num_missing_tiles =
        s.num_missing_tiles + (l.map IteratorEntry.reportedMissingTiles).sum ∧
      (l.foldl iterateLayer s).num_incomplete_tiles =
        s.num_incomplete_tiles + (l.map IteratorEntry.reportedIncompleteTiles).sum := by
  induction l with
  | nil => intro s; simp
  | cons a rest ih =>
    intro s
    obtain ⟨-, hm, hi⟩ := iterateLayer_reports s a
    obtain ⟨ihm, ihi⟩ := ih (iterateLayer s a)
    simp only [List.foldl_cons, List.map_cons, List.sum_cons]
    rw [ihm, ihi, hm, hi]
    omega

theorem sum_eq_zero_iff_forall (l : List IteratorEntry) (f : IteratorEntry → Nat) :
    (l.map f).sum = 0 ↔ ∀ e ∈ l, f e = 0 := by
  induction l with
  | nil => simp
  | cons a rest ih =>
    simp only [List.map_cons, List.sum_cons, Nat.add_eq_zero_iff, ih, List.mem_cons,
      forall_eq_or_imp]

theorem foldl_iterateLayer_flag (l : List IteratorEntry) :
    ∀ s : IterationState,
      (l.foldl iterateLayer s).have_missing_animated_tiles = true ↔
        s.have_missing_animated_tiles = true ∨
        ∃ (pre : List IteratorEntry) (e : IteratorEntry) (post : List IteratorEntry),
          l = pre ++ e :: post ∧ 0 < e.reportedMissingTiles ∧
          (e.screen_space_transform_is_animating = true ∨
            e.layer_id ∉ (pre.foldl iterateLayer s).ever_ready_layers) := by
  induction l with
  | nil => intro s; simp
  | cons a rest ih =>
    intro s
    obtain ⟨hf, -, -⟩ := iterateLayer_reports s a
    rw [List.foldl_cons, ih, hf]
    constructor
    · rintro (h | ⟨pre, e, post, hsplit, hmiss, hrisk⟩)
      · simp only [Bool.or_eq_true, Bool.and_eq_true, decide_eq_true_eq, Bool.not_eq_true',
          decide_eq_false_iff_not] at h
        rcases h with h | ⟨hmiss, hrisk⟩
        · exact Or.inl h
        · refine Or.inr ⟨[], a, rest, rfl, hmiss, ?_⟩
          rcases hrisk with hr | hr
          · exact Or.inr hr
          · exact Or.inl hr
      · exact Or.inr ⟨a :: pre, e, post, by rw [hsplit]; rfl, hmiss, hrisk⟩
    · rintro (h | ⟨pre, e, post, hsplit, hmiss, hrisk⟩)
      · left
        simp [h]
      · cases pre with
        | nil =>
          simp only [List.nil_append, List.cons.injEq] at hsplit
          obtain ⟨ha, -⟩ := hsplit
          subst ha
          left
          simp only [List.foldl_nil] at hrisk
          simp only [Bool.or_eq_true, Bool.and_eq_true, decide_eq_true_eq, Bool.not_eq_true',
            decide_eq_false_iff_not]
          right
          exact ⟨hmiss, hrisk.symm⟩
        | cons x pre =>
          simp only [List.cons_append, List.cons.injEq] at hsplit
          obtain ⟨hx, hrest⟩ := hsplit
          subst hx
          exact Or.inr ⟨pre, e, post, hrest, hmiss, hrisk⟩

theorem iterateLayer_ever_ready_eq (s : IterationState) (it : IteratorEntry) :
    (iterateLayer s it).ever_ready_layers =
      if it.reportedMissingTiles > 0 then s.ever_ready_layers
      else if it.layer_id ∈ s.ever_ready_layers then s.ever_ready_layers
      else it.layer_id :: s.ever_ready_layers := by
  cases hk : it.kind <;>
    cases hv : it.visible_layer_rect_IsEmpty <;>
    cases ho : it.occluded <;>
    cases hw : it.WillDraw <;>
    cases hc : it.surface_HasCopyRequest <;>
    cases hs : it.surface_contributes_to_drawn_surface <;>
    simp [iterateLayer, IteratorEntry.reportedMissingTiles, IteratorEntry.appendsQuads, hk, hv,
      ho, hw, hc, hs]

theorem iterateLayer_ever_ready (s : IterationState) (it : IteratorEntry) (x : Nat) :
    x ∈ (iterateLayer s it).ever_ready_layers ↔
      x ∈ s.ever_ready_layers ∨ (it.reportedMissingTiles = 0 ∧ x = it.layer_id) := by
  rw [iterateLayer_ever_ready_eq]
  by_cases hn : it.reportedMissingTiles > 0
  · have hn' : it.reportedMissingTiles ≠ 0 := by omega
    simp [hn, hn']
  · have hn' : it.reportedMissingTiles = 0 := by omega
    rw [if_neg hn]
    by_cases hl : it.layer_id ∈ s.ever_ready_layers
    · rw [if_pos hl]
      constructor
      · exact Or.inl
      · rintro (h | ⟨-, h⟩)
        · exact h
        · rw [h]; exact hl
    · rw [if_neg hl, List.mem_cons]
      constructor
      · rintro (h | h)
        · exact Or.inr ⟨hn', h⟩
        · exact Or.inl h
      · rintro (h | ⟨-, h⟩)
        · exact Or.inr h
        · exact Or.inl h

theorem foldl_iterateLayer_ever_ready (l : List IteratorEntry) (x : Nat) :
    ∀ s : IterationState,
      x ∈ (l.foldl iterateLayer s).ever_ready_layers ↔
        x ∈ s.ever_ready_layers ∨ ∃ e ∈ l, e.layer_id = x ∧ e.reportedMissingTiles = 0 := by
  induction l with
  | nil => intro s; simp
  | cons a rest ih =>
    intro s
    rw [List.foldl_cons, ih, iterateLayer_ever_ready]
    constructor
    · rintro ((h | ⟨h0, hx⟩) | ⟨e, he, hid, h0⟩)
      · exact Or.inl h
      · exact Or.inr ⟨a, List.mem_cons_self _ _, hx.symm, h0⟩
      · exact Or.inr ⟨e, List.mem_cons_of_mem _ he, hid, h0⟩
    · rintro (h | ⟨e, he, hid, h0⟩)
      · exact Or.inl (Or.inl h)
      · rcases List.mem_cons.mp he with rfl | he
        · exact Or.inl (Or.inr ⟨h0, hid.symm⟩)
        · exact Or.inr ⟨e, he, hid, h0⟩

theorem have_missing_animated_tiles_iff (tree : DrawTree) (frame : FrameData) :
    (iterateLayers tree frame).have_missing_animated_tiles = true ↔
      ∃ (pre : List IteratorEntry) (e : IteratorEntry) (post : List IteratorEntry),
        tree.layer_iterator = pre ++ e :: post ∧ 0 < e.reportedMissingTiles ∧
        (e.screen_space_transform_is_animating = true ∨
          (e.layer_id ∉ tree.ever_ready_layers ∧
            ∀ e' ∈ pre, e'.layer_id = e.layer_id → 0 < e'.reportedMissingTiles)) := by
  rw [iterateLayers_eq_foldl, foldl_iterateLayer_flag]
  have hstart : (iterationStart tree frame).have_missing_animated_tiles = false := rfl
  have hready : (iterationStart tree frame).ever_ready_layers = tree.ever_ready_layers := rfl
  simp only [hstart, Bool.false_eq_true, false_or, foldl_iterateLayer_ever_ready, hready,
    not_or, not_exists, not_and]
  constructor
  · rintro ⟨pre, e, post, hsplit, hmiss, hrisk⟩
    refine ⟨pre, e, post, hsplit, hmiss, ?_⟩
    rcases hrisk with h | ⟨h1, h2⟩
    · exact Or.inl h
    · exact Or.inr ⟨h1, fun e' he' hid => Nat.pos_of_ne_zero (h2 e' he' hid)⟩
  · rintro ⟨pre, e, post, hsplit, hmiss, hrisk⟩
    refine ⟨pre, e, post, hsplit, hmiss, ?_⟩
    rcases hrisk with h | ⟨h1, h2⟩
    · exact Or.inl h
    · exact Or.inr ⟨h1, fun e' he' hid => Nat.pos_iff_ne_zero.mp (h2 e' he' hid)⟩

theorem tiles_reported_iff (tree : DrawTree) (frame : FrameData) :
    ((iterateLayers tree frame).num_incomplete_tiles ≠ 0 ∨
        (iterateLayers tree frame).num_missing_tiles ≠ 0) ↔
      ∃ e ∈ tree.layer_iterator, 0 < e.reportedMissingTiles ∨ 0 < e.reportedIncompleteTiles := by
  obtain ⟨hm, hi⟩ := foldl_iterateLayer_missing tree.layer_iterator (iterationStart tree frame)
  have hm0 : (iterationStart tree frame).num_missing_tiles = 0 := rfl
  have hi0 : (iterationStart tree frame).num_incomplete_tiles = 0 := rfl
  rw [iterateLayers_eq_foldl, hm, hi, hm0, hi0, Nat.zero_add, Nat.zero_add]
  constructor
  · intro h
    by_contra hnone
    simp only [not_exists, not_and, not_or, Nat.not_lt, Nat.le_zero] at hnone
    rcases h with h | h
    · exact h ((sum_eq_zero_iff_forall _ _).mpr fun e he => (hnone e he).2)
    · exact h ((sum_eq_zero_iff_forall _ _).mpr fun e he => (hnone e he).1)
  · rintro ⟨e, he, h | h⟩
    · right
      intro h0
      have := (sum_eq_zero_iff_forall _ _).mp h0 e he
      omega
    · left
      intro h0
      have := (sum_eq_zero_iff_forall _ _).mp h0 e he
      omega

/-- C23.  On a call of `CalculateRenderPasses` that goes past the no-damage
early-out, outside a resourceless software draw and with the missing-high-res
abort not applying (high resolution is not required, or no entry reports a
missing or incomplete tile): the result is `DRAW_ABORTED_CHECKERBOARD_ANIMATIONS`
exactly when the host does not commit to the active tree and some iterated entry
reports a missing tile while its screen-space transform is animating or while
its layer has never been ready since its last transform animation (the flag was
not set when the call started, and no earlier entry of the same layer has set it
by reporting no missing tile); in every other case the result is
`DRAW_SUCCESS`. -/
theorem checkerboard_abort_iff (h : DrawHost) (frame : FrameData)
    (hpast : CalculateRenderPasses h frame =
      some (assembleFrame h (TrackDamageForAllSurfaces h.active_tree_) frame))
    (hsoft : h.resourceless_software_draw_ = false)
    (hhighres : RequiresHighResToDraw h = false ∨
      ∀ e ∈ h.active_tree_.layer_iterator,
        e.reportedMissingTiles = 0 ∧ e.reportedIncompleteTiles = 0) :
    ∃ r, CalculateRenderPasses h frame = some r ∧
      (r.1 = DrawResult.DRAW_ABORTED_CHECKERBOARD_ANIMATIONS ↔
        h.CommitToActiveTree = false ∧
        ∃ (pre : List IteratorEntry) (e : IteratorEntry) (post : List IteratorEntry),
          h.active_tree_.layer_iterator = pre ++ e :: post ∧ 0 < e.reportedMissingTiles ∧
          (e.screen_space_transform_is_animating = true ∨
            (e.layer_id ∉ h.active_tree_.ever_ready_layers ∧
              ∀ e' ∈ pre, e'.layer_id = e.layer_id → 0 < e'.reportedMissingTiles))) ∧
      (r.1 ≠ DrawResult.DRAW_ABORTED_CHECKERBOARD_ANIMATIONS → r.1 = DrawResult.DRAW_SUCCESS) := by
  have hflag := have_missing_animated_tiles_iff (TrackDamageForAllSurfaces h.active_tree_) frame
  have htiles := tiles_reported_iff (TrackDamageForAllSurfaces h.active_tree_) frame
  have hit : (TrackDamageForAllSurfaces h.active_tree_).layer_iterator =
      h.active_tree_.layer_iterator := rfl
  have hready : (TrackDamageForAllSurfaces h.active_tree_).ever_ready_layers =
      h.active_tree_.ever_ready_layers := rfl
  rw [hit, hready] at hflag
  rw [hit] at htiles
  have hno_abort : ((decide ((iterateLayers (TrackDamageForAllSurfaces h.active_tree_)
        frame).num_incomplete_tiles ≠ 0) ||
      decide ((iterateLayers (TrackDamageForAllSurfaces h.active_tree_)
        frame).num_missing_tiles ≠ 0)) && RequiresHighResToDraw h) = false := by
    rcases hhighres with hreq | hnone
    · simp [hreq]
    · have : ¬ ((iterateLayers (TrackDamageForAllSurfaces h.active_tree_)
          frame).num_incomplete_tiles ≠ 0 ∨
          (iterateLayers (TrackDamageForAllSurfaces h.active_tree_)
            frame).num_missing_tiles ≠ 0) := by
        rw [htiles]
        rintro ⟨e, he, h1 | h1⟩
        · have := (hnone e he).1; omega
        · have := (hnone e he).2; omega
      simp only [not_or, not_not] at this
      simp [this.1, this.2]
  refine ⟨_, hpast, ?_, ?_⟩
  · simp only [assembleFrame, drawResultAfterIteration, hsoft, hno_abort, Bool.false_eq_true,
      if_false]
    rw [← hflag]
    by_cases hf : (iterateLayers (TrackDamageForAllSurfaces h.active_tree_)
        frame).have_missing_animated_tiles = true
    · by_cases hc : h.CommitToActiveTree = true
      · simp [hf, hc]
      · simp [hf, hc]
    · simp [hf]
  · simp only [assembleFrame, drawResultAfterIteration, hsoft, hno_abort, Bool.false_eq_true,
      if_false]
    intro hne
    split_ifs at hne ⊢
    · exact absurd rfl hne
    · rfl

theorem checkerboard_abort_iff_witness :
    ∃ r, CalculateRenderPasses (drawHost (drawScene [] false 1 true) true) freshFrame = some r ∧
      (r.1 = DrawResult.DRAW_ABORTED_CHECKERBOARD_ANIMATIONS ↔
        (drawHost (drawScene [] false 1 true) true).CommitToActiveTree = false ∧
        ∃ (pre : List IteratorEntry) (e : IteratorEntry) (post : List IteratorEntry),
          (drawHost (drawScene [] false 1 true) true).active_tree_.layer_iterator =
            pre ++ e :: post ∧ 0 < e.reportedMissingTiles ∧
          (e.screen_space_transform_is_animating = true ∨
            (e.layer_id ∉ (drawHost (drawScene [] false 1 true) true).active_tree_.ever_ready_layers ∧
              ∀ e' ∈ pre, e'.layer_id = e.layer_id → 0 < e'.reportedMissingTiles))) ∧
      (r.1 ≠ DrawResult.DRAW_ABORTED_CHECKERBOARD_ANIMATIONS → r.1 = DrawResult.DRAW_SUCCESS) :=
  checkerboard_abort_iff (drawHost (drawScene [] false 1 true) true) freshFrame
    (by decide) rfl (Or.inl rfl)

/-- C24.  On a call of `CalculateRenderPasses` that goes past the no-damage
early-out, outside a resourceless software draw: when `RequiresHighResToDraw()`
holds and some iterated entry reports a missing or an incomplete tile, the
result is `DRAW_ABORTED_MISSING_HIGH_RES_CONTENT`, whatever the checkerboard
flag.  And when `RequiresHighResToDraw()` is false no call returns
`DRAW_ABORTED_MISSING_HIGH_RES_CONTENT`. -/
theorem missing_high_res_abort (h : DrawHost) (frame : FrameData) :
    (CalculateRenderPasses h frame =
        some (assembleFrame h (TrackDamageForAllSurfaces h.active_tree_) frame) →
      h.resourceless_software_draw_ = false → RequiresHighResToDraw h = true →
      (∃ e ∈ h.active_tree_.layer_iterator,
        0 < e.reportedMissingTiles ∨ 0 < e.reportedIncompleteTiles) →
      ∃ r, CalculateRenderPasses h frame = some r ∧
        r.1 = DrawResult.DRAW_ABORTED_MISSING_HIGH_RES_CONTENT) ∧
    (RequiresHighResToDraw h = false →
      ∀ r, CalculateRenderPasses h frame = some r →
        r.1 ≠ DrawResult.DRAW_ABORTED_MISSING_HIGH_RES_CONTENT) := by
  constructor
  · intro hpast hsoft hreq htile
    have htiles := (tiles_reported_iff (TrackDamageForAllSurfaces h.active_tree_) frame).mpr
      htile
    refine ⟨_, hpast, ?_⟩
    have habort : ((decide ((iterateLayers (TrackDamageForAllSurfaces h.active_tree_)
          frame).num_incomplete_tiles ≠ 0) ||
        decide ((iterateLayers (TrackDamageForAllSurfaces h.active_tree_)
          frame).num_missing_tiles ≠ 0)) && RequiresHighResToDraw h) = true := by
      rcases htiles with h1 | h1
      · simp [h1, hreq]
      · simp [h1, hreq]
    simp only [assembleFrame, drawResultAfterIteration, hsoft, habort, Bool.false_eq_true,
      if_false, if_true]
  · intro hreq r hr
    simp only [CalculateRenderPasses] at hr
    split at hr
    · split_ifs at hr
      · simp only [Option.some.injEq] at hr
        rw [← hr]
        simp
      · simp only [Option.some.injEq] at hr
        rw [← hr]
        simp only [assembleFrame, drawResultAfterIteration, hreq, Bool.and_false,
          Bool.false_eq_true, if_false]
        split_ifs <;> simp
    · simp at hr

theorem missing_high_res_abort_witness :
    (∃ r,
      CalculateRenderPasses
        { drawHost (drawScene [] false 1 true) true with
          memory := { visibleHostWithPool with requires_high_res_to_draw_ := true } }
        freshFrame = some r ∧
      r.1 = DrawResult.DRAW_ABORTED_MISSING_HIGH_RES_CONTENT) ∧
    (∀ r, CalculateRenderPasses (drawHost (drawScene [] false 1 true) true) freshFrame = some r →
      r.1 ≠ DrawResult.DRAW_ABORTED_MISSING_HIGH_RES_CONTENT) :=
  ⟨(missing_high_res_abort
      { drawHost (drawScene [] false 1 true) true with
        memory := { visibleHostWithPool with requires_high_res_to_draw_ := true } }
      freshFrame).1 (by decide) rfl rfl ⟨contentLayerEntry 1 true, by decide, by decide⟩,
    (missing_high_res_abort (drawHost (drawScene [] false 1 true) true) freshFrame).2 rfl⟩


/-! ## Scroll routing: `TryScroll` -/

theorem tryScroll_thread (h : ScrollHost) (screen_space_point : Vector2dF)
    (type : ScrollInputType) (scroll_node : ScrollNode) :
    (TryScroll h screen_space_point type scroll_node).thread =
      if scroll_node.main_thread_scrolling_reasons ≠ 0 then ScrollThread.SCROLL_ON_MAIN_THREAD
      else if (h.scroll_tree.ScreenSpaceTransform scroll_node.id).IsInvertible = false then
        ScrollThread.SCROLL_IGNORED
      else if pointInNonFastScrollableRegion h screen_space_point scroll_node then
        ScrollThread.SCROLL_ON_MAIN_THREAD
      else if scroll_node.scrollable = false then ScrollThread.SCROLL_IGNORED
      else if scroll_node.max_scroll_offset.x ≤ 0 ∧ scroll_node.max_scroll_offset.y ≤ 0 then
        ScrollThread.SCROLL_IGNORED
      else ScrollThread.SCROLL_ON_IMPL_THREAD := by
  unfold TryScroll pointInNonFastScrollableRegion
  simp only [Bool.not_eq_true']
  split_ifs <;> rfl

/-- C25.  `TryScroll` returns `SCROLL_ON_IMPL_THREAD` exactly when the node
declares no main-thread scrolling reasons, its screen-space transform is
invertible, the point does not fall inside its non-fast-scrollable region, the
node is scrollable, and its max scroll offset is positive on at least one axis.
A node that meets every condition but the last gets `SCROLL_IGNORED` (with
reason `kNotScrollable`), not `SCROLL_ON_MAIN_THREAD`. -/
theorem tryScroll_on_impl_thread_iff (h : ScrollHost) (screen_space_point : Vector2dF)
    (type : ScrollInputType) (scroll_node : ScrollNode) :
    ((TryScroll h screen_space_point type scroll_node).thread =
        ScrollThread.SCROLL_ON_IMPL_THREAD ↔
      scroll_node.main_thread_scrolling_reasons = 0 ∧
      (h.scroll_tree.ScreenSpaceTransform scroll_node.id).IsInvertible = true ∧
      pointInNonFastScrollableRegion h screen_space_point scroll_node = false ∧
      scroll_node.scrollable = true ∧
      (0 < scroll_node.max_scroll_offset.x ∨ 0 < scroll_node.max_scroll_offset.y)) ∧
    (scroll_node.main_thread_scrolling_reasons = 0 →
      (h.scroll_tree.ScreenSpaceTransform scroll_node.id).IsInvertible = true →
      pointInNonFastScrollableRegion h screen_space_point scroll_node = false →
      scroll_node.scrollable = true →
      scroll_node.max_scroll_offset.x ≤ 0 → scroll_node.max_scroll_offset.y ≤ 0 →
      TryScroll h screen_space_point type scroll_node =
        { thread := ScrollThread.SCROLL_IGNORED
          main_thread_scrolling_reasons := MainThreadScrollingReason.kNotScrollable }) := by
  constructor
  · rw [tryScroll_thread]
    constructor
    · intro hthread
      split_ifs at hthread with h1 h2 h3 h4 h5
      refine ⟨by simpa using h1, by simpa using h2, by simpa using h3, by simpa using h4, ?_⟩
      by_contra hneg
      simp only [not_or, not_lt] at hneg
      exact h5 hneg
    · rintro ⟨h1, h2, h3, h4, h5⟩
      have h5' : ¬ (scroll_node.max_scroll_offset.x ≤ 0 ∧ scroll_node.max_scroll_offset.y ≤ 0) := by
        rintro ⟨hx, hy⟩
        rcases h5 with h5 | h5
        · exact absurd hx (not_le.mpr h5)
        · exact absurd hy (not_le.mpr h5)
      simp [h1, h2, h3, h4, h5']
  · intro h1 h2 h3 h4 hx hy
    unfold pointInNonFastScrollableRegion at h3
    unfold TryScroll
    simp only [h1, ne_eq, not_true_eq_false, if_false, h2, Bool.not_true, Bool.false_eq_true,
      h4, hx, hy, and_self, if_true]
    simp only [h3, Bool.false_eq_true, if_false]

theorem tryScroll_on_impl_thread_iff_witness :
    (TryScroll (childScene true) ⟨10, 10⟩ ScrollInputType.WHEEL
        { fixedNode 3 4 (some 2) true with max_scroll_offset := ⟨100, 0⟩ }).thread =
      ScrollThread.SCROLL_ON_IMPL_THREAD ∧
    TryScroll (childScene true) ⟨10, 10⟩ ScrollInputType.WHEEL (fixedNode 2 3 (some 1) true) =
      { thread := ScrollThread.SCROLL_IGNORED
        main_thread_scrolling_reasons := MainThreadScrollingReason.kNotScrollable } :=
  ⟨(tryScroll_on_impl_thread_iff (childScene true) ⟨10, 10⟩ ScrollInputType.WHEEL
      { fixedNode 3 4 (some 2) true with max_scroll_offset := ⟨100, 0⟩ }).1.mpr
      ⟨rfl, rfl, by decide!, rfl, Or.inl (by decide!)⟩,
    (tryScroll_on_impl_thread_iff (childScene true) ⟨10, 10⟩ ScrollInputType.WHEEL
      (fixedNode 2 3 (some 1) true)).2 rfl rfl (by decide!) rfl (by decide!) (by decide!)⟩


/-! ## Scroll routing: `FindScrollLayerForDeviceViewportPoint` -/

/-- C26, as stated, fails.  In the child scene a point outside the child hits the
outer viewport scroll layer; no node on the walk scrolls on the impl thread (the
viewport nodes have no scroll range), so the viewport's main scroll layer is
returned, and `TryScroll` on its scroll node yields `SCROLL_IGNORED`, not
`SCROLL_ON_IMPL_THREAD`. -/
theorem returned_viewport_layer_is_not_impl_eligible :
    (FindScrollLayerForDeviceViewportPoint (childScene true) ⟨60, 60⟩ ScrollInputType.WHEEL
        ((childScene true).LayerById 3)).layer = some ⟨3, 2, true, true⟩ ∧
    (childScene true).scroll_tree.Node 2 = some (fixedNode 2 3 (some 1) true) ∧
    (TryScroll (childScene true) ⟨60, 60⟩ ScrollInputType.WHEEL
        (fixedNode 2 3 (some 1) true)).thread = ScrollThread.SCROLL_IGNORED := by
  decide!

theorem findScrollLayerLoop_ok (h : ScrollHost) (device_viewport_point : Vector2dF)
    (type : ScrollInputType) (walk : List ScrollNode) :
    ∀ (found result : Option LayerImpl),
      findScrollLayerLoop h device_viewport_point type walk found = Except.ok result →
      result =
        match found with
        | some l => some l
        | none => firstImplThreadOwner h device_viewport_point type walk := by
  induction walk with
  | nil =>
    intro found result hr
    simp only [findScrollLayerLoop, Except.ok.injEq] at hr
    subst hr
    cases found <;> rfl
  | cons n rest ih =>
    intro found result hr
    simp only [findScrollLayerLoop] at hr
    by_cases hmain : IsMainThreadScrolling (TryScroll h device_viewport_point type n) n = true
    · simp [hmain] at hr
    · simp only [hmain, Bool.false_eq_true, if_false] at hr
      by_cases himpl : (TryScroll h device_viewport_point type n).thread =
          ScrollThread.SCROLL_ON_IMPL_THREAD
      · cases found with
        | some l =>
          simp only [himpl, true_and, reduceCtorEq, if_false] at hr
          exact ih _ _ hr
        | none =>
          simp only [himpl, and_self, if_true] at hr
          have := ih _ _ hr
          rw [this]
          simp only [firstImplThreadOwner, List.filterMap_cons, himpl, if_true]
          cases h.LayerById n.owner_id <;> rfl
      · simp only [himpl, false_and, if_false] at hr
        have := ih _ _ hr
        rw [this]
        cases found with
        | some l => rfl
        | none => simp only [firstImplThreadOwner, List.filterMap_cons, himpl, if_false]

/-- C26, amended.  Every layer returned by
`FindScrollLayerForDeviceViewportPoint` does not scroll on the main thread:
`TryScroll` on its scroll node yields `SCROLL_ON_IMPL_THREAD` or
`SCROLL_IGNORED`.  And it is the owner of the first node, walking from the hit
layer's scroll node toward the root (the parentless root left out), for which
`TryScroll` yields `SCROLL_ON_IMPL_THREAD`, except that the viewport's main
scroll layer is returned when no node qualifies or when the qualifying layer is
the inner or the outer viewport scroll layer. -/
theorem found_scroll_layer (h : ScrollHost) (device_viewport_point : Vector2dF)
    (type : ScrollInputType) (layer_impl : Option LayerImpl) (l : LayerImpl)
    (hfound : (FindScrollLayerForDeviceViewportPoint h device_viewport_point type
      layer_impl).layer = some l) :
    (∀ n, h.scroll_tree.Node l.scroll_tree_index = some n →
      (TryScroll h device_viewport_point type n).thread = ScrollThread.SCROLL_ON_IMPL_THREAD ∨
      (TryScroll h device_viewport_point type n).thread = ScrollThread.SCROLL_IGNORED) ∧
    some l = withViewportFallback h
      (firstImplThreadOwner h device_viewport_point type (scrollAncestorWalk h layer_impl)) := by
  have hthreads : ∀ n, (TryScroll h device_viewport_point type n).thread ≠
      ScrollThread.SCROLL_ON_MAIN_THREAD →
      (TryScroll h device_viewport_point type n).thread = ScrollThread.SCROLL_ON_IMPL_THREAD ∨
      (TryScroll h device_viewport_point type n).thread = ScrollThread.SCROLL_IGNORED := by
    intro n hn
    rw [tryScroll_thread] at hn ⊢
    split_ifs at hn ⊢ <;> simp_all
  -- the walk ended without a main-thread node, on the first qualifying owner
  have hwalk : ∀ walked : Except ScrollStatus (Option LayerImpl),
      walked = (match layer_impl.bind (fun l => h.scroll_tree.Node l.scroll_tree_index) with
        | some scroll_node =>
          findScrollLayerLoop h device_viewport_point type
            (h.scroll_tree.walkToRoot h.scroll_tree.nodes.length scroll_node) none
        | none => Except.ok none) →
      ∀ r, walked = Except.ok r →
        r = firstImplThreadOwner h device_viewport_point type (scrollAncestorWalk h layer_impl) := by
    intro walked hw r hr
    rw [hw] at hr
    unfold scrollAncestorWalk
    cases hnode : layer_impl.bind (fun l => h.scroll_tree.Node l.scroll_tree_index) with
    | none =>
      simp only [hnode, Except.ok.injEq] at hr
      rw [← hr]
      rfl
    | some scroll_node =>
      simp only [hnode] at hr
      exact findScrollLayerLoop_ok h device_viewport_point type _ none r hr
  unfold FindScrollLayerForDeviceViewportPoint at hfound
  simp only at hfound
  generalize hwd : (match layer_impl.bind (fun l => h.scroll_tree.Node l.scroll_tree_index) with
      | some scroll_node =>
        findScrollLayerLoop h device_viewport_point type
          (h.scroll_tree.walkToRoot h.scroll_tree.nodes.length scroll_node) none
      | none => Except.ok none) = walked at hfound
  cases walked with
  | error status => simp at hfound
  | ok r =>
    have hr := hwalk _ hwd.symm r rfl
    simp only at hfound
    subst hr
    unfold withViewportFallback
    generalize (match firstImplThreadOwner h device_viewport_point type
        (scrollAncestorWalk h layer_impl) with
      | none => h.viewport_main_scroll_layer.bind h.LayerById
      | some l =>
        if some l.id = h.outer_viewport_scroll_layer ∨
            some l.id = h.inner_viewport_scroll_layer
        then h.viewport_main_scroll_layer.bind h.LayerById
        else some l) = chosen at hfound ⊢
    cases hnode : chosen.bind (fun l => h.scroll_tree.Node l.scroll_tree_index) with
    | none =>
      simp only [hnode] at hfound
      refine ⟨?_, hfound.symm⟩
      intro n hn
      rw [hfound] at hnode
      simp only [Option.some_bind] at hnode
      rw [hn] at hnode
      exact absurd hnode (by simp)
    | some scroll_node =>
      simp only [hnode] at hfound
      by_cases hmain : IsMainThreadScrolling
          (TryScroll h device_viewport_point type scroll_node) scroll_node = true
      · simp [hmain] at hfound
      · simp only [hmain, Bool.false_eq_true, if_false] at hfound
        refine ⟨?_, hfound.symm⟩
        intro n hn
        rw [hfound] at hnode
        simp only [Option.some_bind] at hnode
        rw [hn] at hnode
        simp only [Option.some.injEq] at hnode
        subst hnode
        apply hthreads
        intro hm
        apply hmain
        simp [IsMainThreadScrolling, hm]

theorem found_scroll_layer_witness :
    (∀ n, (childScene true).scroll_tree.Node (⟨4, 3, true, true⟩ : LayerImpl).scroll_tree_index =
        some n →
      (TryScroll (childScene true) ⟨10, 10⟩ ScrollInputType.WHEEL n).thread =
        ScrollThread.SCROLL_ON_IMPL_THREAD ∨
      (TryScroll (childScene true) ⟨10, 10⟩ ScrollInputType.WHEEL n).thread =
        ScrollThread.SCROLL_IGNORED) ∧
    some (⟨4, 3, true, true⟩ : LayerImpl) = withViewportFallback (childScene true)
      (firstImplThreadOwner (childScene true) ⟨10, 10⟩ ScrollInputType.WHEEL
        (scrollAncestorWalk (childScene true) ((childScene true).LayerById 4))) :=
  found_scroll_layer (childScene true) ⟨10, 10⟩ ScrollInputType.WHEEL
    ((childScene true).LayerById 4) ⟨4, 3, true, true⟩ (by decide!)


/-! ## Scroll routing: the 45-degree tie-break of `ApplyScroll` -/

/-- C27.  `ApplyScroll` on a node that is neither the viewport's main scroll
layer nor the inner viewport scroll layer, whose applied delta (the result of
`ScrollSingleNode`) exceeds 0.1 in absolute value on some axis: when the applied
delta is within 45 degrees of the requested delta, the delta consumed from the
scroll state is the whole requested delta and the delta left is zero on both
axes; otherwise the delta consumed is the projection of the requested delta on
the applied delta, and the delta left is the requested delta minus that
projection. -/
theorem tie_break_consumes_whole_delta_or_projection (h : ScrollHost) (n : ScrollNode)
    (st : ScrollState) (inner_id : Nat)
    (hinner : h.inner_viewport_scroll_layer = some inner_id)
    (hmain : h.viewport_main_scroll_layer ≠ some n.owner_id)
    (hnotinner : n.owner_id ≠ inner_id)
    (hscrolled :
      |(ScrollSingleNode h n ⟨st.delta_x, st.delta_y⟩ ⟨st.position_x, st.position_y⟩
          st.is_direct_manipulation).2.x| > kEpsilon ∨
      |(ScrollSingleNode h n ⟨st.delta_x, st.delta_y⟩ ⟨st.position_x, st.position_y⟩
          st.is_direct_manipulation).2.y| > kEpsilon) :
    ∃ (h1 : ScrollHost) (st1 : ScrollState),
      ApplyScroll h n st = some (h1, st1) ∧
      (angleBelow45
          (ScrollSingleNode h n ⟨st.delta_x, st.delta_y⟩ ⟨st.position_x, st.position_y⟩
            st.is_direct_manipulation).2 ⟨st.delta_x, st.delta_y⟩ = true →
        (⟨st.delta_x - st1.delta_x, st.delta_y - st1.delta_y⟩ : Vector2dF) =
          ⟨st.delta_x, st.delta_y⟩ ∧
        st1.delta_x = 0 ∧ st1.delta_y = 0) ∧
      (angleBelow45
          (ScrollSingleNode h n ⟨st.delta_x, st.delta_y⟩ ⟨st.position_x, st.position_y⟩
            st.is_direct_manipulation).2 ⟨st.delta_x, st.delta_y⟩ = false →
        (⟨st.delta_x - st1.delta_x, st.delta_y - st1.delta_y⟩ : Vector2dF) =
          ProjectVector ⟨st.delta_x, st.delta_y⟩
            (ScrollSingleNode h n ⟨st.delta_x, st.delta_y⟩ ⟨st.position_x, st.position_y⟩
              st.is_direct_manipulation).2 ∧
        (⟨st1.delta_x, st1.delta_y⟩ : Vector2dF) =
          (⟨st.delta_x, st.delta_y⟩ : Vector2dF).sub
            (ProjectVector ⟨st.delta_x, st.delta_y⟩
              (ScrollSingleNode h n ⟨st.delta_x, st.delta_y⟩ ⟨st.position_x, st.position_y⟩
                st.is_direct_manipulation).2)) := by
  have hb : (decide (|(ScrollSingleNode h n ⟨st.delta_x, st.delta_y⟩
        ⟨st.position_x, st.position_y⟩ st.is_direct_manipulation).2.x| > kEpsilon) ||
      decide (|(ScrollSingleNode h n ⟨st.delta_x, st.delta_y⟩
        ⟨st.position_x, st.position_y⟩ st.is_direct_manipulation).2.y| > kEpsilon)) = true := by
    simpa using hscrolled
  refine ⟨(ScrollSingleNode h n ⟨st.delta_x, st.delta_y⟩ ⟨st.position_x, st.position_y⟩
      st.is_direct_manipulation).1,
    { ((st.set_caused_scroll
          (decide (|(appliedDeltaAfterTieBreak
            (ScrollSingleNode h n ⟨st.delta_x, st.delta_y⟩ ⟨st.position_x, st.position_y⟩
              st.is_direct_manipulation).2 ⟨st.delta_x, st.delta_y⟩).x| > kEpsilon))
          (decide (|(appliedDeltaAfterTieBreak
            (ScrollSingleNode h n ⟨st.delta_x, st.delta_y⟩ ⟨st.position_x, st.position_y⟩
              st.is_direct_manipulation).2 ⟨st.delta_x, st.delta_y⟩).y| > kEpsilon))).ConsumeDelta
        (appliedDeltaAfterTieBreak
          (ScrollSingleNode h n ⟨st.delta_x, st.delta_y⟩ ⟨st.position_x, st.position_y⟩
            st.is_direct_manipulation).2 ⟨st.delta_x, st.delta_y⟩).x
        (appliedDeltaAfterTieBreak
          (ScrollSingleNode h n ⟨st.delta_x, st.delta_y⟩ ⟨st.position_x, st.position_y⟩
            st.is_direct_manipulation).2 ⟨st.delta_x, st.delta_y⟩).y) with
      current_native_scrolling_node := some n.id }, ?_, ?_, ?_⟩
  · simp only [ApplyScroll, hinner, hmain, hnotinner, decide_False, Bool.or_self,
      Bool.false_eq_true, if_false, hb, Bool.not_true, Bool.not_false, Bool.and_self, if_true]
  · intro hangle
    simp [appliedDeltaAfterTieBreak, hangle, ScrollState.ConsumeDelta,
      ScrollState.set_caused_scroll]
  · intro hangle
    simp [appliedDeltaAfterTieBreak, hangle, ScrollState.ConsumeDelta,
      ScrollState.set_caused_scroll, Vector2dF.sub]

theorem tie_break_consumes_whole_delta_or_projection_witness :
    ∃ (h1 : ScrollHost) (st1 : ScrollState),
      ApplyScroll (childScene true) childNode (scrollStateAt 10 150) = some (h1, st1) ∧
      (angleBelow45
          (ScrollSingleNode (childScene true) childNode
            ⟨(scrollStateAt 10 150).delta_x, (scrollStateAt 10 150).delta_y⟩
            ⟨(scrollStateAt 10 150).position_x, (scrollStateAt 10 150).position_y⟩
            (scrollStateAt 10 150).is_direct_manipulation).2
          ⟨(scrollStateAt 10 150).delta_x, (scrollStateAt 10 150).delta_y⟩ = true →
        (⟨(scrollStateAt 10 150).delta_x - st1.delta_x,
            (scrollStateAt 10 150).delta_y - st1.delta_y⟩ : Vector2dF) =
          ⟨(scrollStateAt 10 150).delta_x, (scrollStateAt 10 150).delta_y⟩ ∧
        st1.delta_x = 0 ∧ st1.delta_y = 0) ∧
      (angleBelow45
          (ScrollSingleNode (childScene true) childNode
            ⟨(scrollStateAt 10 150).delta_x, (scrollStateAt 10 150).delta_y⟩
            ⟨(scrollStateAt 10 150).position_x, (scrollStateAt 10 150).position_y⟩
            (scrollStateAt 10 150).is_direct_manipulation).2
          ⟨(scrollStateAt 10 150).delta_x, (scrollStateAt 10 150).delta_y⟩ = false →
        (⟨(scrollStateAt 10 150).delta_x - st1.delta_x,
            (scrollStateAt 10 150).delta_y - st1.delta_y⟩ : Vector2dF) =
          ProjectVector ⟨(scrollStateAt 10 150).delta_x, (scrollStateAt 10 150).delta_y⟩
            (ScrollSingleNode (childScene true) childNode
              ⟨(scrollStateAt 10 150).delta_x, (scrollStateAt 10 150).delta_y⟩
              ⟨(scrollStateAt 10 150).position_x, (scrollStateAt 10 150).position_y⟩
              (scrollStateAt 10 150).is_direct_manipulation).2 ∧
        (⟨st1.delta_x, st1.delta_y⟩ : Vector2dF) =
          (⟨(scrollStateAt 10 150).delta_x, (scrollStateAt 10 150).delta_y⟩ : Vector2dF).sub
            (ProjectVector ⟨(scrollStateAt 10 150).delta_x, (scrollStateAt 10 150).delta_y⟩
              (ScrollSingleNode (childScene true) childNode
                ⟨(scrollStateAt 10 150).delta_x, (scrollStateAt 10 150).delta_y⟩
                ⟨(scrollStateAt 10 150).position_x, (scrollStateAt 10 150).position_y⟩
                (scrollStateAt 10 150).is_direct_manipulation).2)) :=
  tie_break_consumes_whole_delta_or_projection (childScene true) childNode (scrollStateAt 10 150)
    2 rfl (by decide) (by decide) (by decide!)


/-! ## GPU rasterization decision: the stored flags and the stored status -/

/-- C29.  Whenever `UpdateGpuRasterizationStatus` runs with a compositor frame
sink present, the state it leaves has `use_gpu_rasterization_` true exactly when
`gpu_rasterization_status_` is `ON`, `ON_FORCED` or `MSAA_CONTENT`, and
`use_msaa_` true exactly when the status is `MSAA_CONTENT`, so that `use_msaa_`
implies `use_gpu_rasterization_`; whether the function returns true or false. -/
theorem flags_agree_with_status (s : GpuRasterState) (sink : CompositorFrameSink)
    (hsink : s.compositor_frame_sink_ = some sink) :
    ((UpdateGpuRasterizationStatus s).2.use_gpu_rasterization_ = true ↔
      (UpdateGpuRasterizationStatus s).2.gpu_rasterization_status_ = GpuRasterizationStatus.ON ∨
      (UpdateGpuRasterizationStatus s).2.gpu_rasterization_status_ =
        GpuRasterizationStatus.ON_FORCED ∨
      (UpdateGpuRasterizationStatus s).2.gpu_rasterization_status_ =
        GpuRasterizationStatus.MSAA_CONTENT) ∧
    ((UpdateGpuRasterizationStatus s).2.use_msaa_ = true ↔
      (UpdateGpuRasterizationStatus s).2.gpu_rasterization_status_ =
        GpuRasterizationStatus.MSAA_CONTENT) ∧
    ((UpdateGpuRasterizationStatus s).2.use_msaa_ = true →
      (UpdateGpuRasterizationStatus s).2.use_gpu_rasterization_ = true) := by
  cases h1 : s.gpu_rasterization_forced <;>
    cases h2 : s.gpu_rasterization_enabled <;>
    cases h3 : s.has_gpu_rasterization_trigger_ <;>
    cases h4 : s.content_is_suitable_for_gpu_rasterization_ <;>
    cases h5 : (decide (RequestedMSAASampleCount s > 0) &&
      decide (maxMsaaSamples sink ≥ RequestedMSAASampleCount s)) <;>
    cases h6 : s.use_gpu_rasterization_ <;>
    cases h7 : s.use_msaa_ <;>
    cases h8 : CanUseGpuRasterization s <;>
    simp only [UpdateGpuRasterizationStatus, hsink, h1, h2, h3, h4, h5, h6, h7, h8] <;>
    simp

theorem flags_agree_with_status_witness :
    ((UpdateGpuRasterizationStatus (gpuHost true true)).2.use_gpu_rasterization_ = true ↔
      (UpdateGpuRasterizationStatus (gpuHost true true)).2.gpu_rasterization_status_ =
        GpuRasterizationStatus.ON ∨
      (UpdateGpuRasterizationStatus (gpuHost true true)).2.gpu_rasterization_status_ =
        GpuRasterizationStatus.ON_FORCED ∨
      (UpdateGpuRasterizationStatus (gpuHost true true)).2.gpu_rasterization_status_ =
        GpuRasterizationStatus.MSAA_CONTENT) ∧
    ((UpdateGpuRasterizationStatus (gpuHost true true)).2.use_msaa_ = true ↔
      (UpdateGpuRasterizationStatus (gpuHost true true)).2.gpu_rasterization_status_ =
        GpuRasterizationStatus.MSAA_CONTENT) ∧
    ((UpdateGpuRasterizationStatus (gpuHost true true)).2.use_msaa_ = true →
      (UpdateGpuRasterizationStatus (gpuHost true true)).2.use_gpu_rasterization_ = true) :=
  flags_agree_with_status (gpuHost true true)
    { context_provider := some { msaa_is_slow := false, max_samples := 8 }
      worker_context_provider := some true } rfl


/-! ## UI resources: no id is both mapped and evicted -/

theorem markUIResourceNotEvicted_members (r : UIResources) (uid : Nat) :
    (MarkUIResourceNotEvicted r uid).1.ui_resource_map_ = r.ui_resource_map_ ∧
    (MarkUIResourceNotEvicted r uid).1.has_valid_compositor_frame_sink_ =
      r.has_valid_compositor_frame_sink_ ∧
    ∀ x, x ∈ (MarkUIResourceNotEvicted r uid).1.evicted_ui_resources_ ↔
      x ∈ r.evicted_ui_resources_ ∧ x ≠ uid := by
  unfold MarkUIResourceNotEvicted
  by_cases hm : uid ∈ r.evicted_ui_resources_
  · rw [if_pos hm]
    refine ⟨rfl, rfl, fun x => ?_⟩
    simp [List.mem_filter]
  · rw [if_neg hm]
    refine ⟨rfl, rfl, fun x => ⟨fun hx => ⟨hx, fun e => hm (e ▸ hx)⟩, fun hx => hx.1⟩⟩

theorem deleteUIResource_members (r : UIResources) (uid : Nat) :
    (DeleteUIResource r uid).1.has_valid_compositor_frame_sink_ =
      r.has_valid_compositor_frame_sink_ ∧
    (∀ x, x ∈ (DeleteUIResource r uid).1.ui_resource_map_ ↔
      x ∈ r.ui_resource_map_ ∧ x ≠ uid) ∧
    ∀ x, x ∈ (DeleteUIResource r uid).1.evicted_ui_resources_ ↔
      x ∈ r.evicted_ui_resources_ ∧ x ≠ uid := by
  unfold DeleteUIResource
  by_cases hm : uid ∈ r.ui_resource_map_
  · rw [if_pos hm]
    obtain ⟨m1, m2, m3⟩ := markUIResourceNotEvicted_members
      { r with ui_resource_map_ := r.ui_resource_map_.filter fun e => e ≠ uid } uid
    refine ⟨m2, fun x => ?_, m3⟩
    rw [m1]
    simp [List.mem_filter]
  · rw [if_neg hm]
    obtain ⟨m1, m2, m3⟩ := markUIResourceNotEvicted_members r uid
    refine ⟨m2, fun x => ?_, m3⟩
    rw [m1]
    exact ⟨fun hx => ⟨hx, fun e => hm (e ▸ hx)⟩, fun hx => hx.1⟩

theorem createUIResource_members (r : UIResources) (uid : Nat) :
    (CreateUIResource r uid).1.has_valid_compositor_frame_sink_ =
      r.has_valid_compositor_frame_sink_ ∧
    (r.has_valid_compositor_frame_sink_ = true →
      (∀ x, x ∈ (CreateUIResource r uid).1.ui_resource_map_ ↔
        x ∈ r.ui_resource_map_ ∨ x = uid) ∧
      ∀ x, x ∈ (CreateUIResource r uid).1.evicted_ui_resources_ ↔
        x ∈ r.evicted_ui_resources_ ∧ x ≠ uid) ∧
    (r.has_valid_compositor_frame_sink_ = false →
      (∀ x, x ∈ (CreateUIResource r uid).1.ui_resource_map_ ↔
        x ∈ r.ui_resource_map_ ∧ x ≠ uid) ∧
      ∀ x, x ∈ (CreateUIResource r uid).1.evicted_ui_resources_ ↔
        x ∈ r.evicted_ui_resources_ ∨ x = uid) := by
  -- the state after the conditional `DeleteUIResource(uid)`
  have hdeleted : ∀ d : UIResources × List ActivationCall,
      d = (if uid ∈ r.ui_resource_map_ then DeleteUIResource r uid else (r, [])) →
      d.1.has_valid_compositor_frame_sink_ = r.has_valid_compositor_frame_sink_ ∧
      (∀ x, x ∈ d.1.ui_resource_map_ ↔ x ∈ r.ui_resource_map_ ∧ x ≠ uid) ∧
      (uid ∈ r.ui_resource_map_ →
        ∀ x, x ∈ d.1.evicted_ui_resources_ ↔ x ∈ r.evicted_ui_resources_ ∧ x ≠ uid) ∧
      (uid ∉ r.ui_resource_map_ → d.1.evicted_ui_resources_ = r.evicted_ui_resources_) := by
    intro d hd
    by_cases hm : uid ∈ r.ui_resource_map_
    · rw [if_pos hm] at hd
      subst hd
      obtain ⟨d1, d2, d3⟩ := deleteUIResource_members r uid
      exact ⟨d1, d2, fun _ => d3, fun hn => absurd hm hn⟩
    · rw [if_neg hm] at hd
      subst hd
      exact ⟨rfl, fun x => ⟨fun hx => ⟨hx, fun e => hm (e ▸ hx)⟩, fun hx => hx.1⟩,
        fun hy => absurd hy hm, fun _ => rfl⟩
  unfold CreateUIResource
  dsimp only
  generalize hd : (if uid ∈ r.ui_resource_map_ then DeleteUIResource r uid else (r, [])) = d
  obtain ⟨dv, dmap, dev1, dev2⟩ := hdeleted d hd.symm
  have dev : ∀ x, x ≠ uid → (x ∈ d.1.evicted_ui_resources_ ↔ x ∈ r.evicted_ui_resources_) := by
    intro x hx
    by_cases hm : uid ∈ r.ui_resource_map_
    · rw [dev1 hm x]
      exact ⟨fun h => h.1, fun h => ⟨h, hx⟩⟩
    · rw [dev2 hm]
  have dnot : uid ∉ d.1.ui_resource_map_ := fun hin => ((dmap uid).mp hin).2 rfl
  by_cases hvalid : r.has_valid_compositor_frame_sink_ = true
  · have hv : d.1.has_valid_compositor_frame_sink_ = true := dv.trans hvalid
    have hcond : ¬ ((!d.1.has_valid_compositor_frame_sink_) = true) := by simp [hv]
    rw [if_neg hcond]
    obtain ⟨m1, m2, m3⟩ := markUIResourceNotEvicted_members
      { d.1 with
        ui_resource_map_ :=
          if uid ∈ d.1.ui_resource_map_ then d.1.ui_resource_map_
          else uid :: d.1.ui_resource_map_ } uid
    refine ⟨m2.trans dv, fun _ => ⟨fun x => ?_, fun x => ?_⟩, fun hf => ?_⟩
    · rw [m1]
      simp only [dnot, if_false, List.mem_cons, dmap]
      constructor
      · rintro (h | h)
        · exact Or.inr h
        · exact Or.inl h.1
      · rintro (h | h)
        · by_cases hx : x = uid
          · exact Or.inl hx
          · exact Or.inr ⟨h, hx⟩
        · exact Or.inl h
    · rw [m3]
      constructor
      · rintro ⟨h1, h2⟩
        exact ⟨(dev x h2).mp h1, h2⟩
      · rintro ⟨h1, h2⟩
        exact ⟨(dev x h2).mpr h1, h2⟩
    · rw [hvalid] at hf
      exact absurd hf (by simp)
  · have hvalid' : r.has_valid_compositor_frame_sink_ = false := by simpa using hvalid
    have hv : d.1.has_valid_compositor_frame_sink_ = false := dv.trans hvalid'
    have hcond : (!d.1.has_valid_compositor_frame_sink_) = true := by simp [hv]
    rw [if_pos hcond]
    refine ⟨dv, fun ht => ?_, fun _ => ⟨fun x => dmap x, fun x => ?_⟩⟩
    · rw [hvalid'] at ht
      exact absurd ht (by simp)
    · by_cases hin : uid ∈ d.1.evicted_ui_resources_
      · simp only [hin, if_true]
        by_cases hx : x = uid
        · subst hx
          exact ⟨fun _ => Or.inr rfl, fun _ => hin⟩
        · rw [dev x hx]
          exact ⟨Or.inl, fun h => h.resolve_right hx⟩
      · simp only [hin, if_false, List.mem_cons]
        by_cases hx : x = uid
        · subst hx
          exact ⟨fun _ => Or.inr rfl, fun _ => Or.inl rfl⟩
        · rw [dev x hx]
          exact ⟨fun h => Or.inl (h.resolve_left hx), fun h => Or.inr (h.resolve_right hx)⟩

theorem clearUIResources_disjoint (r : UIResources) : (ClearUIResources r).disjoint := by
  intro uid huid
  simp [ClearUIResources] at huid

theorem stepUIResourceCall_disjoint (h : Host) (c : UIResourceCall)
    (hinv : h.activation.ui_resources.disjoint) :
    (stepUIResourceCall h c).activation.ui_resources.disjoint := by
  cases c with
  | CreateUIResource uid =>
    show (CreateUIResource h.activation.ui_resources uid).1.disjoint
    obtain ⟨-, hvalid, hnone⟩ := createUIResource_members h.activation.ui_resources uid
    intro x hx hev
    by_cases hv : h.activation.ui_resources.has_valid_compositor_frame_sink_ = true
    · obtain ⟨hmap, hevicted⟩ := hvalid hv
      obtain ⟨he1, he2⟩ := (hevicted x).mp hev
      rcases (hmap x).mp hx with hm | hm
      · exact hinv x hm he1
      · exact he2 hm
    · obtain ⟨hmap, hevicted⟩ := hnone (by simpa using hv)
      obtain ⟨hm1, hm2⟩ := (hmap x).mp hx
      rcases (hevicted x).mp hev with he | he
      · exact hinv x hm1 he
      · exact hm2 he
  | DeleteUIResource uid =>
    show (DeleteUIResource h.activation.ui_resources uid).1.disjoint
    obtain ⟨-, hmap, hevicted⟩ := deleteUIResource_members h.activation.ui_resources uid
    intro x hx hev
    exact hinv x ((hmap x).mp hx).1 ((hevicted x).mp hev).1
  | ClearUIResources =>
    show (ClearUIResources h.activation.ui_resources).disjoint
    exact clearUIResources_disjoint _
  | EvictAllUIResources =>
    simp only [stepUIResourceCall, EvictAllUIResources]
    by_cases he : h.activation.ui_resources.ui_resource_map_.isEmpty = true
    · simp only [he, if_true]
      exact hinv
    · simp only [he, Bool.false_eq_true, if_false]
      show (ClearUIResources h.activation.ui_resources).disjoint
      exact clearUIResources_disjoint _

theorem runUIResourceCalls_disjoint (calls : List UIResourceCall) :
    ∀ h : Host, h.activation.ui_resources.disjoint →
      (runUIResourceCalls h calls).activation.ui_resources.disjoint := by
  induction calls with
  | nil => intro h hinv; exact hinv
  | cons c rest ih =>
    intro h hinv
    exact ih _ (stepUIResourceCall_disjoint h c hinv)

/-- C30.  From a host in which no id is both mapped and evicted (as after
construction, where both sets are empty), every run of `CreateUIResource`,
`DeleteUIResource`, `ClearUIResources` and `EvictAllUIResources` calls ends in a
state in which no id is both a key of `ui_resource_map_` and a member of
`evicted_ui_resources_`.  And a `CreateUIResource(uid)` after the run leaves
the id evicted and unmapped without a valid frame sink, mapped and not evicted
with one. -/
theorem ui_resources_never_mapped_and_evicted (h : Host) (calls : List UIResourceCall)
    (hinv : h.activation.ui_resources.disjoint) :
    (runUIResourceCalls h calls).activation.ui_resources.disjoint ∧
    ∀ uid : Nat,
      ((runUIResourceCalls h calls).activation.ui_resources.has_valid_compositor_frame_sink_ =
          false →
        uid ∈ (stepUIResourceCall (runUIResourceCalls h calls)
          (UIResourceCall.CreateUIResource uid)).activation.ui_resources.evicted_ui_resources_ ∧
        uid ∉ (stepUIResourceCall (runUIResourceCalls h calls)
          (UIResourceCall.CreateUIResource uid)).activation.ui_resources.ui_resource_map_) ∧
      ((runUIResourceCalls h calls).activation.ui_resources.has_valid_compositor_frame_sink_ =
          true →
        uid ∈ (stepUIResourceCall (runUIResourceCalls h calls)
          (UIResourceCall.CreateUIResource uid)).activation.ui_resources.ui_resource_map_ ∧
        uid ∉ (stepUIResourceCall (runUIResourceCalls h calls)
          (UIResourceCall.CreateUIResource uid)).activation.ui_resources.evicted_ui_resources_) := by
  refine ⟨runUIResourceCalls_disjoint calls h hinv, fun uid => ?_⟩
  obtain ⟨-, hvalid, hnone⟩ := createUIResource_members
    (runUIResourceCalls h calls).activation.ui_resources uid
  constructor
  · intro hf
    obtain ⟨hmap, hevicted⟩ := hnone hf
    exact ⟨(hevicted uid).mpr (Or.inr rfl), fun hin => ((hmap uid).mp hin).2 rfl⟩
  · intro ht
    obtain ⟨hmap, hevicted⟩ := hvalid ht
    exact ⟨(hmap uid).mpr (Or.inr rfl), fun hin => ((hevicted uid).mp hin).2 rfl⟩

theorem ui_resources_never_mapped_and_evicted_witness :
    (runUIResourceCalls (exampleHost true)
      [UIResourceCall.CreateUIResource 7, UIResourceCall.DeleteUIResource 7,
       UIResourceCall.CreateUIResource 8, UIResourceCall.ClearUIResources,
       UIResourceCall.CreateUIResource 9,
       UIResourceCall.EvictAllUIResources]).activation.ui_resources.disjoint ∧
    ∀ uid : Nat,
      ((runUIResourceCalls (exampleHost true)
          [UIResourceCall.CreateUIResource 7, UIResourceCall.DeleteUIResource 7,
           UIResourceCall.CreateUIResource 8, UIResourceCall.ClearUIResources,
           UIResourceCall.CreateUIResource 9,
           UIResourceCall.EvictAllUIResources]).activation.ui_resources.has_valid_compositor_frame_sink_ =
          false →
        uid ∈ (stepUIResourceCall (runUIResourceCalls (exampleHost true)
          [UIResourceCall.CreateUIResource 7, UIResourceCall.DeleteUIResource 7,
           UIResourceCall.CreateUIResource 8, UIResourceCall.ClearUIResources,
           UIResourceCall.CreateUIResource 9, UIResourceCall.EvictAllUIResources])
          (UIResourceCall.CreateUIResource uid)).activation.ui_resources.evicted_ui_resources_ ∧
        uid ∉ (stepUIResourceCall (runUIResourceCalls (exampleHost true)
          [UIResourceCall.CreateUIResource 7, UIResourceCall.DeleteUIResource 7,
           UIResourceCall.CreateUIResource 8, UIResourceCall.ClearUIResources,
           UIResourceCall.CreateUIResource 9, UIResourceCall.EvictAllUIResources])
          (UIResourceCall.CreateUIResource uid)).activation.ui_resources.ui_resource_map_) ∧
      ((runUIResourceCalls (exampleHost true)
          [UIResourceCall.CreateUIResource 7, UIResourceCall.DeleteUIResource 7,
           UIResourceCall.CreateUIResource 8, UIResourceCall.ClearUIResources,
           UIResourceCall.CreateUIResource 9,
           UIResourceCall.EvictAllUIResources]).activation.ui_resources.has_valid_compositor_frame_sink_ =
          true →
        uid ∈ (stepUIResourceCall (runUIResourceCalls (exampleHost true)
          [UIResourceCall.CreateUIResource 7, UIResourceCall.DeleteUIResource 7,
           UIResourceCall.CreateUIResource 8, UIResourceCall.ClearUIResources,
           UIResourceCall.CreateUIResource 9, UIResourceCall.EvictAllUIResources])
          (UIResourceCall.CreateUIResource uid)).activation.ui_resources.ui_resource_map_ ∧
        uid ∉ (stepUIResourceCall (runUIResourceCalls (exampleHost true)
          [UIResourceCall.CreateUIResource 7, UIResourceCall.DeleteUIResource 7,
           UIResourceCall.CreateUIResource 8, UIResourceCall.ClearUIResources,
           UIResourceCall.CreateUIResource 9, UIResourceCall.EvictAllUIResources])
          (UIResourceCall.CreateUIResource uid)).activation.ui_resources.evicted_ui_resources_) :=
  ui_resources_never_mapped_and_evicted (exampleHost true)
    [UIResourceCall.CreateUIResource 7, UIResourceCall.DeleteUIResource 7,
     UIResourceCall.CreateUIResource 8, UIResourceCall.ClearUIResources,
     UIResourceCall.CreateUIResource 9, UIResourceCall.EvictAllUIResources]
    (by decide)

end LayerTreeHostImpl
